import Mathlib

/-!
# Lincity-NG `GameView`: a shallow embedding and its verified properties

The definitions below follow `src/lincity-ng/GameView.cpp` function by function.

Modelling conventions
* C `float`/`double` values are modelled by exact rationals (`ℚ`): every result is a
  statement about the arithmetic the code writes down, without rounding.
* C `int` tile coordinates are modelled by `Int`; the sole place where the code relies on
  unsigned wrap-around (the tick difference of the pan gesture) keeps an explicit `% 2^32`.
* Calls to collaborators (minimap, map editor, SDL, painter) are recorded in logs that are
  part of the state, in call order.
* `while`/`for` loops are modelled by fuel-indexed recursion; running out of fuel is `none`.
-/

namespace LincityNG

/-! ## Data model -/

/-- Pixel pair `Vector2` (two floats). -/
@[ext]
structure Vector2 where
  x : ℚ
  y : ℚ
deriving DecidableEq

/-- Tile coordinate `MapPoint` (two ints). -/
@[ext]
structure MapPoint where
  x : Int
  y : Int
deriving DecidableEq

/-- Axis-aligned rectangle `Rect2D` given by its corners `p1` (top-left), `p2` (bottom-right). -/
structure Rect2D where
  p1 : Vector2
  p2 : Vector2
deriving DecidableEq

/-- Colour with four 8-bit channels. -/
structure Color where
  r : Nat
  g : Nat
  b : Nat
  a : Nat
deriving DecidableEq

/-- Decoded image (`SDL_Surface`): only its pixel size is read by `GameView`. -/
structure Image where
  w : Int
  h : Int
deriving DecidableEq

/-- Uploaded texture: only its size is read by `GameView`. -/
structure Texture where
  width : ℚ
  height : ℚ
deriving DecidableEq

/-- Constants and library functions that `GameView.cpp` uses but that are declared in headers
outside the shown sources (`GameView.hpp`, the `lincity` headers, `math.h`, the texture
manager, the colours that `Color::parse` gives for the names black and green). They are
parameters of the embedding. -/
structure Params where
  defaultTileWidth : ℚ
  defaultTileHeight : ℚ
  WORLD_SIDE_LEN : Int
  CST_GREEN : Int
  CST_USED : Int
  CST_EX_PORT : Int
  GROUP_WATER : Int
  FLAG_IS_RIVER : Nat
  overlayNone : Int
  overlayOn : Int
  overlayOnly : Int
  overlayMAX : Int
  sqrt : ℚ → ℚ
  textureCreate : Image → Texture
  black : Color
  green : Color

/-- World grid collaborator: the accessors `MP_TYPE`, `MP_GROUP`, `MP_INFO(..).int_1`,
`MP_INFO(..).int_2`, `MP_INFO(..).flags` and `MP_SIZE`, and the minimap colour lookup. -/
structure World where
  MP_TYPE : Int → Int → Int
  MP_GROUP : Int → Int → Int
  MP_INFO_int_1 : Int → Int → Int
  MP_INFO_int_2 : Int → Int → Int
  MP_INFO_flags : Int → Int → Nat
  MP_SIZE : Int → Int → Int
  getColor : Int → Int → Color

/-- Values read from the surroundings while an event is handled or a frame is drawn:
the clock `SDL_GetTicks()` (a `Uint32`), the global `blockingDialogIsOpen` and the global
`selected_module_type`. -/
structure Env where
  ticks : Nat
  blockingDialogIsOpen : Bool
  selected_module_type : Int

/-- Calls made to collaborators other than the painter, in call order. -/
inductive Effect where
  | setDirty
  | setGameViewCorners (upperLeft upperRight lowerRight lowerLeft : MapPoint)
  | editMap (tile : MapPoint)
  | warpMouse (x y : ℚ)
  | showCursor (enable : Bool)
  | grabInput (grab : Bool)
  | setView (tile : MapPoint)
deriving DecidableEq

/-- Primitive handed to the painter, together with the colour that was current. -/
inductive Prim where
  | fillRectangle (c : Color) (r : Rect2D)
  | fillPolygon (c : Color) (pts : List Vector2)
  | drawPolygon (c : Color) (pts : List Vector2)
  | drawTexture (t : Texture) (p : Vector2)
  | drawStretchTexture (t : Texture) (r : Rect2D)
deriving DecidableEq

/-- Painter collaborator: current fill and line colour, and the primitives drawn so far. -/
structure Painter where
  fillColor : Color
  lineColor : Color
  out : List Prim
deriving DecidableEq

inductive EventType where
  | MOUSEMOTION
  | MOUSEBUTTONDOWN
  | MOUSEBUTTONUP
  | KEYUP
  | KEYDOWN
deriving DecidableEq

inductive MouseButton where
  | LEFT
  | MIDDLE
  | RIGHT
  | WHEELUP
  | WHEELDOWN
  | NONE
deriving DecidableEq

inductive Key where
  | SDLK_h
  | SDLK_v
  | SDLK_KP_PLUS
  | SDLK_KP_MINUS
  | SDLK_KP_ENTER
  | SDLK_KP1
  | SDLK_KP2
  | SDLK_KP3
  | SDLK_KP4
  | SDLK_KP5
  | SDLK_KP6
  | SDLK_KP7
  | SDLK_KP8
  | SDLK_KP9
  | SDLK_UP
  | SDLK_DOWN
  | SDLK_LEFT
  | SDLK_RIGHT
  | SDLK_OTHER
deriving DecidableEq

/-- Input event; `shift` is the test `event.keysym.mod & KMOD_SHIFT`. -/
structure Event where
  type : EventType
  mousepos : Vector2
  inside : Bool
  mousebutton : MouseButton
  sym : Key
  shift : Bool

/-- Member variables of the `GameView` component, the size of the component
(`getWidth()`, `getHeight()`), and the log of collaborator calls. -/
structure GameView where
  zoom : ℚ
  tileWidth : ℚ
  tileHeight : ℚ
  virtualScreenWidth : ℚ
  virtualScreenHeight : ℚ
  viewport : Vector2
  width : ℚ
  height : ℚ
  mouseInGameView : Bool
  dragging : Bool
  roadDragging : Bool
  leftButtonDown : Bool
  middleButtonDown : Bool
  startRoad : MapPoint
  tileUnderMouse : MapPoint
  dragStart : Vector2
  dragStartTime : Nat
  hideHigh : Bool
  cursorSize : Int
  mapOverlay : Int
  blankTexture : Texture
  cityTextures : Int → Option Texture
  cityImages : Int → Option Image
  cityTextureX : Int → Int
  cityTextureY : Int → Int
  log : List Effect

namespace Vector2

/-- Componentwise sum, `operator+`. -/
def add (a b : Vector2) : Vector2 := ⟨a.x + b.x, a.y + b.y⟩

/-- Componentwise difference, `operator-`. -/
def sub (a b : Vector2) : Vector2 := ⟨a.x - b.x, a.y - b.y⟩

/-- Scaling by a float, `operator*=`. -/
def smul (k : ℚ) (a : Vector2) : Vector2 := ⟨a.x * k, a.y * k⟩

end Vector2

namespace Rect2D

def getWidth (r : Rect2D) : ℚ := r.p2.x - r.p1.x

def getHeight (r : Rect2D) : ℚ := r.p2.y - r.p1.y

/-- Constructor `Rect2D(x1, y1, x2, y2)`. -/
def ofCorners (x1 y1 x2 y2 : ℚ) : Rect2D := ⟨⟨x1, y1⟩, ⟨x2, y2⟩⟩

/-- Translate by `v`, `Rect2D::move`. -/
def move (r : Rect2D) (v : Vector2) : Rect2D := ⟨r.p1.add v, r.p2.add v⟩

/-- Keep `p1`, set the extent, `Rect2D::setSize`. -/
def setSize (r : Rect2D) (w h : ℚ) : Rect2D := ⟨r.p1, ⟨r.p1.x + w, r.p1.y + h⟩⟩

end Rect2D

namespace GameView

/-! ## Coordinate transform -/

/-- Source `GameView::getScreenPoint`: the point on screen where the lower corner of the tile
is placed. -/
def getScreenPoint (s : GameView) (map : MapPoint) : Vector2 :=
  let px : ℚ := s.virtualScreenWidth / 2 + ((map.x - map.y : Int) : ℚ) * (s.tileWidth / 2)
  let py : ℚ := ((map.x + map.y : Int) : ℚ) * (s.tileHeight / 2)
  let py := py + s.tileHeight
  (Vector2.mk px py).sub s.viewport

/-- Source `GameView::getTile`: the tile at a point of the component. -/
def getTile (s : GameView) (p : Vector2) : MapPoint :=
  let point := p.add s.viewport
  let x : ℚ := (point.x - s.virtualScreenWidth / 2) / s.tileWidth + point.y / s.tileHeight
  { x := ⌊x⌋, y := ⌊2 * point.y / s.tileHeight - x⌋ }

/-- Source `GameView::getCenter`: the tile in the centre of the component. -/
def getCenter (s : GameView) : MapPoint :=
  s.getTile ⟨s.width / 2, s.height / 2⟩

/-- Source `GameView::requestRedraw`: tell the minimap the four corner tiles, then mark dirty. -/
def requestRedraw (s : GameView) : GameView :=
  { s with log := s.log ++
      [Effect.setGameViewCorners (s.getTile ⟨0, 0⟩) (s.getTile ⟨s.width, 0⟩)
        (s.getTile ⟨s.width, s.height⟩) (s.getTile ⟨0, s.height⟩),
       Effect.setDirty] }

/-- Source `Component::setDirty`. -/
def setDirty (s : GameView) : GameView :=
  { s with log := s.log ++ [Effect.setDirty] }

/-- Source `GameView::show` (renamed, `show` being reserved): centre the screen on a tile. -/
def showTile (s : GameView) (map : MapPoint) : GameView :=
  let cx : ℚ := s.virtualScreenWidth / 2 + ((map.x - map.y : Int) : ℚ) * (s.tileWidth / 2)
  let cy : ℚ := ((map.x + map.y : Int) : ℚ) * (s.tileHeight / 2) + s.tileHeight / 2
  requestRedraw { s with viewport := ⟨cx - s.width / 2, cy - s.height / 2⟩ }

/-- Source `GameView::recenter`: `pos` becomes the new centre of the screen. -/
def recenter (s : GameView) (pos : Vector2) : GameView :=
  let position := pos.add s.viewport
  requestRedraw { s with viewport :=
    ⟨((⌊position.x - s.width / 2⌋ : Int) : ℚ), ((⌊position.y - s.height / 2⌋ : Int) : ℚ)⟩ }

/-- Source `GameView::resize`. -/
def resize (s : GameView) (newwidth newheight : ℚ) : GameView :=
  requestRedraw { s with width := newwidth, height := newheight }

/-- Source `GameView::setCursorSize`. -/
def setCursorSize (s : GameView) (size : Int) : GameView :=
  if size ≠ s.cursorSize then setDirty { s with cursorSize := size } else s

/-! ## Zoom -/

/-- Source `GameView::setZoom`. The literals `.125` and `.01` are the rationals `1/8`, `1/100`. -/
def setZoom (c : Params) (s : GameView) (newzoom : ℚ) : GameView :=
  let centerTile := s.getCenter
  if newzoom < 1 / 8 then s
  else if newzoom > 4 then s
  else
    let zoom : ℚ := newzoom
    let zoom : ℚ := if |zoom - 1| < 1 / 100 then 1 else zoom
    let tileWidth := c.defaultTileWidth * zoom
    let tileHeight := c.defaultTileHeight * zoom
    showTile { s with
      zoom := zoom
      tileWidth := tileWidth
      tileHeight := tileHeight
      virtualScreenWidth := tileWidth * c.WORLD_SIDE_LEN
      virtualScreenHeight := tileHeight * c.WORLD_SIDE_LEN } centerTile

/-- Source `GameView::resetZoom`. -/
def resetZoom (c : Params) (s : GameView) : GameView := setZoom c s 1

/-- Source `GameView::zoomIn`: `setZoom( zoom * sqrt( 2 ) )`. -/
def zoomIn (c : Params) (s : GameView) : GameView := setZoom c s (s.zoom * c.sqrt 2)

/-- Source `GameView::zoomOut`: `setZoom( zoom / sqrt( 2 ) )`. -/
def zoomOut (c : Params) (s : GameView) : GameView := setZoom c s (s.zoom / c.sqrt 2)

/-! ## Input events -/

/-- The statement `int elapsed = now - dragStartTime;` on two `Uint32` values: the difference is
taken modulo `2^32` and then read as a signed 32-bit integer. -/
def elapsedTicks (now dragStartTime : Nat) : Int :=
  let d : Nat := (now % 2 ^ 32 + 2 ^ 32 - dragStartTime % 2 ^ 32) % 2 ^ 32
  if d < 2 ^ 31 then (d : Int) else (d : Int) - 2 ^ 32

/-- Source `GameView::event`, `case Event::MOUSEMOTION`. -/
def eventMouseMotion (c : Params) (env : Env) (s : GameView) (event : Event) : GameView :=
  if s.dragging then
    let now := env.ticks
    let dragDistance := event.mousepos.sub s.dragStart
    let elapsed : Int := elapsedTicks now s.dragStartTime
    if elapsed < 30 then s
    else
      let dragLength : ℚ :=
        c.sqrt (dragDistance.x * dragDistance.x + dragDistance.y * dragDistance.y)
      let vPixelSec : ℚ := (1000 * dragLength) / (elapsed : ℚ)
      let s1 : GameView :=
        if vPixelSec < 2000 then
          let accel : ℚ := 1
          let accelThreshold : ℚ := 200
          let max_accel : ℚ := 8
          let accel : ℚ := if vPixelSec > accelThreshold then 1 + ((vPixelSec - 200) / 100) else accel
          let accel : ℚ := if accel > max_accel then max_accel else accel
          let dragDistance := dragDistance.smul accel
          { s with
            viewport := s.viewport.add dragDistance
            log := s.log ++ [Effect.warpMouse s.dragStart.x s.dragStart.y] }
        else s
      setDirty { s1 with dragStartTime := now }
  else if !event.inside then { s with mouseInGameView := false }
  else
    let s := { s with mouseInGameView := true }
    let s : GameView :=
      if !s.dragging && s.middleButtonDown then
        { s with
          dragging := true
          dragStart := event.mousepos
          log := s.log ++ [Effect.showCursor false, Effect.grabInput true]
          dragStartTime := env.ticks }
      else s
    let tile := s.getTile event.mousepos
    let s : GameView :=
      if !s.roadDragging && s.leftButtonDown && decide (s.cursorSize = 1) then
        { s with roadDragging := true, startRoad := tile }
      else s
    if s.tileUnderMouse ≠ tile then setDirty { s with tileUnderMouse := tile } else s

/-- Source `GameView::event`, `case Event::MOUSEBUTTONDOWN`. -/
def eventMouseButtonDown (s : GameView) (event : Event) : GameView :=
  if !event.inside then s
  else if event.mousebutton = MouseButton.MIDDLE then
    { s with dragging := false, middleButtonDown := true }
  else if event.mousebutton = MouseButton.LEFT then
    { s with roadDragging := false, leftButtonDown := true }
  else s

/-- First loop of the road release, `while( currenTile.x != endRoad.x )`: the loop state is
the current tile and the log of collaborator calls. -/
def roadWalkX (blocking : Bool) (endRoad : MapPoint) (stepx : Int) :
    Nat → MapPoint → List Effect → Option (MapPoint × List Effect)
  | 0, _, _ => none
  | fuel + 1, currenTile, log =>
    if currenTile.x ≠ endRoad.x then
      let log := if !blocking then log ++ [Effect.editMap currenTile] else log
      roadWalkX blocking endRoad stepx fuel { currenTile with x := currenTile.x + stepx } log
    else some (currenTile, log)

/-- Second loop of the road release, `while( currenTile.y != endRoad.y )`. -/
def roadWalkY (blocking : Bool) (endRoad : MapPoint) (stepy : Int) :
    Nat → MapPoint → List Effect → Option (MapPoint × List Effect)
  | 0, _, _ => none
  | fuel + 1, currenTile, log =>
    if currenTile.y ≠ endRoad.y then
      let log := if !blocking then log ++ [Effect.editMap currenTile] else log
      roadWalkY blocking endRoad stepy fuel { currenTile with y := currenTile.y + stepy } log
    else some (currenTile, log)

/-- Source `GameView::event`, `case Event::MOUSEBUTTONUP`, from the test
`event.mousebutton == SDL_BUTTON_LEFT` on (the part after the middle-button block). -/
def eventMouseButtonUpLeft (c : Params) (env : Env) (fuel : Nat) (s : GameView) (event : Event) :
    Option GameView :=
  if event.mousebutton = MouseButton.LEFT ∧ s.roadDragging = true ∧ event.inside = true then
    let endRoad := s.getTile event.mousepos
    let s := { s with roadDragging := false, leftButtonDown := false }
    let stepx : Int := if s.startRoad.x > endRoad.x then -1 else 1
    let stepy : Int := if s.startRoad.y > endRoad.y then -1 else 1
    match roadWalkX env.blockingDialogIsOpen endRoad stepx fuel s.startRoad s.log with
    | none => none
    | some (currenTile, log) =>
      match roadWalkY env.blockingDialogIsOpen endRoad stepy fuel currenTile log with
      | none => none
      | some (currenTile, log) =>
        let log := if !env.blockingDialogIsOpen then log ++ [Effect.editMap currenTile] else log
        some { s with log := log }
  else
    let s : GameView :=
      if event.mousebutton = MouseButton.LEFT then
        { s with roadDragging := false, leftButtonDown := false }
      else s
    if !event.inside then some s
    else
      let tile := s.getTile event.mousepos
      match event.mousebutton with
      | MouseButton.LEFT =>
        if !env.blockingDialogIsOpen then some { s with log := s.log ++ [Effect.editMap tile] }
        else some s
      | MouseButton.MIDDLE => some (s.recenter event.mousepos)
      | MouseButton.RIGHT => some { s with log := s.log ++ [Effect.setView tile] }
      | MouseButton.WHEELUP => some (zoomIn c s)
      | MouseButton.WHEELDOWN => some (zoomOut c s)
      | MouseButton.NONE => some s

/-- Source `GameView::event`, `case Event::MOUSEBUTTONUP`. -/
def eventMouseButtonUp (c : Params) (env : Env) (fuel : Nat) (s : GameView) (event : Event) :
    Option GameView :=
  if event.mousebutton = MouseButton.MIDDLE then
    if s.dragging then
      some { s with
        dragging := false
        middleButtonDown := false
        log := s.log ++ [Effect.showCursor true, Effect.grabInput false] }
    else
      eventMouseButtonUpLeft c env fuel { s with dragging := false, middleButtonDown := false } event
  else eventMouseButtonUpLeft c env fuel s event

/-- Source `GameView::event`, `case Event::KEYUP`. -/
def eventKeyUp (c : Params) (s : GameView) (event : Event) : GameView :=
  let stepx : ℚ := s.tileWidth / 2
  let stepy : ℚ := s.tileHeight / 2
  if event.sym = Key.SDLK_h then
    requestRedraw { s with hideHigh := if s.hideHigh then false else true }
  else if event.sym = Key.SDLK_v then
    let mapOverlay := s.mapOverlay + 1
    let mapOverlay := if mapOverlay > c.overlayMAX then c.overlayNone else mapOverlay
    requestRedraw { s with mapOverlay := mapOverlay }
  else if event.sym = Key.SDLK_KP_PLUS then zoomIn c s
  else if event.sym = Key.SDLK_KP_MINUS then zoomOut c s
  else if event.sym = Key.SDLK_KP_ENTER then resetZoom c s
  else
    let stepx : ℚ := if event.shift then 5 * s.tileWidth else stepx
    let stepy : ℚ := if event.shift then 5 * s.tileHeight else stepy
    if event.sym = Key.SDLK_KP9 then
      setDirty { s with viewport := ⟨s.viewport.x + stepx, s.viewport.y - stepy⟩ }
    else if event.sym = Key.SDLK_KP1 then
      setDirty { s with viewport := ⟨s.viewport.x - stepx, s.viewport.y + stepy⟩ }
    else if event.sym = Key.SDLK_KP8 ∨ event.sym = Key.SDLK_UP then
      setDirty { s with viewport := ⟨s.viewport.x, s.viewport.y - stepy⟩ }
    else if event.sym = Key.SDLK_KP2 ∨ event.sym = Key.SDLK_DOWN then
      setDirty { s with viewport := ⟨s.viewport.x, s.viewport.y + stepy⟩ }
    else if event.sym = Key.SDLK_KP7 then
      setDirty { s with viewport := ⟨s.viewport.x - stepx, s.viewport.y - stepy⟩ }
    else if event.sym = Key.SDLK_KP3 then
      setDirty { s with viewport := ⟨s.viewport.x + stepx, s.viewport.y + stepy⟩ }
    else if event.sym = Key.SDLK_KP6 ∨ event.sym = Key.SDLK_RIGHT then
      setDirty { s with viewport := ⟨s.viewport.x + stepx, s.viewport.y⟩ }
    else if event.sym = Key.SDLK_KP4 ∨ event.sym = Key.SDLK_LEFT then
      setDirty { s with viewport := ⟨s.viewport.x - stepx, s.viewport.y⟩ }
    else if event.sym = Key.SDLK_KP5 then
      setDirty (showTile s ⟨c.WORLD_SIDE_LEN / 2, c.WORLD_SIDE_LEN / 2⟩)
    else s

/-- Source `GameView::event`. The result is `none` only when the fuel given to the two road
loops runs out. -/
def event (c : Params) (env : Env) (fuel : Nat) (s : GameView) (ev : Event) : Option GameView :=
  match ev.type with
  | EventType.MOUSEMOTION => some (eventMouseMotion c env s ev)
  | EventType.MOUSEBUTTONDOWN => some (eventMouseButtonDown s ev)
  | EventType.MOUSEBUTTONUP => eventMouseButtonUp c env fuel s ev
  | EventType.KEYUP => some (eventKeyUp c s ev)
  | EventType.KEYDOWN => some s

/-! ## Drawing -/

/-- Painter call `setFillColor`. -/
def setFillColor (painter : Painter) (col : Color) : Painter :=
  { painter with fillColor := col }

/-- Painter call `setLineColor`. -/
def setLineColor (painter : Painter) (col : Color) : Painter :=
  { painter with lineColor := col }

/-- The four corner points (top, left, bottom, right) that `fillDiamond` and `drawDiamond`
compute for a rectangle. -/
def diamondPoints (rect : Rect2D) : List Vector2 :=
  [ ⟨rect.p1.x + rect.getWidth / 2, rect.p1.y⟩,
    ⟨rect.p1.x, rect.p1.y + rect.getHeight / 2⟩,
    ⟨rect.p1.x + rect.getWidth / 2, rect.p2.y⟩,
    ⟨rect.p2.x, rect.p1.y + rect.getHeight / 2⟩ ]

/-- Source `GameView::fillDiamond`. -/
def fillDiamond (painter : Painter) (rect : Rect2D) : Painter :=
  { painter with out := painter.out ++ [Prim.fillPolygon painter.fillColor (diamondPoints rect)] }

/-- Source `GameView::drawDiamond`. -/
def drawDiamond (painter : Painter) (rect : Rect2D) : Painter :=
  { painter with out := painter.out ++ [Prim.drawPolygon painter.lineColor (diamondPoints rect)] }

/-- Source `GameView::drawTile`. The state is returned as well, because the texture tables are
updated when a decoded image is turned into a texture. -/
def drawTile (c : Params) (w : World) (s : GameView) (painter : Painter) (tile : MapPoint) :
    GameView × Painter :=
  let tilerect := Rect2D.ofCorners 0 0 s.tileWidth s.tileHeight
  let tileOnScreenPoint := s.getScreenPoint tile
  if tile.x < 0 ∨ tile.y < 0 ∨ tile.x ≥ c.WORLD_SIDE_LEN ∨ tile.y ≥ c.WORLD_SIDE_LEN then
    let tileOnScreenPoint : Vector2 :=
      ⟨tileOnScreenPoint.x - (s.blankTexture.width / 2) * s.zoom,
       tileOnScreenPoint.y - s.blankTexture.height * s.zoom⟩
    let tilerect := tilerect.move tileOnScreenPoint
    let tilerect := tilerect.setSize (s.blankTexture.width * s.zoom) (s.blankTexture.height * s.zoom)
    if s.zoom = 1 then
      (s, { painter with out := painter.out ++ [Prim.drawTexture s.blankTexture tilerect.p1] })
    else
      (s, { painter with out := painter.out ++ [Prim.drawStretchTexture s.blankTexture tilerect] })
  else
    let used : Bool := decide (w.MP_TYPE tile.x tile.y = c.CST_USED)
    let upperLeftX : Int := if used then w.MP_INFO_int_1 tile.x tile.y else tile.x
    let upperLeftY : Int := if used then w.MP_INFO_int_2 tile.x tile.y else tile.y
    let size : Int := w.MP_SIZE upperLeftX upperLeftY
    if tile.x ≠ upperLeftX ∨ tile.y - size + 1 ≠ upperLeftY then (s, painter)
    else if size > 1 ∧ s.hideHigh = true then (s, painter)
    else
      let tileOnScreenPoint : Vector2 :=
        if size > 1 then s.getScreenPoint ⟨tile.x + size - 1, tile.y⟩ else tileOnScreenPoint
      let textureType : Int := w.MP_TYPE upperLeftX upperLeftY
      let promoted : GameView × Option Texture :=
        match s.cityTextures textureType with
        | some texture => (s, some texture)
        | none =>
          match s.cityImages textureType with
          | some image =>
            ({ s with
                cityTextures := Function.update s.cityTextures textureType (some (c.textureCreate image))
                cityImages := Function.update s.cityImages textureType none },
              some (c.textureCreate image))
          | none => (s, none)
      match promoted.2 with
      | some texture =>
        let tileOnScreenPoint : Vector2 :=
          ⟨tileOnScreenPoint.x - (s.cityTextureX textureType : ℚ) * s.zoom,
           tileOnScreenPoint.y - (s.cityTextureY textureType : ℚ) * s.zoom⟩
        let tilerect := tilerect.move tileOnScreenPoint
        let tilerect := tilerect.setSize (texture.width * s.zoom) (texture.height * s.zoom)
        if s.zoom = 1 then
          (promoted.1, { painter with out := painter.out ++ [Prim.drawTexture texture tilerect.p1] })
        else
          (promoted.1,
            { painter with out := painter.out ++ [Prim.drawStretchTexture texture tilerect] })
      | none =>
        let tileOnScreenPoint : Vector2 :=
          ⟨tileOnScreenPoint.x - s.tileWidth / 2, tileOnScreenPoint.y - s.tileHeight⟩
        let tilerect := tilerect.move tileOnScreenPoint
        let painter := setFillColor painter ⟨255, 0, 0, 255⟩
        (promoted.1, fillDiamond painter tilerect)

/-- Cursor colour `alphablue`. -/
def alphablue : Color := ⟨0, 0, 255, 128⟩

/-- Cursor colour `alphared`. -/
def alphared : Color := ⟨255, 0, 0, 128⟩

/-- Cursor colour `alphawhite`. -/
def alphawhite : Color := ⟨255, 255, 255, 128⟩

/-- Inner loop of `markTile`, `for( x = tile.x; x < tile.x + cursorSize; x++ )`: the loop state
is the painter and the outer counter `y`, which the body bumps by `cursorSize` before `break`. -/
def markTileRow (c : Params) (w : World) (cursorSize : Int) (tile : MapPoint) :
    Nat → Painter → Int → Int → Option (Painter × Int)
  | 0, _, _, _ => none
  | fuel + 1, painter, x, y =>
    if x < tile.x + cursorSize then
      if w.MP_TYPE x y ≠ c.CST_GREEN then some (setFillColor painter alphared, y + cursorSize)
      else markTileRow c w cursorSize tile fuel painter (x + 1) y
    else some (painter, y)

/-- Outer loop of `markTile`, `for( y = tile.y; y < tile.y + cursorSize; y++ )`. -/
def markTileRows (c : Params) (w : World) (cursorSize : Int) (tile : MapPoint) :
    Nat → Painter → Int → Option Painter
  | 0, _, _ => none
  | fuel + 1, painter, y =>
    if y < tile.y + cursorSize then
      match markTileRow c w cursorSize tile fuel painter tile.x y with
      | none => none
      | some (painter, y) => markTileRows c w cursorSize tile fuel painter (y + 1)
    else some painter

/-- Harbour loop of `markTile`: every cell of the column east of the cursor has to be river. -/
def markTilePort (c : Params) (w : World) (cursorSize : Int) (tile : MapPoint) (x : Int) :
    Nat → Painter → Int → Option Painter
  | 0, _, _ => none
  | fuel + 1, painter, y =>
    if y < tile.y + cursorSize then
      let painter :=
        if ¬ (w.MP_GROUP x y = c.GROUP_WATER ∧ (w.MP_INFO_flags x y &&& c.FLAG_IS_RIVER) ≠ 0) then
          setFillColor painter alphared
        else painter
      markTilePort c w cursorSize tile x fuel painter (y + 1)
    else some painter

/-- Source `GameView::markTile`. The result is `none` only when the fuel of a loop runs out. -/
def markTile (c : Params) (w : World) (env : Env) (fuel : Nat) (s : GameView) (painter : Painter)
    (tile : MapPoint) : Option Painter :=
  let tileOnScreenPoint := s.getScreenPoint tile
  if s.cursorSize = 0 then
    let painter := setLineColor painter alphawhite
    let tilerect := Rect2D.ofCorners 0 0 s.tileWidth s.tileHeight
    let tileOnScreenPoint : Vector2 :=
      ⟨tileOnScreenPoint.x - s.tileWidth / 2, tileOnScreenPoint.y - s.tileHeight⟩
    some (drawDiamond painter (tilerect.move tileOnScreenPoint))
  else
    let painter := setFillColor painter alphablue
    let x : Int := tile.x
    let y : Int := tile.y
    let scanned : Option Painter :=
      if x + s.cursorSize > c.WORLD_SIDE_LEN ∨ y + s.cursorSize > c.WORLD_SIDE_LEN ∨ x < 0 ∨ y < 0 then
        some (setFillColor painter alphared)
      else markTileRows c w s.cursorSize tile fuel painter tile.y
    match scanned with
    | none => none
    | some painter =>
      let checked : Option Painter :=
        if env.selected_module_type = c.CST_EX_PORT then
          markTilePort c w s.cursorSize tile (tile.x + s.cursorSize) fuel painter tile.y
        else some painter
      match checked with
      | none => none
      | some painter =>
        let tilerect :=
          Rect2D.ofCorners 0 0 (s.tileWidth * (s.cursorSize : ℚ)) (s.tileHeight * (s.cursorSize : ℚ))
        let tileOnScreenPoint : Vector2 :=
          ⟨tileOnScreenPoint.x - s.tileWidth * (s.cursorSize : ℚ) / 2,
           tileOnScreenPoint.y - s.tileHeight⟩
        some (fillDiamond painter (tilerect.move tileOnScreenPoint))

/-- Source `GameView::drawOverlay`. -/
def drawOverlay (c : Params) (w : World) (s : GameView) (painter : Painter) (tile : MapPoint) :
    Painter :=
  let tileOnScreenPoint := s.getScreenPoint tile
  let tilerect := Rect2D.ofCorners 0 0 s.tileWidth s.tileHeight
  let tileOnScreenPoint : Vector2 :=
    ⟨tileOnScreenPoint.x - s.tileWidth / 2, tileOnScreenPoint.y - s.tileHeight⟩
  let tilerect := tilerect.move tileOnScreenPoint
  let painter : Painter :=
    if tile.x > c.WORLD_SIDE_LEN ∨ tile.y > c.WORLD_SIDE_LEN ∨ tile.x < 0 ∨ tile.y < 0 then
      setFillColor painter c.black
    else
      let miniMapColor := w.getColor tile.x tile.y
      let miniMapColor : Color :=
        if s.mapOverlay = c.overlayOn then { miniMapColor with a := 200 } else miniMapColor
      setFillColor painter miniMapColor
  fillDiamond painter tilerect

/-- The four `if` statements at the head of `draw`: the centre tile moved into the grid, and
the flag `outside` that tells whether it had to be moved. -/
def drawClamp (c : Params) (centerTile : MapPoint) : MapPoint × Bool :=
  let outside := false
  let r : MapPoint × Bool :=
    if centerTile.x < 0 then ({ centerTile with x := 0 }, true) else (centerTile, outside)
  let r : MapPoint × Bool :=
    if r.1.x ≥ c.WORLD_SIDE_LEN then ({ r.1 with x := c.WORLD_SIDE_LEN - 1 }, true) else r
  let r : MapPoint × Bool :=
    if r.1.y < 0 then ({ r.1 with y := 0 }, true) else r
  let r : MapPoint × Bool :=
    if r.1.y ≥ c.WORLD_SIDE_LEN then ({ r.1 with y := c.WORLD_SIDE_LEN - 1 }, true) else r
  r

/-- The tiles visited by one enumeration pass of `draw`, in visiting order: the outer counter
`k` runs from 0 to `lastK`, the inner counter `i` from 0 to `lastI` (both bounds are fixed
before the loops and the bodies leave the counters alone). -/
def drawOrder (upperLeftTile : MapPoint) (lastK lastI : Int) : List MapPoint :=
  (List.range (lastK + 1).toNat).flatMap (fun (k : Nat) =>
    (List.range (lastI + 1).toNat).map (fun (i : Nat) =>
      (⟨upperLeftTile.x + (i : Int) + (k : Int) / 2 + (k : Int) % 2,
        upperLeftTile.y - (i : Int) + (k : Int) / 2⟩ : MapPoint)))

/-- The tiles that an enumeration pass of `draw` visits in state `s`, in visiting order: the
corner tiles of the component, the margin of 7 tiles, and the bounds of the two `for` loops, as
in the body of `draw`. -/
def visitedTiles (s : GameView) : List MapPoint :=
  let upperLeftTile := s.getTile ⟨0, 0⟩
  let upperRightTile := s.getTile ⟨s.width, 0⟩
  let lowerLeftTile := s.getTile ⟨0, s.height⟩
  let extratiles : Int := 7
  let upperLeftTile : MapPoint := { upperLeftTile with x := upperLeftTile.x - extratiles }
  let upperRightTile : MapPoint :=
    { x := upperRightTile.x + extratiles, y := upperRightTile.y - extratiles }
  let lowerLeftTile : MapPoint := { lowerLeftTile with y := lowerLeftTile.y + extratiles }
  drawOrder upperLeftTile (2 * (lowerLeftTile.y - upperLeftTile.y))
    (upperRightTile.x - upperLeftTile.x)

/-- First marker loop of `draw`, `while( currenTile.x != tileUnderMouse.x )`; `mfuel` is the
fuel handed to each `markTile` call. -/
def markWalkX (c : Params) (w : World) (env : Env) (s : GameView) (mfuel : Nat) (stepx : Int) :
    Nat → MapPoint → Painter → Option (MapPoint × Painter)
  | 0, _, _ => none
  | fuel + 1, currenTile, painter =>
    if currenTile.x ≠ s.tileUnderMouse.x then
      match markTile c w env mfuel s painter currenTile with
      | none => none
      | some painter =>
        markWalkX c w env s mfuel stepx fuel { currenTile with x := currenTile.x + stepx } painter
    else some (currenTile, painter)

/-- Second marker loop of `draw`, `while( currenTile.y != tileUnderMouse.y )`. -/
def markWalkY (c : Params) (w : World) (env : Env) (s : GameView) (mfuel : Nat) (stepy : Int) :
    Nat → MapPoint → Painter → Option (MapPoint × Painter)
  | 0, _, _ => none
  | fuel + 1, currenTile, painter =>
    if currenTile.y ≠ s.tileUnderMouse.y then
      match markTile c w env mfuel s painter currenTile with
      | none => none
      | some painter =>
        markWalkY c w env s mfuel stepy fuel { currenTile with y := currenTile.y + stepy } painter
    else some (currenTile, painter)

/-- Last part of `draw`, from the comment `Mark Tile under Mouse` on. -/
def drawMarker (c : Params) (w : World) (env : Env) (fuel : Nat) (s : GameView)
    (painter : Painter) : Option Painter :=
  if s.mouseInGameView && !env.blockingDialogIsOpen then
    let walked : Option Painter :=
      if s.roadDragging then
        let stepx : Int := if s.startRoad.x > s.tileUnderMouse.x then -1 else 1
        let stepy : Int := if s.startRoad.y > s.tileUnderMouse.y then -1 else 1
        match markWalkX c w env s fuel stepx fuel s.startRoad painter with
        | none => none
        | some (currenTile, painter) =>
          match markWalkY c w env s fuel stepy fuel currenTile painter with
          | none => none
          | some (_, painter) => some painter
      else some painter
    match walked with
    | none => none
    | some painter => markTile c w env fuel s painter s.tileUnderMouse
  else some painter

/-- Source `GameView::draw`. The result is `none` only when the fuel of a marker loop runs
out. -/
def draw (c : Params) (w : World) (env : Env) (fuel : Nat) (s : GameView) (painter : Painter) :
    Option (GameView × Painter) :=
  let centerTile := s.getCenter
  let clamped := drawClamp c centerTile
  if clamped.2 then some (s.showTile clamped.1, painter)
  else
    let upperLeftTile := s.getTile ⟨0, 0⟩
    let upperRightTile := s.getTile ⟨s.width, 0⟩
    let lowerLeftTile := s.getTile ⟨0, s.height⟩
    let painter := setFillColor painter c.green
    let painter : Painter :=
      { painter with
        out := painter.out ++ [Prim.fillRectangle painter.fillColor (Rect2D.ofCorners 0 0 s.width s.height)] }
    let extratiles : Int := 7
    let upperLeftTile : MapPoint := { upperLeftTile with x := upperLeftTile.x - extratiles }
    let upperRightTile : MapPoint :=
      { x := upperRightTile.x + extratiles, y := upperRightTile.y - extratiles }
    let lowerLeftTile : MapPoint := { lowerLeftTile with y := lowerLeftTile.y + extratiles }
    let order := drawOrder upperLeftTile (2 * (lowerLeftTile.y - upperLeftTile.y))
      (upperRightTile.x - upperLeftTile.x)
    let drawn : GameView × Painter :=
      if s.mapOverlay ≠ c.overlayOnly then
        order.foldl (fun sp currentTile => drawTile c w sp.1 sp.2 currentTile) (s, painter)
      else (s, painter)
    let painter : Painter :=
      if s.mapOverlay ≠ c.overlayNone then
        order.foldl (fun painter currentTile => drawOverlay c w drawn.1 painter currentTile) drawn.2
      else drawn.2
    match drawMarker c w env fuel drawn.1 painter with
    | none => none
    | some painter => some (drawn.1, painter)

/-! ## Set-up and asset loading -/

/-- Source `GameView::parse`, the part after the attribute loop. `videoX`, `videoY` are the
values of `getConfig()`, `blank` is what `readTexture( "blank.png" )` returned, and `s0` holds
the members that `parse` does not assign (size of the component, `leftButtonDown`,
`dragStartTime`, the anchor tables, the log). Starting the loader thread is not part of the
model. -/
def parse (c : Params) (videoX videoY : Int) (blank : Texture) (s0 : GameView) : GameView :=
  let zoom : ℚ := 1
  let tileWidth : ℚ := c.defaultTileWidth * zoom
  let tileHeight : ℚ := c.defaultTileHeight * zoom
  let virtualScreenWidth : ℚ := tileWidth * c.WORLD_SIDE_LEN
  let virtualScreenHeight : ℚ := tileHeight * c.WORLD_SIDE_LEN
  { s0 with
    blankTexture := blank
    cityTextures := fun _ => none
    cityImages := fun _ => none
    zoom := zoom
    tileWidth := tileWidth
    tileHeight := tileHeight
    virtualScreenWidth := virtualScreenWidth
    virtualScreenHeight := virtualScreenHeight
    viewport := ⟨((⌊(virtualScreenWidth - (videoX : ℚ)) / 2⌋ : Int) : ℚ),
      ((⌊(virtualScreenHeight - (videoY : ℚ)) / 2⌋ : Int) : ℚ)⟩
    mouseInGameView := false
    dragging := false
    roadDragging := false
    startRoad := ⟨0, 0⟩
    middleButtonDown := false
    tileUnderMouse := ⟨0, 0⟩
    dragStart := ⟨0, 0⟩
    hideHigh := false
    cursorSize := 0
    mapOverlay := c.overlayNone }

end GameView

/-- Node delivered by one `reader.read()` of the XML reader: whether it is an element, its
name, and its attributes in document order. -/
structure XmlNode where
  isElement : Bool
  name : String
  attributes : List (String × String)

namespace GameView

/-- Attribute loop of `preReadCityTexture`, `while(iter.next())`: the loop state is
`(hit, xmlX, xmlY)`; `scanInt` stands for `sscanf(value, "%i", ..)`, giving `none` when the
call does not return 1. -/
def scanAttributes (scanInt : String → Option Int) (filename : String) :
    List (String × String) → Bool × Int × Int → Bool × Int × Int
  | [], st => st
  | (name, value) :: rest, (hit, xmlX, xmlY) =>
    if name = "file" then
      scanAttributes scanInt filename rest (if filename = value then true else hit, xmlX, xmlY)
    else if name = "x" then
      scanAttributes scanInt filename rest
        (hit, (match scanInt value with
          | some v => v
          | none => -1), xmlY)
    else if name = "y" then
      scanAttributes scanInt filename rest
        (hit, xmlX, (match scanInt value with
          | some v => v
          | none => -1))
    else scanAttributes scanInt filename rest (hit, xmlX, xmlY)

/-- Node loop of `preReadCityTexture`, `while( reader.read() )`, left by `break` after the
first `image` element on which `hit` is set. -/
def scanNodes (scanInt : String → Option Int) (filename : String) :
    List XmlNode → Bool × Int × Int → Bool × Int × Int
  | [], st => st
  | node :: rest, st =>
    if node.isElement then
      if node.name = "image" then
        let st := scanAttributes scanInt filename node.attributes st
        if st.1 then st else scanNodes scanInt filename rest st
      else scanNodes scanInt filename rest st
    else scanNodes scanInt filename rest st

/-- Source `GameView::preReadCityTexture`. `stopThread` is the value read from the member of
that name, `manifest` the nodes of `images/tiles/images.xml`, `readImage` the result of
`GameView::readImage` per file name. The mutex is not part of the model. -/
def preReadCityTexture (stopThread : Bool) (manifest : List XmlNode)
    (readImage : String → Option Image) (scanInt : String → Option Int) (s : GameView)
    (textureType : Int) (filename : String) : GameView :=
  if stopThread then s
  else
    let xmlX : Int := -1
    let xmlY : Int := -1
    let hit := false
    let s := { s with cityImages := Function.update s.cityImages textureType (readImage filename) }
    match readImage filename with
    | none => s
    | some image =>
      let st := scanNodes scanInt filename manifest (hit, xmlX, xmlY)
      let s : GameView :=
        if st.1 = true ∧ st.2.1 ≥ 0 then
          { s with cityTextureX := Function.update s.cityTextureX textureType st.2.1 }
        else
          { s with cityTextureX := Function.update s.cityTextureX textureType (Int.tdiv image.w 2) }
      { s with cityTextureY := Function.update s.cityTextureY textureType image.h }

end GameView

/-! ## Concrete data used by the worked instances -/

/-- Square root that is exact on squares of rationals (integer square roots of numerator and
denominator); it stands for the C library `sqrt` in the worked instances. -/
def sqrtOnSquares (q : ℚ) : ℚ := (Nat.sqrt q.num.toNat : ℚ) / (Nat.sqrt q.den : ℚ)

/-- Parameters of the worked instances: tiles of 128 x 64 pixels on a 100 x 100 world. -/
def exampleParams : Params where
  defaultTileWidth := 128
  defaultTileHeight := 64
  WORLD_SIDE_LEN := 100
  CST_GREEN := 0
  CST_USED := 1
  CST_EX_PORT := 2
  GROUP_WATER := 3
  FLAG_IS_RIVER := 1
  overlayNone := 0
  overlayOn := 1
  overlayOnly := 2
  overlayMAX := 2
  sqrt := sqrtOnSquares
  textureCreate := fun image => ⟨image.w, image.h⟩
  black := ⟨0, 0, 0, 255⟩
  green := ⟨0, 128, 0, 255⟩

/-- State of the worked instances: the state `parse` sets up for an 800 x 600 component, no
tile art loaded. -/
def exampleView : GameView where
  zoom := 1
  tileWidth := 128
  tileHeight := 64
  virtualScreenWidth := 12800
  virtualScreenHeight := 6400
  viewport := ⟨6000, 2900⟩
  width := 800
  height := 600
  mouseInGameView := false
  dragging := false
  roadDragging := false
  leftButtonDown := false
  middleButtonDown := false
  startRoad := ⟨0, 0⟩
  tileUnderMouse := ⟨0, 0⟩
  dragStart := ⟨0, 0⟩
  dragStartTime := 0
  hideHigh := false
  cursorSize := 0
  mapOverlay := 0
  blankTexture := ⟨128, 64⟩
  cityTextures := fun _ => none
  cityImages := fun _ => none
  cityTextureX := fun _ => 0
  cityTextureY := fun _ => 0
  log := []

/-- Surroundings of the worked instances: clock at 0, no modal dialog, no harbour selected. -/
def exampleEnv : Env where
  ticks := 0
  blockingDialogIsOpen := false
  selected_module_type := 0

/-- The example view scrolled to the top of the map, in the middle of a road drag that
started on tile `S`. -/
def roadView (S : MapPoint) : GameView :=
  { exampleView with
    viewport := ⟨6000, 0⟩
    mouseInGameView := true
    roadDragging := true
    leftButtonDown := true
    cursorSize := 1
    startRoad := S }

/-- Left button released at pixel (400, 160), the centre of the diamond of tile (2,2) in
`roadView`. -/
def roadRelease : Event where
  type := EventType.MOUSEBUTTONUP
  mousepos := ⟨400, 160⟩
  inside := true
  mousebutton := MouseButton.LEFT
  sym := Key.SDLK_OTHER
  shift := false

/-- World of the worked instances: one building of footprint size 3 with main cell (4,4),
type 5, whose other eight cells are `CST_USED` cells pointing to (4,4); every other cell is
bare ground of size 1. -/
def footprintWorld : World where
  MP_TYPE := fun x y =>
    if x = 4 ∧ y = 4 then 5
    else if 4 ≤ x ∧ x < 7 ∧ 4 ≤ y ∧ y < 7 then exampleParams.CST_USED
    else exampleParams.CST_GREEN
  MP_GROUP := fun _ _ => 0
  MP_INFO_int_1 := fun x y => if 4 ≤ x ∧ x < 7 ∧ 4 ≤ y ∧ y < 7 then 4 else 0
  MP_INFO_int_2 := fun x y => if 4 ≤ x ∧ x < 7 ∧ 4 ≤ y ∧ y < 7 then 4 else 0
  MP_INFO_flags := fun _ _ => 0
  MP_SIZE := fun x y => if x = 4 ∧ y = 4 then 3 else 1
  getColor := fun _ _ => ⟨0, 0, 0, 255⟩

/-- The example view scrolled to the top of the map. -/
def topView : GameView := { exampleView with viewport := ⟨6000, 0⟩ }

/-- Painter of the worked instances: nothing drawn yet, colours black. -/
def emptyPainter : Painter where
  fillColor := ⟨0, 0, 0, 255⟩
  lineColor := ⟨0, 0, 0, 255⟩
  out := []

/-- The view `topView` with a 2 x 2 placement cursor selected. -/
def cursorView : GameView := { topView with cursorSize := 2 }

/-- The diamond of size `tileWidth x tileHeight` whose bottom corner is the point `q`, as the
list of its corners top, left, bottom, right. -/
def diamondOver (s : GameView) (q : Vector2) : List Vector2 :=
  [ ⟨q.x, q.y - s.tileHeight⟩,
    ⟨q.x - s.tileWidth / 2, q.y - s.tileHeight / 2⟩,
    ⟨q.x, q.y⟩,
    ⟨q.x + s.tileWidth / 2, q.y - s.tileHeight / 2⟩ ]

/-- The example view in the middle of a pan gesture: drag anchor (100,100), last accepted
sample at tick 1000. -/
def panView : GameView :=
  { topView with
    mouseInGameView := true
    dragging := true
    middleButtonDown := true
    dragStart := ⟨100, 100⟩
    dragStartTime := 1000 }

/-- Pointer motion to the pixel `pos`. -/
def motionTo (pos : Vector2) : Event where
  type := EventType.MOUSEMOTION
  mousepos := pos
  inside := true
  mousebutton := MouseButton.NONE
  sym := Key.SDLK_OTHER
  shift := false

/-- Surroundings of the worked instances with the clock at `ticks`. -/
def envAt (ticks : Nat) : Env := { exampleEnv with ticks := ticks }

/-- Drag speed in pixels per second: the value of the local variable `vPixelSec` of the pan
branch of `event`, for a sample at `mousepos` taken at clock value `now`. -/
def dragSpeed (c : Params) (s : GameView) (mousepos : Vector2) (now : Nat) : ℚ :=
  (1000 * c.sqrt ((mousepos.x - s.dragStart.x) * (mousepos.x - s.dragStart.x)
      + (mousepos.y - s.dragStart.y) * (mousepos.y - s.dragStart.y)))
    / ((GameView.elapsedTicks now s.dragStartTime : Int) : ℚ)

/-- The acceleration multiplier as the specification words it: 1 up to 200 pixels per second,
then growing linearly, capped at 8. -/
def panMultiplier (v : ℚ) : ℚ := if v ≤ 200 then 1 else min 8 (1 + (v - 200) / 100)

/-- The state `parse` sets up on the example view, for an 800 x 600 video mode. -/
def initialView : GameView := GameView.parse exampleParams 800 600 ⟨128, 64⟩ exampleView

/-- The viewport invariant: zoom lies in `[0.125, 4]`, the tile size is the base tile size
times zoom, and the virtual screen is the tile size times the side length of the world. -/
def ViewportInv (c : Params) (s : GameView) : Prop :=
  1 / 8 ≤ s.zoom ∧ s.zoom ≤ 4 ∧
    s.tileWidth = c.defaultTileWidth * s.zoom ∧
    s.tileHeight = c.defaultTileHeight * s.zoom ∧
    s.virtualScreenWidth = s.tileWidth * c.WORLD_SIDE_LEN ∧
    s.virtualScreenHeight = s.tileHeight * c.WORLD_SIDE_LEN

/-- States reachable from the state set up by `parse` through any sequence of `setZoom`,
`zoomIn`, `zoomOut`, `resetZoom`, `show`, `recenter`, `resize` and input events. -/
inductive Reachable (c : Params) : GameView → Prop where
  | parse (videoX videoY : Int) (blank : Texture) (s0 : GameView) :
      Reachable c (GameView.parse c videoX videoY blank s0)
  | setZoom (s : GameView) (newzoom : ℚ) : Reachable c s → Reachable c (GameView.setZoom c s newzoom)
  | zoomIn (s : GameView) : Reachable c s → Reachable c (GameView.zoomIn c s)
  | zoomOut (s : GameView) : Reachable c s → Reachable c (GameView.zoomOut c s)
  | resetZoom (s : GameView) : Reachable c s → Reachable c (GameView.resetZoom c s)
  | showTile (s : GameView) (map : MapPoint) : Reachable c s → Reachable c (s.showTile map)
  | recenter (s : GameView) (pos : Vector2) : Reachable c s → Reachable c (s.recenter pos)
  | resize (s : GameView) (newwidth newheight : ℚ) :
      Reachable c s → Reachable c (s.resize newwidth newheight)
  | event (s s1 : GameView) (env : Env) (fuel : Nat) (ev : Event) :
      Reachable c s → GameView.event c env fuel s ev = some s1 → Reachable c s1

/-- Key released, with or without the shift modifier. -/
def keyUp (k : Key) (shift : Bool) : Event where
  type := EventType.KEYUP
  mousepos := ⟨0, 0⟩
  inside := true
  mousebutton := MouseButton.NONE
  sym := k
  shift := shift

/-- The scroll keys: keypad 1-4 and 6-9, and the four arrow keys. -/
def scrollKeys : List Key :=
  [Key.SDLK_KP1, Key.SDLK_KP2, Key.SDLK_KP3, Key.SDLK_KP4, Key.SDLK_KP6, Key.SDLK_KP7,
    Key.SDLK_KP8, Key.SDLK_KP9, Key.SDLK_UP, Key.SDLK_DOWN, Key.SDLK_LEFT, Key.SDLK_RIGHT]

/-- The four corner tiles of the last `setGameViewCorners` call in a log, if there is one. -/
def lastCorners : List Effect → Option (MapPoint × MapPoint × MapPoint × MapPoint)
  | [] => none
  | e :: rest =>
    match lastCorners rest with
    | some q => some q
    | none =>
      match e with
      | Effect.setGameViewCorners a b c d => some (a, b, c, d)
      | _ => none

/-- The four corner tiles of the component in a state: `getTile` of (0,0), (width,0),
(width,height), (0,height). -/
def viewCorners (s : GameView) : MapPoint × MapPoint × MapPoint × MapPoint :=
  (s.getTile ⟨0, 0⟩, s.getTile ⟨s.width, 0⟩, s.getTile ⟨s.width, s.height⟩,
    s.getTile ⟨0, s.height⟩)

/-- Whether the pointer is hidden after the calls of a log: the argument of the last
`SDL_ShowCursor` call decides, and the pointer is visible before any such call. -/
def pointerHidden (log : List Effect) : Bool :=
  log.foldl (fun hidden e =>
    match e with
    | Effect.showCursor enable => !enable
    | _ => hidden) false

/-- Whether input is grabbed after the calls of a log: the argument of the last
`SDL_WM_GrabInput` call decides, and input is not grabbed before any such call. -/
def inputGrabbed (log : List Effect) : Bool :=
  log.foldl (fun grabbed e =>
    match e with
    | Effect.grabInput grab => grab
    | _ => grabbed) false

/-- Button `b` pressed at the pixel `pos` inside the view. -/
def buttonDown (b : MouseButton) (pos : Vector2) : Event where
  type := EventType.MOUSEBUTTONDOWN
  mousepos := pos
  inside := true
  mousebutton := b
  sym := Key.SDLK_OTHER
  shift := false

/-- The view `topView` with the cursor of a 1 x 1 building selected. -/
def cursor1View : GameView := { topView with cursorSize := 1 }

/-- Componentwise clamp of a tile to `[0, WORLD_SIDE_LEN - 1]`. -/
def clampTile (c : Params) (t : MapPoint) : MapPoint :=
  ⟨max 0 (min t.x (c.WORLD_SIDE_LEN - 1)), max 0 (min t.y (c.WORLD_SIDE_LEN - 1))⟩

/-- The state `s1` differs from `s` at most in the two tables of tile art. -/
def AgreeButTables (s s1 : GameView) : Prop :=
  ∃ (textures : Int → Option Texture) (images : Int → Option Image),
    s1 = { s with cityTextures := textures, cityImages := images }

/-- No tile type has both a decoded image and an uploaded texture. -/
def SingleOwner (s : GameView) : Prop :=
  ∀ t : Int, s.cityTextures t = none ∨ s.cityImages t = none

/-- The step of `drawTile` that turns a decoded image into a texture, on the tables alone:
the state after asking for the art of tile type `t`. -/
def promote (c : Params) (s : GameView) (t : Int) : GameView :=
  match s.cityTextures t with
  | some _ => s
  | none =>
    match s.cityImages t with
    | some image =>
      { s with
        cityTextures := Function.update s.cityTextures t (some (c.textureCreate image))
        cityImages := Function.update s.cityImages t none }
    | none => s

/-- The tile type whose art `drawTile` asks for when it visits `tile`, and `none` when it
returns before the texture lookup (tile outside the grid, not the canonical corner, or a
hidden big building). -/
def drawnType (c : Params) (w : World) (s : GameView) (tile : MapPoint) : Option Int :=
  if tile.x < 0 ∨ tile.y < 0 ∨ tile.x ≥ c.WORLD_SIDE_LEN ∨ tile.y ≥ c.WORLD_SIDE_LEN then none
  else
    let used : Bool := decide (w.MP_TYPE tile.x tile.y = c.CST_USED)
    let upperLeftX : Int := if used then w.MP_INFO_int_1 tile.x tile.y else tile.x
    let upperLeftY : Int := if used then w.MP_INFO_int_2 tile.x tile.y else tile.y
    let size : Int := w.MP_SIZE upperLeftX upperLeftY
    if tile.x ≠ upperLeftX ∨ tile.y - size + 1 ≠ upperLeftY then none
    else if size > 1 ∧ s.hideHigh = true then none
    else some (w.MP_TYPE upperLeftX upperLeftY)

/-- The example view scrolled far to the left of the map: the tile at the screen centre has a
negative column. -/
def offMapView : GameView := { exampleView with viewport := ⟨-3000, 0⟩ }

/-- The view `topView` holding a decoded image for tile type 5 that has not been uploaded
yet. -/
def artView : GameView :=
  { topView with cityImages := fun t => if t = 5 then some ⟨100, 80⟩ else none }

/-- A manifest of two `image` entries: the first declares `x` for another file, the second names
`f.png` and declares no `x`. -/
def staleManifest : List XmlNode :=
  [ ⟨true, "image", [("file", "a.png"), ("x", "5")]⟩,
    ⟨true, "image", [("file", "f.png")]⟩ ]

/-- Result of `sscanf(value, "%i", ..)` on the attribute values of the worked instances. -/
def exampleScanInt (value : String) : Option Int :=
  if value = "5" then some 5 else none

/-- Decoder of the worked instances: `f.png` decodes to an image of 100 x 80 pixels. -/
def exampleReadImage (filename : String) : Option Image :=
  if filename = "f.png" then some ⟨100, 80⟩ else none

/-- Anchor X as the specification words it: the `x` declared by the first manifest entry whose
`file` equals `filename`, when that entry exists and its `x` is a non-negative integer, and
half the image width otherwise. -/
def specAnchorX (scanInt : String → Option Int) (manifest : List XmlNode) (filename : String)
    (image : Image) : Int :=
  match manifest.find? (fun node =>
      node.isElement && decide (node.name = "image") &&
        decide (node.attributes.lookup "file" = some filename)) with
  | none => Int.tdiv image.w 2
  | some node =>
    match node.attributes.lookup "x" with
    | none => Int.tdiv image.w 2
    | some value =>
      match scanInt value with
      | none => Int.tdiv image.w 2
      | some v => if v ≥ 0 then v else Int.tdiv image.w 2

/-- The environment of the worked instances with a modal dialog open. -/
def dialogEnv : Env := { exampleEnv with blockingDialogIsOpen := true }

/-- The road drag from tile (0,0) of `roadView` with the pointer over tile (2,2). -/
def markerView : GameView := { roadView ⟨0, 0⟩ with tileUnderMouse := ⟨2, 2⟩ }

/-- World of the worked instances for the overlay: the minimap colour is green for every cell
of the 100 x 100 grid, and magenta for a lookup at any coordinate outside the grid. -/
def edgeWorld : World :=
  { footprintWorld with
    getColor := fun x y =>
      if 0 ≤ x ∧ x < 100 ∧ 0 ≤ y ∧ y < 100 then ⟨0, 128, 0, 255⟩ else ⟨255, 0, 255, 255⟩ }

/-- The example view showing the overlay alone. -/
def overlayView : GameView := { exampleView with mapOverlay := exampleParams.overlayOnly }

/-- World of the worked instances for the harbour cursor: every cell is bare (`CST_GREEN`);
every cell of the 100 x 100 grid is river water, and a read of `MP_GROUP` at any coordinate
outside the grid gives `outside`. -/
def riverWorld (outside : Int) : World where
  MP_TYPE := fun _ _ => exampleParams.CST_GREEN
  MP_GROUP := fun x y =>
    if 0 ≤ x ∧ x < 100 ∧ 0 ≤ y ∧ y < 100 then exampleParams.GROUP_WATER else outside
  MP_INFO_int_1 := fun _ _ => 0
  MP_INFO_int_2 := fun _ _ => 0
  MP_INFO_flags := fun _ _ => exampleParams.FLAG_IS_RIVER
  MP_SIZE := fun _ _ => 1
  getColor := fun _ _ => ⟨0, 0, 0, 255⟩

/-- The environment of the worked instances with the harbour selected for building. -/
def portEnv : Env := { exampleEnv with selected_module_type := exampleParams.CST_EX_PORT }

/-- The road path as the specification words it: first step x from `S.x` towards `E.x` by
`sign (E.x - S.x)` keeping `y = S.y` (the tiles before `x` reaches `E.x`), then step y from
`S.y` to `E.y` by `sign (E.y - S.y)` keeping `x = E.x`, the end tile included. -/
def specRoadPath (S E : MapPoint) : List MapPoint :=
  (List.range (E.x - S.x).natAbs).map (fun (i : Nat) => ⟨S.x + Int.sign (E.x - S.x) * (i : Int), S.y⟩) ++
    (List.range ((E.y - S.y).natAbs + 1)).map
      (fun (j : Nat) => ⟨E.x, S.y + Int.sign (E.y - S.y) * (j : Int)⟩)

/-! ## Coordinate transform: theorems -/

namespace GameView

theorem getTile_x_eq (s : GameView) (p : Vector2) :
    (s.getTile p).x =
      ⌊(p.x + s.viewport.x - s.virtualScreenWidth / 2) / s.tileWidth
        + (p.y + s.viewport.y) / s.tileHeight⌋ := rfl

theorem getTile_y_eq (s : GameView) (p : Vector2) :
    (s.getTile p).y =
      ⌊2 * (p.y + s.viewport.y) / s.tileHeight
        - ((p.x + s.viewport.x - s.virtualScreenWidth / 2) / s.tileWidth
          + (p.y + s.viewport.y) / s.tileHeight)⌋ := rfl

/-- C1 (counterexample). With 128 x 64 tiles, the screen point of tile (0,0) is picked as
tile (1,1): the round trip through `getScreenPoint` and `getTile` does not return the tile. -/
theorem getTile_getScreenPoint_ne :
    0 < exampleView.tileWidth ∧ 0 < exampleView.tileHeight ∧
      (0 : Int) ≤ 0 ∧ (0 : Int) < exampleParams.WORLD_SIDE_LEN ∧
      exampleView.getTile (exampleView.getScreenPoint ⟨0, 0⟩) = ⟨1, 1⟩ ∧
      exampleView.getTile (exampleView.getScreenPoint ⟨0, 0⟩) ≠ ⟨0, 0⟩ := by
  have h : exampleView.getTile (exampleView.getScreenPoint ⟨0, 0⟩) = ⟨1, 1⟩ := by
    apply MapPoint.ext
    · rw [getTile_x_eq]
      norm_num [getScreenPoint, Vector2.sub, exampleView]
    · rw [getTile_y_eq]
      norm_num [getScreenPoint, Vector2.sub, exampleView]
  refine ⟨by norm_num [exampleView], by norm_num [exampleView], le_refl _,
    by norm_num [exampleParams], h, ?_⟩
  rw [h]
  decide

/-- C1 (amended). For every view state with positive tile size and every tile `T`, picking the
screen point of `T` gives the tile one step further on both axes, `(T.x + 1, T.y + 1)`:
`getScreenPoint` returns the lower corner of the diamond of `T`, which is the upper corner of
the diamond of that neighbour. -/
theorem getTile_getScreenPoint (s : GameView) (T : MapPoint)
    (hw : 0 < s.tileWidth) (hh : 0 < s.tileHeight) :
    s.getTile (s.getScreenPoint T) = ⟨T.x + 1, T.y + 1⟩ := by
  have hw0 : s.tileWidth ≠ 0 := ne_of_gt hw
  have hh0 : s.tileHeight ≠ 0 := ne_of_gt hh
  apply MapPoint.ext
  · rw [getTile_x_eq]
    have e : ((s.getScreenPoint T).x + s.viewport.x - s.virtualScreenWidth / 2) / s.tileWidth
        + ((s.getScreenPoint T).y + s.viewport.y) / s.tileHeight = ((T.x + 1 : Int) : ℚ) := by
      simp only [getScreenPoint, Vector2.sub]
      push_cast
      field_simp
      ring
    rw [e, Int.floor_intCast]
  · rw [getTile_y_eq]
    have e : 2 * ((s.getScreenPoint T).y + s.viewport.y) / s.tileHeight
        - (((s.getScreenPoint T).x + s.viewport.x - s.virtualScreenWidth / 2) / s.tileWidth
          + ((s.getScreenPoint T).y + s.viewport.y) / s.tileHeight) = ((T.y + 1 : Int) : ℚ) := by
      simp only [getScreenPoint, Vector2.sub]
      push_cast
      field_simp
      ring
    rw [e, Int.floor_intCast]

/-- C1 (amended), worked instance: tile (2,5) in the example view. -/
theorem getTile_getScreenPoint_witness :
    0 < exampleView.tileWidth ∧ 0 < exampleView.tileHeight ∧
      exampleView.getTile (exampleView.getScreenPoint ⟨2, 5⟩) = ⟨2 + 1, 5 + 1⟩ :=
  ⟨by norm_num [exampleView], by norm_num [exampleView],
    getTile_getScreenPoint exampleView ⟨2, 5⟩ (by norm_num [exampleView])
      (by norm_num [exampleView])⟩

/-- C10. For every tile and view state, `getScreenPoint` returns
`X = virtualScreenWidth/2 + (x - y) * tileWidth/2 - viewport.x` and
`Y = (x + y) * tileHeight/2 + tileHeight - viewport.y`. -/
theorem getScreenPoint_eq (s : GameView) (T : MapPoint) :
    s.getScreenPoint T =
      ⟨s.virtualScreenWidth / 2 + ((T.x : ℚ) - (T.y : ℚ)) * s.tileWidth / 2 - s.viewport.x,
       ((T.x : ℚ) + (T.y : ℚ)) * s.tileHeight / 2 + s.tileHeight - s.viewport.y⟩ := by
  apply Vector2.ext
  · simp only [getScreenPoint, Vector2.sub]
    push_cast
    ring
  · simp only [getScreenPoint, Vector2.sub]
    push_cast
    ring

/-! ## Zoom: theorems -/

theorem floor_add_half (a : Int) : ⌊(a : ℚ) + 1 / 2⌋ = a := by
  rw [Int.floor_eq_iff]
  constructor <;> linarith

/-- After `show(map)` the tile in the centre of the component is `map`. -/
theorem getCenter_showTile (s : GameView) (map : MapPoint)
    (hw : 0 < s.tileWidth) (hh : 0 < s.tileHeight) :
    (s.showTile map).getCenter = map := by
  have hw0 : s.tileWidth ≠ 0 := ne_of_gt hw
  have hh0 : s.tileHeight ≠ 0 := ne_of_gt hh
  apply MapPoint.ext
  · show ((s.showTile map).getTile _).x = _
    rw [getTile_x_eq]
    have e : (s.width / 2 + (s.virtualScreenWidth / 2
          + ((map.x - map.y : Int) : ℚ) * (s.tileWidth / 2) - s.width / 2)
          - s.virtualScreenWidth / 2) / s.tileWidth
        + (s.height / 2 + (((map.x + map.y : Int) : ℚ) * (s.tileHeight / 2)
          + s.tileHeight / 2 - s.height / 2)) / s.tileHeight = (map.x : ℚ) + 1 / 2 := by
      push_cast
      field_simp
      ring
    simp only [showTile, requestRedraw]
    rw [e, floor_add_half]
  · show ((s.showTile map).getTile _).y = _
    rw [getTile_y_eq]
    have e : 2 * (s.height / 2 + (((map.x + map.y : Int) : ℚ) * (s.tileHeight / 2)
          + s.tileHeight / 2 - s.height / 2)) / s.tileHeight
        - ((s.width / 2 + (s.virtualScreenWidth / 2
          + ((map.x - map.y : Int) : ℚ) * (s.tileWidth / 2) - s.width / 2)
          - s.virtualScreenWidth / 2) / s.tileWidth
        + (s.height / 2 + (((map.x + map.y : Int) : ℚ) * (s.tileHeight / 2)
          + s.tileHeight / 2 - s.height / 2)) / s.tileHeight) = (map.y : ℚ) + 1 / 2 := by
      push_cast
      field_simp
      ring
    simp only [showTile, requestRedraw]
    rw [e, floor_add_half]

/-- The centre tile is the same before and after `setZoom`, accepted or not. -/
theorem getCenter_setZoom (c : Params) (s : GameView) (v : ℚ)
    (hW : 0 < c.defaultTileWidth) (hH : 0 < c.defaultTileHeight) :
    (setZoom c s v).getCenter = s.getCenter := by
  unfold setZoom
  by_cases h1 : v < 1 / 8
  · simp only [h1, if_true]
  · by_cases h2 : v > 4
    · simp only [h1, h2, if_true, if_false]
    · simp only [h1, h2, if_false]
      have hz : 0 < (if |v - 1| < 1 / 100 then (1 : ℚ) else v) := by
        split_ifs
        · norm_num
        · linarith [not_lt.mp h1]
      apply getCenter_showTile
      · exact mul_pos hW hz
      · exact mul_pos hH hz

/-- C2. Zoom anchoring: the tile returned by `getCenter` before `zoomIn` or `zoomOut` equals
the tile returned by `getCenter` after the call, whether the new zoom is accepted or rejected.
The tile size after an accepted zoom is the base tile size times the new zoom, so the
positivity that is needed is that of the base tile size (constants of `GameView.hpp`). -/
theorem zoom_anchoring (c : Params) (s : GameView)
    (hW : 0 < c.defaultTileWidth) (hH : 0 < c.defaultTileHeight) :
    (zoomIn c s).getCenter = s.getCenter ∧ (zoomOut c s).getCenter = s.getCenter :=
  ⟨getCenter_setZoom c s _ hW hH, getCenter_setZoom c s _ hW hH⟩

/-- C2, worked instance: zooming the example view in and out keeps its centre tile. -/
theorem zoom_anchoring_witness :
    0 < exampleParams.defaultTileWidth ∧ 0 < exampleParams.defaultTileHeight ∧
      (zoomIn exampleParams exampleView).getCenter = exampleView.getCenter ∧
      (zoomOut exampleParams exampleView).getCenter = exampleView.getCenter :=
  ⟨by norm_num [exampleParams], by norm_num [exampleParams],
    zoom_anchoring exampleParams exampleView (by norm_num [exampleParams])
      (by norm_num [exampleParams])⟩

/-- C3. Zoom clamp: for `v < 0.125` or `v > 4`, `setZoom v` returns the state it was given:
zoom, tile size, virtual screen size and viewport are unchanged and nothing is added to the
log of collaborator calls (no corner notification, no dirty mark). -/
theorem setZoom_out_of_range (c : Params) (s : GameView) (v : ℚ) (h : v < 1 / 8 ∨ 4 < v) :
    setZoom c s v = s := by
  unfold setZoom
  rcases h with h | h
  · simp only [h, if_true]
  · by_cases h1 : v < 1 / 8
    · simp only [h1, if_true]
    · simp only [h1, if_false, gt_iff_lt, h, if_true]

/-- C3, worked instance: `setZoom 5` on the example view. -/
theorem setZoom_out_of_range_witness :
    ((5 : ℚ) < 1 / 8 ∨ 4 < (5 : ℚ)) ∧ setZoom exampleParams exampleView 5 = exampleView :=
  ⟨Or.inr (by norm_num), setZoom_out_of_range exampleParams exampleView 5 (Or.inr (by norm_num))⟩

/-- C4. Zoom snap: for `|v - 1| < 0.01`, `setZoom v` sets zoom to exactly 1, so that the tile
size is the base tile size; for every other `v` in `[0.125, 4]` it sets zoom to exactly `v`. -/
theorem setZoom_zoom (c : Params) (s : GameView) (v : ℚ) :
    (|v - 1| < 1 / 100 →
      (setZoom c s v).zoom = 1 ∧ (setZoom c s v).tileWidth = c.defaultTileWidth ∧
        (setZoom c s v).tileHeight = c.defaultTileHeight) ∧
    (¬ |v - 1| < 1 / 100 → 1 / 8 ≤ v → v ≤ 4 → (setZoom c s v).zoom = v) := by
  constructor
  · intro h
    have h1 : ¬ v < 1 / 8 := by
      have := (abs_lt.mp h).1
      linarith
    have h2 : ¬ v > 4 := by
      have := (abs_lt.mp h).2
      linarith
    simp only [setZoom, h1, h2, h, if_false, if_true, showTile, requestRedraw, mul_one,
      and_self]
  · intro h hlo hhi
    have h1 : ¬ v < 1 / 8 := not_lt.mpr hlo
    have h2 : ¬ v > 4 := not_lt.mpr hhi
    simp only [setZoom, h1, h2, h, if_false, showTile, requestRedraw]

/-- C4, worked instance: `setZoom 1.003` gives zoom exactly 1. -/
theorem setZoom_zoom_witness :
    |(1003 / 1000 : ℚ) - 1| < 1 / 100 ∧
      (setZoom exampleParams exampleView (1003 / 1000)).zoom = 1 :=
  have h : |(1003 / 1000 : ℚ) - 1| < 1 / 100 := by
    rw [abs_lt]
    constructor <;> norm_num
  ⟨h, ((setZoom_zoom exampleParams exampleView (1003 / 1000)).1 h).1⟩

/-! ## Road painting: theorems -/

theorem roadWalkX_run (endRoad : MapPoint) (stepx : Int) (hstep : stepx = 1 ∨ stepx = -1) :
    ∀ (n fuel : Nat) (cur : MapPoint) (log : List Effect),
      endRoad.x - cur.x = stepx * (n : Int) → n < fuel →
      roadWalkX false endRoad stepx fuel cur log =
        some (⟨endRoad.x, cur.y⟩,
          log ++ (List.range n).map
            (fun (i : Nat) => Effect.editMap ⟨cur.x + stepx * (i : Int), cur.y⟩)) := by
  intro n
  induction n with
  | zero =>
    intro fuel cur log h hf
    obtain ⟨f, rfl⟩ : ∃ f, fuel = f + 1 := ⟨fuel - 1, by omega⟩
    have hx : cur.x = endRoad.x := by
      simp only [Nat.cast_zero, mul_zero] at h
      omega
    simp [roadWalkX, hx.symm]
  | succ n ih =>
    intro fuel cur log h hf
    obtain ⟨f, rfl⟩ : ∃ f, fuel = f + 1 := ⟨fuel - 1, by omega⟩
    have hx : cur.x ≠ endRoad.x := by
      rcases hstep with rfl | rfl <;> push_cast at h <;> omega
    have hnext : endRoad.x - (cur.x + stepx) = stepx * (n : Int) := by
      push_cast at h
      linarith
    have hrec := ih f ⟨cur.x + stepx, cur.y⟩ (log ++ [Effect.editMap cur]) hnext (by omega)
    simp only [roadWalkX, ne_eq, hx, not_false_eq_true, if_true, Bool.not_false]
    rw [hrec, List.range_succ_eq_map]
    simp only [List.map_cons, List.map_map, List.append_assoc, List.singleton_append,
      Nat.cast_zero, mul_zero, add_zero]
    have e : List.map (fun (i : Nat) => Effect.editMap ⟨cur.x + stepx + stepx * (i : Int), cur.y⟩)
          (List.range n) =
        List.map ((fun (i : Nat) => Effect.editMap ⟨cur.x + stepx * (i : Int), cur.y⟩) ∘ Nat.succ)
          (List.range n) := by
      apply List.map_congr_left
      intro i _
      simp only [Function.comp, Nat.cast_succ]
      congr 2
      ring
    rw [e]

theorem roadWalkY_run (endRoad : MapPoint) (stepy : Int) (hstep : stepy = 1 ∨ stepy = -1) :
    ∀ (n fuel : Nat) (cur : MapPoint) (log : List Effect),
      endRoad.y - cur.y = stepy * (n : Int) → n < fuel →
      roadWalkY false endRoad stepy fuel cur log =
        some (⟨cur.x, endRoad.y⟩,
          log ++ (List.range n).map
            (fun (j : Nat) => Effect.editMap ⟨cur.x, cur.y + stepy * (j : Int)⟩)) := by
  intro n
  induction n with
  | zero =>
    intro fuel cur log h hf
    obtain ⟨f, rfl⟩ : ∃ f, fuel = f + 1 := ⟨fuel - 1, by omega⟩
    have hy : cur.y = endRoad.y := by
      simp only [Nat.cast_zero, mul_zero] at h
      omega
    simp [roadWalkY, hy.symm]
  | succ n ih =>
    intro fuel cur log h hf
    obtain ⟨f, rfl⟩ : ∃ f, fuel = f + 1 := ⟨fuel - 1, by omega⟩
    have hy : cur.y ≠ endRoad.y := by
      rcases hstep with rfl | rfl <;> push_cast at h <;> omega
    have hnext : endRoad.y - (cur.y + stepy) = stepy * (n : Int) := by
      push_cast at h
      linarith
    have hrec := ih f ⟨cur.x, cur.y + stepy⟩ (log ++ [Effect.editMap cur]) hnext (by omega)
    simp only [roadWalkY, ne_eq, hy, not_false_eq_true, if_true, Bool.not_false]
    rw [hrec, List.range_succ_eq_map]
    simp only [List.map_cons, List.map_map, List.append_assoc, List.singleton_append,
      Nat.cast_zero, mul_zero, add_zero]
    have e : List.map (fun (j : Nat) => Effect.editMap ⟨cur.x, cur.y + stepy + stepy * (j : Int)⟩)
          (List.range n) =
        List.map ((fun (j : Nat) => Effect.editMap ⟨cur.x, cur.y + stepy * (j : Int)⟩) ∘ Nat.succ)
          (List.range n) := by
      apply List.map_congr_left
      intro j _
      simp only [Function.comp, Nat.cast_succ]
      congr 2
      ring
    rw [e]

/-- The specified path, written with the step variables the code computes. -/
theorem specRoadPath_eq_steps (S E : MapPoint) :
    specRoadPath S E =
      (List.range (E.x - S.x).natAbs).map
          (fun (i : Nat) => (⟨S.x + (if S.x > E.x then -1 else 1) * (i : Int), S.y⟩ : MapPoint)) ++
        ((List.range (E.y - S.y).natAbs).map
          (fun (j : Nat) => (⟨E.x, S.y + (if S.y > E.y then -1 else 1) * (j : Int)⟩ : MapPoint)) ++
        [E]) := by
  unfold specRoadPath
  rw [List.range_succ, List.map_append]
  congr 1
  · apply List.map_congr_left
    intro i hi
    have hi' : i < (E.x - S.x).natAbs := List.mem_range.mp hi
    by_cases h : S.x > E.x
    · rw [if_pos h, Int.sign_eq_neg_one_of_neg (by omega)]
    · rw [if_neg h, Int.sign_eq_one_of_pos (by omega)]
  · congr 1
    · apply List.map_congr_left
      intro j hj
      have hj' : j < (E.y - S.y).natAbs := List.mem_range.mp hj
      by_cases h : S.y > E.y
      · rw [if_pos h, Int.sign_eq_neg_one_of_neg (by omega)]
      · rw [if_neg h, Int.sign_eq_one_of_pos (by omega)]
    · simp only [List.map_cons, List.map_nil, Int.sign_mul_natAbs]
      congr 1
      apply MapPoint.ext
      · rfl
      · show S.y + (E.y - S.y) = E.y
        ring

theorem specRoadPath_length (S E : MapPoint) :
    (specRoadPath S E).length = (E.x - S.x).natAbs + (E.y - S.y).natAbs + 1 := by
  simp only [specRoadPath, List.length_append, List.length_map, List.length_range]
  ring

theorem specRoadPath_head (S E : MapPoint) : (specRoadPath S E).head? = some S := by
  unfold specRoadPath
  cases hn : (E.x - S.x).natAbs with
  | zero =>
    have hx : E.x = S.x := by omega
    rw [List.range_zero, List.map_nil, List.nil_append, List.range_succ_eq_map]
    simp only [List.map_cons, List.head?_cons, Nat.cast_zero, mul_zero, add_zero, hx]
  | succ n =>
    rw [List.range_succ_eq_map]
    simp only [List.map_cons, List.cons_append, List.head?_cons, Nat.cast_zero, mul_zero,
      add_zero]

theorem specRoadPath_getLast (S E : MapPoint) : (specRoadPath S E).getLast? = some E := by
  rw [specRoadPath_eq_steps, ← List.append_assoc, List.getLast?_append, List.getLast?_singleton]
  rfl

theorem specRoadPath_nodup (S E : MapPoint) : (specRoadPath S E).Nodup := by
  unfold specRoadPath
  rw [List.nodup_append]
  refine ⟨?_, ?_, ?_⟩
  · by_cases h : E.x - S.x = 0
    · rw [h]
      exact List.nodup_nil
    · apply List.Nodup.map _ (List.nodup_range _)
      intro i j hij
      have hx := congrArg MapPoint.x hij
      simp only [add_right_inj] at hx
      have hs : Int.sign (E.x - S.x) ≠ 0 := by
        rw [Ne, Int.sign_eq_zero_iff_zero]
        exact h
      exact_mod_cast mul_left_cancel₀ hs hx
  · by_cases h : E.y - S.y = 0
    · rw [h]
      simp
    · apply List.Nodup.map _ (List.nodup_range _)
      intro i j hij
      have hy := congrArg MapPoint.y hij
      simp only [add_right_inj] at hy
      have hs : Int.sign (E.y - S.y) ≠ 0 := by
        rw [Ne, Int.sign_eq_zero_iff_zero]
        exact h
      exact_mod_cast mul_left_cancel₀ hs hy
  · intro a ha hb
    rw [List.mem_map] at ha hb
    obtain ⟨i, hi, rfl⟩ := ha
    obtain ⟨j, _, hj⟩ := hb
    have hi' : i < (E.x - S.x).natAbs := List.mem_range.mp hi
    have hx := congrArg MapPoint.x hj
    simp only at hx
    rcases lt_trichotomy (E.x - S.x) 0 with h | h | h
    · rw [Int.sign_eq_neg_one_of_neg h] at hx
      omega
    · rw [h] at hi'
      simp at hi'
    · rw [Int.sign_eq_one_of_pos h] at hx
      omega

/-- C5. Road-paint path: a left button-up inside the view while road-dragging, with no modal
dialog open, returns (for every fuel above the Manhattan distance) and appends to the log
exactly the edit requests of the L-shaped path from the start tile `S` to the tile `E` under
the pointer: x first, then y. That path starts at `S`, ends at `E`, has
`|E.x - S.x| + |E.y - S.y| + 1` tiles and no repeats. -/
theorem road_release_edits (c : Params) (env : Env) (s : GameView) (ev : Event) (fuel : Nat)
    (hty : ev.type = EventType.MOUSEBUTTONUP) (hb : ev.mousebutton = MouseButton.LEFT)
    (hin : ev.inside = true) (hrd : s.roadDragging = true)
    (hdlg : env.blockingDialogIsOpen = false)
    (hfuel : ((s.getTile ev.mousepos).x - s.startRoad.x).natAbs
      + ((s.getTile ev.mousepos).y - s.startRoad.y).natAbs < fuel) :
    event c env fuel s ev =
        some { s with
          roadDragging := false
          leftButtonDown := false
          log := s.log ++ (specRoadPath s.startRoad (s.getTile ev.mousepos)).map Effect.editMap } ∧
      (specRoadPath s.startRoad (s.getTile ev.mousepos)).head? = some s.startRoad ∧
      (specRoadPath s.startRoad (s.getTile ev.mousepos)).getLast? = some (s.getTile ev.mousepos) ∧
      (specRoadPath s.startRoad (s.getTile ev.mousepos)).length =
        ((s.getTile ev.mousepos).x - s.startRoad.x).natAbs
          + ((s.getTile ev.mousepos).y - s.startRoad.y).natAbs + 1 ∧
      (specRoadPath s.startRoad (s.getTile ev.mousepos)).Nodup := by
  refine ⟨?_, specRoadPath_head _ _, specRoadPath_getLast _ _, specRoadPath_length _ _,
    specRoadPath_nodup _ _⟩
  have hnm : ¬ ev.mousebutton = MouseButton.MIDDLE := by
    rw [hb]
    decide
  have hsx : (if s.startRoad.x > (s.getTile ev.mousepos).x then (-1 : Int) else 1) = 1 ∨
      (if s.startRoad.x > (s.getTile ev.mousepos).x then (-1 : Int) else 1) = -1 := by
    split_ifs
    · exact Or.inr rfl
    · exact Or.inl rfl
  have hsy : (if s.startRoad.y > (s.getTile ev.mousepos).y then (-1 : Int) else 1) = 1 ∨
      (if s.startRoad.y > (s.getTile ev.mousepos).y then (-1 : Int) else 1) = -1 := by
    split_ifs
    · exact Or.inr rfl
    · exact Or.inl rfl
  have hX := roadWalkX_run (s.getTile ev.mousepos) _ hsx
    ((s.getTile ev.mousepos).x - s.startRoad.x).natAbs fuel s.startRoad s.log
    (by split_ifs <;> omega) (by omega)
  have hY := roadWalkY_run (s.getTile ev.mousepos) _ hsy
    ((s.getTile ev.mousepos).y - s.startRoad.y).natAbs fuel
    ⟨(s.getTile ev.mousepos).x, s.startRoad.y⟩
    (s.log ++ (List.range ((s.getTile ev.mousepos).x - s.startRoad.x).natAbs).map
      (fun (i : Nat) => Effect.editMap
        ⟨s.startRoad.x + (if s.startRoad.x > (s.getTile ev.mousepos).x then -1 else 1) * (i : Int),
          s.startRoad.y⟩))
    (by
      show (s.getTile ev.mousepos).y - s.startRoad.y = _
      split_ifs <;> omega) (by omega)
  simp only [event, hty, eventMouseButtonUp, hnm, if_false, eventMouseButtonUpLeft, hb, hrd, hin,
    and_self, if_true, hdlg]
  rw [hX]
  simp only []
  rw [hY]
  simp only [Bool.not_false, if_true, specRoadPath_eq_steps, List.map_append, List.map_map,
    List.append_assoc, List.map_cons, List.map_nil]
  rfl

theorem getTile_roadRelease (S : MapPoint) :
    (roadView S).getTile roadRelease.mousepos = ⟨2, 2⟩ := by
  apply MapPoint.ext
  · rw [getTile_x_eq]
    norm_num [roadView, roadRelease, exampleView]
  · rw [getTile_y_eq]
    norm_num [roadView, roadRelease, exampleView]

/-- C5, worked instances: releasing on tile (2,2) after a drag from (2,5) requests edits for
(2,5),(2,4),(2,3),(2,2); after a drag from (0,0), for (0,0),(1,0),(2,0),(2,1),(2,2). -/
theorem road_release_edits_witness :
    (event exampleParams exampleEnv 4 (roadView ⟨2, 5⟩) roadRelease).map GameView.log =
        some [Effect.editMap ⟨2, 5⟩, Effect.editMap ⟨2, 4⟩, Effect.editMap ⟨2, 3⟩,
          Effect.editMap ⟨2, 2⟩] ∧
      (event exampleParams exampleEnv 5 (roadView ⟨0, 0⟩) roadRelease).map GameView.log =
        some [Effect.editMap ⟨0, 0⟩, Effect.editMap ⟨1, 0⟩, Effect.editMap ⟨2, 0⟩,
          Effect.editMap ⟨2, 1⟩, Effect.editMap ⟨2, 2⟩] := by
  constructor
  · rw [(road_release_edits exampleParams exampleEnv (roadView ⟨2, 5⟩) roadRelease 4 rfl rfl rfl
      rfl rfl (by rw [getTile_roadRelease]; decide)).1, getTile_roadRelease]
    rfl
  · rw [(road_release_edits exampleParams exampleEnv (roadView ⟨0, 0⟩) roadRelease 5 rfl rfl rfl
      rfl rfl (by rw [getTile_roadRelease]; decide)).1, getTile_roadRelease]
    rfl

/-! ## Drawing: theorems -/

/-- C6. Footprint draw suppression: take a building of size `size` that lies in the grid (a
block with a cell in it has `size >= 1`), with main cell `(ux, uy)` (not itself a `CST_USED`
cell) and every other cell of `[ux, ux+size-1] x [uy, uy+size-1]` a `CST_USED` cell pointing to
`(ux, uy)`. Visiting a cell of the block other than the canonical corner `(ux, uy+size-1)`,
`drawTile` issues no painter call and changes nothing. -/
theorem drawTile_suppressed (c : Params) (w : World) (s : GameView) (painter : Painter)
    (ux uy size : Int) (tile : MapPoint)
    (hgrid : 0 ≤ ux ∧ 0 ≤ uy ∧ ux + size ≤ c.WORLD_SIDE_LEN ∧ uy + size ≤ c.WORLD_SIDE_LEN)
    (hmain : w.MP_TYPE ux uy ≠ c.CST_USED)
    (hmsize : w.MP_SIZE ux uy = size)
    (hused : ∀ x y : Int, ux ≤ x → x < ux + size → uy ≤ y → y < uy + size →
      ¬ (x = ux ∧ y = uy) →
      w.MP_TYPE x y = c.CST_USED ∧ w.MP_INFO_int_1 x y = ux ∧ w.MP_INFO_int_2 x y = uy)
    (hcell : ux ≤ tile.x ∧ tile.x < ux + size ∧ uy ≤ tile.y ∧ tile.y < uy + size)
    (hne : tile ≠ ⟨ux, uy + size - 1⟩) :
    drawTile c w s painter tile = (s, painter) := by
  obtain ⟨g1, g2, g3, g4⟩ := hgrid
  obtain ⟨c1, c2, c3, c4⟩ := hcell
  have hin : ¬ (tile.x < 0 ∨ tile.y < 0 ∨ tile.x ≥ c.WORLD_SIDE_LEN ∨ tile.y ≥ c.WORLD_SIDE_LEN) := by
    omega
  have hcorner : ¬ (tile.x = ux ∧ tile.y = uy + size - 1) := by
    rintro ⟨h1, h2⟩
    exact hne (MapPoint.ext h1 h2)
  by_cases hm : tile.x = ux ∧ tile.y = uy
  · obtain ⟨hx, hy⟩ := hm
    have hty : ¬ w.MP_TYPE tile.x tile.y = c.CST_USED := by
      rw [hx, hy]
      exact hmain
    have hskip : tile.x ≠ tile.x ∨ tile.y - w.MP_SIZE tile.x tile.y + 1 ≠ tile.y := by
      right
      rw [hx, hy, hmsize]
      omega
    simp only [drawTile, hin, if_false, hty, decide_False, Bool.false_eq_true, hskip, if_true]
  · obtain ⟨t1, t2, t3⟩ := hused tile.x tile.y c1 c2 c3 c4 hm
    have hskip : tile.x ≠ ux ∨ tile.y - size + 1 ≠ uy := by
      omega
    simp only [drawTile, hin, if_false, t1, decide_True, if_true, t2, t3, hmsize, hskip]

theorem footprintWorld_used (x y : Int) (hx1 : 4 ≤ x) (hx2 : x < 4 + 3) (hy1 : 4 ≤ y)
    (hy2 : y < 4 + 3) (hne : ¬ (x = 4 ∧ y = 4)) :
    footprintWorld.MP_TYPE x y = exampleParams.CST_USED ∧
      footprintWorld.MP_INFO_int_1 x y = 4 ∧ footprintWorld.MP_INFO_int_2 x y = 4 := by
  have hb : 4 ≤ x ∧ x < 7 ∧ 4 ≤ y ∧ y < 7 := ⟨hx1, by omega, hy1, by omega⟩
  simp only [footprintWorld, hne, if_false, hb, and_self, if_true]

/-- C6, worked instance: the building of size 3 with canonical corner (4,6) is not drawn at
any of its other eight cells. -/
theorem drawTile_suppressed_witness :
    drawTile exampleParams footprintWorld topView emptyPainter ⟨4, 4⟩ = (topView, emptyPainter) ∧
      drawTile exampleParams footprintWorld topView emptyPainter ⟨5, 4⟩ = (topView, emptyPainter) ∧
      drawTile exampleParams footprintWorld topView emptyPainter ⟨6, 4⟩ = (topView, emptyPainter) ∧
      drawTile exampleParams footprintWorld topView emptyPainter ⟨4, 5⟩ = (topView, emptyPainter) ∧
      drawTile exampleParams footprintWorld topView emptyPainter ⟨5, 5⟩ = (topView, emptyPainter) ∧
      drawTile exampleParams footprintWorld topView emptyPainter ⟨6, 5⟩ = (topView, emptyPainter) ∧
      drawTile exampleParams footprintWorld topView emptyPainter ⟨5, 6⟩ = (topView, emptyPainter) ∧
      drawTile exampleParams footprintWorld topView emptyPainter ⟨6, 6⟩ = (topView, emptyPainter) := by
  have key : ∀ tile : MapPoint, (4 ≤ tile.x ∧ tile.x < 4 + 3 ∧ 4 ≤ tile.y ∧ tile.y < 4 + 3) →
      tile ≠ ⟨4, 4 + 3 - 1⟩ →
      drawTile exampleParams footprintWorld topView emptyPainter tile = (topView, emptyPainter) :=
    fun tile h1 h2 =>
      drawTile_suppressed exampleParams footprintWorld topView emptyPainter 4 4 3 tile
        (by decide) (by decide) (by decide) footprintWorld_used h1 h2
  exact ⟨key _ (by decide) (by decide), key _ (by decide) (by decide),
    key _ (by decide) (by decide), key _ (by decide) (by decide),
    key _ (by decide) (by decide), key _ (by decide) (by decide),
    key _ (by decide) (by decide), key _ (by decide) (by decide)⟩

/-- The inner loop of `markTile` started at column `x` of row `y`: it leaves painter and `y`
alone when the rest of the row is `CST_GREEN`, and otherwise selects red and bumps `y`. -/
theorem markTileRow_run (c : Params) (w : World) (cs : Int) (tile : MapPoint) (painter : Painter)
    (y : Int) :
    ∀ (m fuel : Nat) (x : Int), tile.x + cs - x = (m : Int) → m < fuel →
      ((∀ x1 : Int, x ≤ x1 → x1 < tile.x + cs → w.MP_TYPE x1 y = c.CST_GREEN) →
          markTileRow c w cs tile fuel painter x y = some (painter, y)) ∧
      ((∃ x1 : Int, x ≤ x1 ∧ x1 < tile.x + cs ∧ w.MP_TYPE x1 y ≠ c.CST_GREEN) →
          markTileRow c w cs tile fuel painter x y =
            some (setFillColor painter alphared, y + cs)) := by
  intro m
  induction m with
  | zero =>
    intro fuel x hm hf
    obtain ⟨f, rfl⟩ : ∃ f, fuel = f + 1 := ⟨fuel - 1, by omega⟩
    have hx : ¬ x < tile.x + cs := by
      simp only [Nat.cast_zero] at hm
      omega
    constructor
    · intro _
      simp only [markTileRow, hx, if_false]
    · rintro ⟨x1, h1, h2, _⟩
      omega
  | succ m ih =>
    intro fuel x hm hf
    obtain ⟨f, rfl⟩ : ∃ f, fuel = f + 1 := ⟨fuel - 1, by omega⟩
    have hx : x < tile.x + cs := by
      push_cast at hm
      omega
    have hrec := ih f (x + 1) (by push_cast at hm; omega) (by omega)
    by_cases hg : w.MP_TYPE x y = c.CST_GREEN
    · constructor
      · intro hall
        simp only [markTileRow, hx, if_true, ne_eq, hg, not_true_eq_false, if_false]
        exact hrec.1 (fun x1 h1 h2 => hall x1 (by omega) h2)
      · rintro ⟨x1, h1, h2, h3⟩
        simp only [markTileRow, hx, if_true, ne_eq, hg, not_true_eq_false, if_false]
        have hne : x1 ≠ x := by
          rintro rfl
          exact h3 hg
        exact hrec.2 ⟨x1, by omega, h2, h3⟩
    · constructor
      · intro hall
        exact absurd (hall x (le_refl x) hx) hg
      · intro _
        simp only [markTileRow, hx, if_true, ne_eq, hg, not_false_eq_true]

/-- The outer loop of `markTile` started at row `y`: the painter is unchanged when every cell of
the remaining rows is `CST_GREEN`, and has red selected otherwise. -/
theorem markTileRows_run (c : Params) (w : World) (n : Nat) (tile : MapPoint) :
    ∀ (m fuel : Nat) (painter : Painter) (y : Int),
      tile.y + (n : Int) - y = (m : Int) → m ≤ n → m + n < fuel →
      ((∀ x1 y1 : Int, tile.x ≤ x1 → x1 < tile.x + (n : Int) → y ≤ y1 → y1 < tile.y + (n : Int) →
            w.MP_TYPE x1 y1 = c.CST_GREEN) →
          markTileRows c w (n : Int) tile fuel painter y = some painter) ∧
      ((∃ x1 y1 : Int, tile.x ≤ x1 ∧ x1 < tile.x + (n : Int) ∧ y ≤ y1 ∧ y1 < tile.y + (n : Int) ∧
            w.MP_TYPE x1 y1 ≠ c.CST_GREEN) →
          markTileRows c w (n : Int) tile fuel painter y =
            some (setFillColor painter alphared)) := by
  intro m
  induction m with
  | zero =>
    intro fuel painter y hm _ hf
    obtain ⟨f, rfl⟩ : ∃ f, fuel = f + 1 := ⟨fuel - 1, by omega⟩
    have hy : ¬ y < tile.y + (n : Int) := by
      simp only [Nat.cast_zero] at hm
      omega
    constructor
    · intro _
      simp only [markTileRows, hy, if_false]
    · rintro ⟨x1, y1, _, _, h3, h4, _⟩
      omega
  | succ m ih =>
    intro fuel painter y hm hmn hf
    obtain ⟨f, rfl⟩ : ∃ f, fuel = f + 1 := ⟨fuel - 1, by omega⟩
    have hy : y < tile.y + (n : Int) := by
      push_cast at hm
      omega
    have hrow := markTileRow_run c w (n : Int) tile painter y n f tile.x (by ring) (by omega)
    by_cases hg : ∀ x1 : Int, tile.x ≤ x1 → x1 < tile.x + (n : Int) → w.MP_TYPE x1 y = c.CST_GREEN
    · have hrec := ih f painter (y + 1) (by push_cast at hm; omega) (by omega) (by omega)
      constructor
      · intro hall
        simp only [markTileRows, hy, if_true, hrow.1 hg]
        exact hrec.1 (fun x1 y1 h1 h2 h3 h4 => hall x1 y1 h1 h2 (by omega) h4)
      · rintro ⟨x1, y1, h1, h2, h3, h4, h5⟩
        simp only [markTileRows, hy, if_true, hrow.1 hg]
        have hne : y1 ≠ y := by
          rintro rfl
          exact h5 (hg x1 h1 h2)
        exact hrec.2 ⟨x1, y1, h1, h2, by omega, h4, h5⟩
    · have hex : ∃ x1 : Int, tile.x ≤ x1 ∧ x1 < tile.x + (n : Int) ∧ w.MP_TYPE x1 y ≠ c.CST_GREEN := by
        by_contra hcon
        apply hg
        intro x1 h1 h2
        by_contra h3
        exact hcon ⟨x1, h1, h2, h3⟩
      obtain ⟨g, rfl⟩ : ∃ g, f = g + 1 := ⟨f - 1, by omega⟩
      have hstop : ¬ y + (n : Int) + 1 < tile.y + (n : Int) := by
        push_cast at hm
        omega
      constructor
      · intro hall
        obtain ⟨x1, h1, h2, h3⟩ := hex
        exact absurd (hall x1 y h1 h2 (le_refl y) hy) h3
      · intro _
        simp only [markTileRows, hy, if_true, hrow.2 hex, hstop, if_false]

/-- C7. Cursor legality: for cursor size `n >= 1`, a tile whose `n x n` block lies inside the
grid and a selected building other than the harbour, `markTile` returns (for every fuel above
`2 n`) having filled exactly one diamond, the cursor diamond: in red (`alphared`) if some covered
cell has a type other than `CST_GREEN`, in blue (`alphablue`) if every covered cell is
`CST_GREEN`. -/
theorem markTile_legality (c : Params) (w : World) (env : Env) (s : GameView) (painter : Painter)
    (tile : MapPoint) (n fuel : Nat)
    (hn : 1 ≤ n) (hcs : s.cursorSize = (n : Int))
    (hgrid : 0 ≤ tile.x ∧ 0 ≤ tile.y ∧ tile.x + (n : Int) ≤ c.WORLD_SIDE_LEN ∧
      tile.y + (n : Int) ≤ c.WORLD_SIDE_LEN)
    (hport : env.selected_module_type ≠ c.CST_EX_PORT)
    (hfuel : 2 * n < fuel) :
    ((∃ x y : Int, tile.x ≤ x ∧ x < tile.x + (n : Int) ∧ tile.y ≤ y ∧ y < tile.y + (n : Int) ∧
          w.MP_TYPE x y ≠ c.CST_GREEN) →
        markTile c w env fuel s painter tile =
          some (fillDiamond (setFillColor painter alphared)
            ((Rect2D.ofCorners 0 0 (s.tileWidth * (n : ℚ)) (s.tileHeight * (n : ℚ))).move
              ⟨(s.getScreenPoint tile).x - s.tileWidth * (n : ℚ) / 2,
                (s.getScreenPoint tile).y - s.tileHeight⟩))) ∧
    ((∀ x y : Int, tile.x ≤ x → x < tile.x + (n : Int) → tile.y ≤ y → y < tile.y + (n : Int) →
          w.MP_TYPE x y = c.CST_GREEN) →
        markTile c w env fuel s painter tile =
          some (fillDiamond (setFillColor painter alphablue)
            ((Rect2D.ofCorners 0 0 (s.tileWidth * (n : ℚ)) (s.tileHeight * (n : ℚ))).move
              ⟨(s.getScreenPoint tile).x - s.tileWidth * (n : ℚ) / 2,
                (s.getScreenPoint tile).y - s.tileHeight⟩))) := by
  obtain ⟨g1, g2, g3, g4⟩ := hgrid
  have hcs0 : ¬ (n : Int) = 0 := by
    omega
  have hout : ¬ (tile.x + (n : Int) > c.WORLD_SIDE_LEN ∨ tile.y + (n : Int) > c.WORLD_SIDE_LEN ∨
      tile.x < 0 ∨ tile.y < 0) := by
    omega
  have hrows := markTileRows_run c w n tile n fuel (setFillColor painter alphablue) tile.y
    (by ring) (le_refl n) (by omega)
  constructor
  · intro hex
    have hr := hrows.2 (by
      obtain ⟨x, y, h1, h2, h3, h4, h5⟩ := hex
      exact ⟨x, y, h1, h2, h3, h4, h5⟩)
    simp only [markTile, hcs0, if_false, hcs, hout, hr, hport, Int.cast_natCast]
    rfl
  · intro hall
    have hr := hrows.1 hall
    simp only [markTile, hcs0, if_false, hcs, hout, hr, hport, Int.cast_natCast]

theorem footprintWorld_green (x y : Int) (hx : x < 4) :
    footprintWorld.MP_TYPE x y = exampleParams.CST_GREEN := by
  have h1 : ¬ (x = 4 ∧ y = 4) := by omega
  have h2 : ¬ (4 ≤ x ∧ x < 7 ∧ 4 ≤ y ∧ y < 7) := by omega
  simp only [footprintWorld, h1, h2, if_false]

/-- C7, worked instances with a 2 x 2 cursor: at tile (3,3) the cursor covers the main cell
(4,4) of a building and the diamond is filled red; at tile (0,0) all four cells are
`CST_GREEN` and the diamond is filled blue. -/
theorem markTile_legality_witness :
    (markTile exampleParams footprintWorld exampleEnv 5 cursorView emptyPainter ⟨3, 3⟩).map
        Painter.out =
        some [Prim.fillPolygon ⟨255, 0, 0, 128⟩ [⟨400, 192⟩, ⟨272, 256⟩, ⟨400, 320⟩, ⟨528, 256⟩]] ∧
      (markTile exampleParams footprintWorld exampleEnv 5 cursorView emptyPainter ⟨0, 0⟩).map
        Painter.out =
        some [Prim.fillPolygon ⟨0, 0, 255, 128⟩ [⟨400, 0⟩, ⟨272, 64⟩, ⟨400, 128⟩, ⟨528, 64⟩]] := by
  constructor
  · rw [(markTile_legality exampleParams footprintWorld exampleEnv cursorView emptyPainter ⟨3, 3⟩
      2 5 (by decide) rfl (by decide) (by decide) (by decide)).1
      ⟨4, 4, by decide, by decide, by decide, by decide, by decide⟩]
    norm_num [fillDiamond, setFillColor, diamondPoints, Rect2D.move, Rect2D.ofCorners,
      Rect2D.getWidth, Rect2D.getHeight, Vector2.add, Vector2.sub, getScreenPoint, cursorView,
      topView, exampleView, emptyPainter, alphared]
  · rw [(markTile_legality exampleParams footprintWorld exampleEnv cursorView emptyPainter ⟨0, 0⟩
      2 5 (by decide) rfl (by decide) (by decide) (by decide)).2
      (fun x y _ h2 _ _ => footprintWorld_green x y (by
        have h3 : x < 0 + 2 := h2
        omega))]
    norm_num [fillDiamond, setFillColor, diamondPoints, Rect2D.move, Rect2D.ofCorners,
      Rect2D.getWidth, Rect2D.getHeight, Vector2.add, Vector2.sub, getScreenPoint, cursorView,
      topView, exampleView, emptyPainter, alphablue]

/-- The rectangle `drawTile` builds for the placeholder is the diamond over the anchor point. -/
theorem diamondPoints_placeholder (s : GameView) (q : Vector2) :
    diamondPoints ((Rect2D.ofCorners 0 0 s.tileWidth s.tileHeight).move
      ⟨q.x - s.tileWidth / 2, q.y - s.tileHeight⟩) = diamondOver s q := by
  simp only [diamondPoints, diamondOver, Rect2D.move, Rect2D.ofCorners, Rect2D.getWidth,
    Rect2D.getHeight, Vector2.add]
  congr 1
  · apply Vector2.ext <;> ring
  · congr 1
    · apply Vector2.ext <;> ring
    · congr 1
      · apply Vector2.ext <;> ring
      · congr 1
        apply Vector2.ext <;> ring

/-- C8 (amended). Placeholder fallback: at an in-range tile that `drawTile` decides to draw
(canonical corner, not hidden) and whose type has neither an uploaded texture nor a decoded
image, `drawTile` returns, leaves the texture tables alone and issues exactly one painter call:
a filled diamond in opaque red (255,0,0,255) of size `tileWidth x tileHeight`, and no texture
draw. The bottom corner of the diamond is the screen point of the tile when the footprint
size is 1, and the screen point of the opposite corner `(tile.x + size - 1, tile.y)` when the
size is larger. Here `(ulx, uly)` and `size` are the values of the local variables
`upperLeftX`, `upperLeftY` and `size` of the source. -/
theorem drawTile_placeholder (c : Params) (w : World) (s : GameView) (painter : Painter)
    (tile : MapPoint) (ulx uly size : Int)
    (hgrid : 0 ≤ tile.x ∧ 0 ≤ tile.y ∧ tile.x < c.WORLD_SIDE_LEN ∧ tile.y < c.WORLD_SIDE_LEN)
    (hulx : ulx = if w.MP_TYPE tile.x tile.y = c.CST_USED then w.MP_INFO_int_1 tile.x tile.y
      else tile.x)
    (huly : uly = if w.MP_TYPE tile.x tile.y = c.CST_USED then w.MP_INFO_int_2 tile.x tile.y
      else tile.y)
    (hsize : size = w.MP_SIZE ulx uly)
    (hcorner : tile.x = ulx ∧ tile.y - size + 1 = uly)
    (hshown : ¬ (size > 1 ∧ s.hideHigh = true))
    (htex : s.cityTextures (w.MP_TYPE ulx uly) = none)
    (himg : s.cityImages (w.MP_TYPE ulx uly) = none) :
    drawTile c w s painter tile =
      (s, { fillColor := ⟨255, 0, 0, 255⟩
            lineColor := painter.lineColor
            out := painter.out ++ [Prim.fillPolygon ⟨255, 0, 0, 255⟩
              (diamondOver s (s.getScreenPoint
                (if size > 1 then ⟨tile.x + size - 1, tile.y⟩ else tile)))] }) := by
  obtain ⟨g1, g2, g3, g4⟩ := hgrid
  have hin : ¬ (tile.x < 0 ∨ tile.y < 0 ∨ tile.x ≥ c.WORLD_SIDE_LEN ∨ tile.y ≥ c.WORLD_SIDE_LEN) := by
    omega
  have hskip : ¬ (tile.x ≠ ulx ∨ tile.y - size + 1 ≠ uly) := by
    omega
  by_cases hu : w.MP_TYPE tile.x tile.y = c.CST_USED
  · rw [if_pos hu] at hulx huly
    subst hulx huly hsize
    by_cases hs : w.MP_SIZE (w.MP_INFO_int_1 tile.x tile.y) (w.MP_INFO_int_2 tile.x tile.y) > 1
    · have hh : ¬ s.hideHigh = true := fun h => hshown ⟨hs, h⟩
      simp only [drawTile, hin, if_false, hu, decide_True, if_true, hskip, hs, true_and, hh,
        Bool.false_eq_true, htex, himg, fillDiamond, setFillColor, diamondPoints_placeholder]
    · simp only [drawTile, hin, if_false, hu, decide_True, if_true, hskip, hs, false_and, htex,
        himg, fillDiamond, setFillColor, diamondPoints_placeholder]
  · rw [if_neg hu] at hulx huly
    subst hulx huly hsize
    have hs : ¬ w.MP_SIZE tile.x tile.y > 1 := by
      omega
    simp only [drawTile, hin, if_false, hu, decide_False, Bool.false_eq_true, hskip, hs,
      false_and, htex, himg, fillDiamond, setFillColor, diamondPoints_placeholder]

/-- C8 (counterexample). The building of size 3 with canonical corner (4,6) has neither
texture nor image; visiting (4,6), an in-range tile that is drawn, `drawTile` fills one red
diamond whose bottom corner is (400,448), the screen point of tile (6,6), and not (272,384),
the screen point of the tile (4,6) itself. -/
theorem drawTile_placeholder_bottom_ne :
    topView.cityTextures (footprintWorld.MP_TYPE 4 4) = none ∧
      topView.cityImages (footprintWorld.MP_TYPE 4 4) = none ∧
      topView.hideHigh = false ∧
      (drawTile exampleParams footprintWorld topView emptyPainter ⟨4, 6⟩).2.out =
        [Prim.fillPolygon ⟨255, 0, 0, 255⟩ [⟨400, 384⟩, ⟨336, 416⟩, ⟨400, 448⟩, ⟨464, 416⟩]] ∧
      topView.getScreenPoint ⟨4, 6⟩ = ⟨272, 384⟩ ∧
      (⟨400, 448⟩ : Vector2) ≠ topView.getScreenPoint ⟨4, 6⟩ := by
  have hsp : topView.getScreenPoint ⟨4, 6⟩ = ⟨272, 384⟩ := by
    norm_num [getScreenPoint, Vector2.sub, topView, exampleView]
  refine ⟨rfl, rfl, rfl, ?_, hsp, ?_⟩
  · norm_num [drawTile, footprintWorld, exampleParams, topView, exampleView, emptyPainter,
      getScreenPoint, Vector2.sub, Vector2.add, fillDiamond, setFillColor, diamondPoints,
      Rect2D.move, Rect2D.ofCorners, Rect2D.getWidth, Rect2D.getHeight]
  · rw [hsp]
    intro h
    have hx := congrArg Vector2.x h
    norm_num at hx

/-- C8 (amended), worked instances: the bare tile (0,0), of size 1, gets its red diamond over
its own screen point; the canonical corner (4,6) of the building of size 3 gets it over the
screen point of (6,6). -/
theorem drawTile_placeholder_witness :
    drawTile exampleParams footprintWorld topView emptyPainter ⟨0, 0⟩ =
        (topView, { fillColor := ⟨255, 0, 0, 255⟩
                    lineColor := emptyPainter.lineColor
                    out := emptyPainter.out ++ [Prim.fillPolygon ⟨255, 0, 0, 255⟩
                      (diamondOver topView (topView.getScreenPoint
                        (if (1 : Int) > 1 then ⟨0 + 1 - 1, 0⟩ else ⟨0, 0⟩)))] }) ∧
      drawTile exampleParams footprintWorld topView emptyPainter ⟨4, 6⟩ =
        (topView, { fillColor := ⟨255, 0, 0, 255⟩
                    lineColor := emptyPainter.lineColor
                    out := emptyPainter.out ++ [Prim.fillPolygon ⟨255, 0, 0, 255⟩
                      (diamondOver topView (topView.getScreenPoint
                        (if (3 : Int) > 1 then ⟨4 + 3 - 1, 6⟩ else ⟨4, 6⟩)))] }) :=
  ⟨drawTile_placeholder exampleParams footprintWorld topView emptyPainter ⟨0, 0⟩ 0 0 1
      (by decide) (by decide) (by decide) (by decide) (by decide) (by decide) rfl rfl,
    drawTile_placeholder exampleParams footprintWorld topView emptyPainter ⟨4, 6⟩ 4 4 3
      (by decide) (by decide) (by decide) (by decide) (by decide) (by decide) rfl rfl⟩

/-! ## Panning: theorems -/

/-- The multiplier computed by the two `if` statements of the code is the specified one. -/
theorem accel_eq_panMultiplier (v : ℚ) :
    (if (if v > 200 then 1 + ((v - 200) / 100) else (1 : ℚ)) > 8 then (8 : ℚ)
      else (if v > 200 then 1 + ((v - 200) / 100) else (1 : ℚ))) = panMultiplier v := by
  unfold panMultiplier
  by_cases h : v > 200
  · have h2 : ¬ v ≤ 200 := not_le.mpr h
    rw [if_pos h, if_neg h2]
    by_cases h3 : 1 + (v - 200) / 100 > 8
    · rw [if_pos h3, min_eq_left (le_of_lt h3)]
    · rw [if_neg h3, min_eq_right (not_lt.mp h3)]
  · have h2 : v ≤ 200 := not_lt.mp h
    rw [if_neg h, if_pos h2, if_neg (by norm_num)]

/-- A motion sample while panning that comes before the 30 ms gate changes nothing. -/
theorem eventMouseMotion_early (c : Params) (env : Env) (s : GameView) (e : Event)
    (hdrag : s.dragging = true) (hearly : elapsedTicks env.ticks s.dragStartTime < 30) :
    eventMouseMotion c env s e = s := by
  simp only [eventMouseMotion, hdrag, if_true, hearly]

/-- A motion sample while panning that passes the 30 ms gate below the speed threshold. -/
theorem eventMouseMotion_slow (c : Params) (env : Env) (s : GameView) (e : Event)
    (hdrag : s.dragging = true) (hlate : 30 ≤ elapsedTicks env.ticks s.dragStartTime)
    (hslow : dragSpeed c s e.mousepos env.ticks < 2000) :
    eventMouseMotion c env s e =
      { s with
        viewport := s.viewport.add
          ((e.mousepos.sub s.dragStart).smul (panMultiplier (dragSpeed c s e.mousepos env.ticks)))
        log := s.log ++ [Effect.warpMouse s.dragStart.x s.dragStart.y, Effect.setDirty]
        dragStartTime := env.ticks } := by
  have h30 : ¬ elapsedTicks env.ticks s.dragStartTime < 30 := not_lt.mpr hlate
  unfold dragSpeed at hslow
  simp only [eventMouseMotion, hdrag, if_true, h30, if_false, Vector2.sub, hslow, setDirty,
    accel_eq_panMultiplier, List.append_assoc, List.singleton_append]
  rfl

/-- A motion sample while panning that passes the 30 ms gate at or above the speed threshold:
the delta is dropped, the time stamp is updated and the view is marked dirty. -/
theorem eventMouseMotion_fast (c : Params) (env : Env) (s : GameView) (e : Event)
    (hdrag : s.dragging = true) (hlate : 30 ≤ elapsedTicks env.ticks s.dragStartTime)
    (hfast : ¬ dragSpeed c s e.mousepos env.ticks < 2000) :
    eventMouseMotion c env s e =
      { s with log := s.log ++ [Effect.setDirty], dragStartTime := env.ticks } := by
  have h30 : ¬ elapsedTicks env.ticks s.dragStartTime < 30 := not_lt.mpr hlate
  unfold dragSpeed at hfast
  simp only [eventMouseMotion, hdrag, if_true, h30, if_false, Vector2.sub, hfast, setDirty]

theorem sqrtOnSquares_sq (n : Nat) : sqrtOnSquares ((n * n : Nat) : ℚ) = (n : ℚ) := by
  unfold sqrtOnSquares
  rw [Rat.num_natCast, Rat.den_natCast, Int.toNat_ofNat, Nat.sqrt_eq, Nat.sqrt_one]
  simp

/-- C9 (amended). Pan debounce: while panning, a motion sample that arrives fewer than 30 ms
after the last accepted one leaves the whole state unchanged. Hence of two samples, the first
before and the second at or after the 30 ms gate, only the second can move the viewport, and it
does so once: by its delta from the drag anchor times its acceleration multiplier when its speed
is below 2000 pixels per second, and not at all when the speed is 2000 or more (the time stamp
is updated in both cases). -/
theorem pan_debounce (c : Params) (env1 env2 : Env) (s : GameView) (e1 e2 : Event) (fuel : Nat)
    (hdrag : s.dragging = true)
    (ht1 : e1.type = EventType.MOUSEMOTION) (ht2 : e2.type = EventType.MOUSEMOTION)
    (hearly : elapsedTicks env1.ticks s.dragStartTime < 30)
    (hlate : 30 ≤ elapsedTicks env2.ticks s.dragStartTime) :
    event c env1 fuel s e1 = some s ∧
      ∃ s2 : GameView, (event c env1 fuel s e1).bind (fun s1 => event c env2 fuel s1 e2) = some s2 ∧
        s2.viewport =
          (if dragSpeed c s e2.mousepos env2.ticks < 2000 then
            s.viewport.add ((e2.mousepos.sub s.dragStart).smul
              (panMultiplier (dragSpeed c s e2.mousepos env2.ticks)))
          else s.viewport) ∧
        s2.dragStartTime = env2.ticks ∧ s2.dragStart = s.dragStart ∧ s2.dragging = true := by
  have h1 : event c env1 fuel s e1 = some s := by
    simp only [event, ht1, eventMouseMotion_early c env1 s e1 hdrag hearly]
  refine ⟨h1, ?_⟩
  have h2 : event c env2 fuel s e2 = some (eventMouseMotion c env2 s e2) := by
    simp only [event, ht2]
  rw [h1, Option.some_bind]
  refine ⟨eventMouseMotion c env2 s e2, h2, ?_⟩
  by_cases hv : dragSpeed c s e2.mousepos env2.ticks < 2000
  · rw [if_pos hv, eventMouseMotion_slow c env2 s e2 hdrag hlate hv]
    exact ⟨rfl, rfl, rfl, hdrag⟩
  · rw [if_neg hv, eventMouseMotion_fast c env2 s e2 hdrag hlate hv]
    exact ⟨rfl, rfl, rfl, hdrag⟩

/-- C9 (counterexample). Panning with drag anchor (100,100) and last accepted sample at tick
1000: a sample at tick 1025 is ignored, and the sample 10 ms later at tick 1035, at pixel
(400,500), is past the gate; its delta is (300,400) at 14285 pixels per second, and the
viewport after both samples is still (6000,0): no multiple `m >= 1` of the delta was added. -/
theorem pan_debounce_fast_sample_dropped :
    panView.dragging = true ∧
      elapsedTicks (envAt 1025).ticks panView.dragStartTime = 25 ∧
      elapsedTicks (envAt 1035).ticks panView.dragStartTime = 35 ∧
      (motionTo ⟨400, 500⟩).mousepos.sub panView.dragStart = ⟨300, 400⟩ ∧
      ((event exampleParams (envAt 1025) 0 panView (motionTo ⟨130, 140⟩)).bind
          (fun s1 => event exampleParams (envAt 1035) 0 s1 (motionTo ⟨400, 500⟩))).map
        GameView.viewport = some ⟨6000, 0⟩ ∧
      ∀ m : ℚ, 1 ≤ m →
        ((event exampleParams (envAt 1025) 0 panView (motionTo ⟨130, 140⟩)).bind
            (fun s1 => event exampleParams (envAt 1035) 0 s1 (motionTo ⟨400, 500⟩))).map
          GameView.viewport ≠
          some (panView.viewport.add (((motionTo ⟨400, 500⟩).mousepos.sub panView.dragStart).smul m)) := by
  have he1 : elapsedTicks (envAt 1025).ticks panView.dragStartTime = 25 := by decide
  have he2 : elapsedTicks (envAt 1035).ticks panView.dragStartTime = 35 := by decide
  have hd : (motionTo ⟨400, 500⟩).mousepos.sub panView.dragStart = ⟨300, 400⟩ := by
    norm_num [motionTo, panView, Vector2.sub]
  have hfast : ¬ dragSpeed exampleParams panView (motionTo ⟨400, 500⟩).mousepos (envAt 1035).ticks
      < 2000 := by
    have hs : sqrtOnSquares 250000 = 500 := by
      have h := sqrtOnSquares_sq 500
      norm_num at h
      exact h
    unfold dragSpeed
    rw [he2]
    norm_num [motionTo, panView, exampleParams, hs]
  have hrun : ((event exampleParams (envAt 1025) 0 panView (motionTo ⟨130, 140⟩)).bind
      (fun s1 => event exampleParams (envAt 1035) 0 s1 (motionTo ⟨400, 500⟩))).map
        GameView.viewport = some ⟨6000, 0⟩ := by
    have h1 : event exampleParams (envAt 1025) 0 panView (motionTo ⟨130, 140⟩) = some panView := by
      simp only [event, motionTo,
        eventMouseMotion_early exampleParams (envAt 1025) panView _ rfl (by rw [he1]; decide)]
    have h2 : event exampleParams (envAt 1035) 0 panView (motionTo ⟨400, 500⟩) =
        some { panView with log := panView.log ++ [Effect.setDirty], dragStartTime := 1035 } := by
      have h := eventMouseMotion_fast exampleParams (envAt 1035) panView (motionTo ⟨400, 500⟩) rfl
        (by rw [he2]; decide) hfast
      simp only [event, motionTo] at h ⊢
      rw [h]
      rfl
    rw [h1, Option.some_bind, h2]
    rfl
  refine ⟨rfl, he1, he2, hd, hrun, ?_⟩
  intro m hm
  rw [hrun, hd]
  intro h
  have hx := congrArg Vector2.x (Option.some.inj h)
  simp only [Vector2.add, Vector2.smul, panView, topView] at hx
  linarith

/-- C9 (amended), worked instance: with drag anchor (100,100) and last accepted sample at
tick 1000, the sample at tick 1025 changes nothing, and the sample at tick 1035 at pixel
(130,140), delta (30,40) at 1428 pixels per second, multiplier 8, moves the viewport once,
from (6000,0) to (6240,320). -/
theorem pan_debounce_witness :
    event exampleParams (envAt 1025) 0 panView (motionTo ⟨115, 120⟩) = some panView ∧
      ((event exampleParams (envAt 1025) 0 panView (motionTo ⟨115, 120⟩)).bind
          (fun s1 => event exampleParams (envAt 1035) 0 s1 (motionTo ⟨130, 140⟩))).map
        GameView.viewport = some ⟨6240, 320⟩ := by
  obtain ⟨h1, s2, h2, h3, _⟩ := pan_debounce exampleParams (envAt 1025) (envAt 1035) panView
    (motionTo ⟨115, 120⟩) (motionTo ⟨130, 140⟩) 0 rfl rfl rfl (by decide) (by decide)
  refine ⟨h1, ?_⟩
  have he : elapsedTicks (envAt 1035).ticks panView.dragStartTime = 35 := by decide
  have hs : sqrtOnSquares 2500 = 50 := by
    have h := sqrtOnSquares_sq 50
    norm_num at h
    exact h
  have hv : dragSpeed exampleParams panView (motionTo ⟨130, 140⟩).mousepos (envAt 1035).ticks =
      10000 / 7 := by
    unfold dragSpeed
    rw [he]
    norm_num [motionTo, panView, exampleParams, hs]
  rw [h2, Option.map_some', h3, hv]
  norm_num [panMultiplier, Vector2.add, Vector2.sub, Vector2.smul, motionTo, panView, topView]

/-! ## Viewport invariant: theorems -/

/-- Two states with the same zoom, tile size and virtual screen size. -/
theorem ViewportInv_of_eq (c : Params) (s s1 : GameView) (hz : s1.zoom = s.zoom)
    (hw : s1.tileWidth = s.tileWidth) (hh : s1.tileHeight = s.tileHeight)
    (hvw : s1.virtualScreenWidth = s.virtualScreenWidth)
    (hvh : s1.virtualScreenHeight = s.virtualScreenHeight) (h : ViewportInv c s) :
    ViewportInv c s1 := by
  unfold ViewportInv at h ⊢
  rw [hz, hw, hh, hvw, hvh]
  exact h

theorem ViewportInv_parse (c : Params) (videoX videoY : Int) (blank : Texture) (s0 : GameView) :
    ViewportInv c (parse c videoX videoY blank s0) := by
  unfold ViewportInv parse
  norm_num

theorem ViewportInv_requestRedraw (c : Params) (s : GameView) (h : ViewportInv c s) :
    ViewportInv c s.requestRedraw :=
  ViewportInv_of_eq c s _ rfl rfl rfl rfl rfl h

theorem ViewportInv_setDirty (c : Params) (s : GameView) (h : ViewportInv c s) :
    ViewportInv c s.setDirty :=
  ViewportInv_of_eq c s _ rfl rfl rfl rfl rfl h

theorem ViewportInv_showTile (c : Params) (s : GameView) (map : MapPoint) (h : ViewportInv c s) :
    ViewportInv c (s.showTile map) :=
  ViewportInv_of_eq c s _ rfl rfl rfl rfl rfl h

theorem ViewportInv_recenter (c : Params) (s : GameView) (pos : Vector2) (h : ViewportInv c s) :
    ViewportInv c (s.recenter pos) :=
  ViewportInv_of_eq c s _ rfl rfl rfl rfl rfl h

theorem ViewportInv_resize (c : Params) (s : GameView) (a b : ℚ) (h : ViewportInv c s) :
    ViewportInv c (s.resize a b) :=
  ViewportInv_of_eq c s _ rfl rfl rfl rfl rfl h

theorem ViewportInv_setZoom (c : Params) (s : GameView) (v : ℚ) (h : ViewportInv c s) :
    ViewportInv c (setZoom c s v) := by
  unfold setZoom
  by_cases h1 : v < 1 / 8
  · simp only [h1, if_true]
    exact h
  · by_cases h2 : v > 4
    · simp only [h1, h2, if_true, if_false]
      exact h
    · simp only [h1, h2, if_false]
      apply ViewportInv_showTile
      unfold ViewportInv
      refine ⟨?_, ?_, rfl, rfl, rfl, rfl⟩
      · show 1 / 8 ≤ (if |v - 1| < 1 / 100 then (1 : ℚ) else v)
        split_ifs
        · norm_num
        · exact not_lt.mp h1
      · show (if |v - 1| < 1 / 100 then (1 : ℚ) else v) ≤ 4
        split_ifs
        · norm_num
        · exact not_lt.mp h2

/-- Normal form of a motion sample inside the view while not panning. -/
theorem eventMouseMotion_idle (c : Params) (env : Env) (s : GameView) (e : Event)
    (hdrag : s.dragging = false) (hin : e.inside = true) :
    eventMouseMotion c env s e =
      { s with
        mouseInGameView := true
        dragging := s.middleButtonDown
        dragStart := if s.middleButtonDown = true then e.mousepos else s.dragStart
        dragStartTime := if s.middleButtonDown = true then env.ticks else s.dragStartTime
        roadDragging :=
          if (!s.roadDragging && s.leftButtonDown && decide (s.cursorSize = 1)) = true then true
          else s.roadDragging
        startRoad :=
          if (!s.roadDragging && s.leftButtonDown && decide (s.cursorSize = 1)) = true then
            s.getTile e.mousepos
          else s.startRoad
        tileUnderMouse := s.getTile e.mousepos
        log := s.log
          ++ (if s.middleButtonDown = true then [Effect.showCursor false, Effect.grabInput true]
              else [])
          ++ (if s.tileUnderMouse ≠ s.getTile e.mousepos then [Effect.setDirty] else []) } := by
  cases hm : s.middleButtonDown <;>
    by_cases hb : (!s.roadDragging && s.leftButtonDown && decide (s.cursorSize = 1)) = true <;>
    by_cases ht : s.tileUnderMouse = s.getTile e.mousepos <;>
    simp only [eventMouseMotion, hdrag, hin, hm, hb, Bool.false_eq_true, if_false, if_true,
      Bool.not_false, Bool.not_true, Bool.and_false, Bool.and_true, Bool.true_and,
      Bool.false_and, setDirty, ne_eq, not_true_eq_false, not_false_eq_true,
      List.append_nil] <;>
    (first
      | rfl
      | (split_ifs with h1 <;>
          first
          | rfl
          | exact absurd h1 ht
          | exact absurd ht h1
          | (simp only [List.append_nil]
             first
             | rfl
             | (rw [ht]
                try rfl))))

/-- A motion sample outside the view while not panning only clears `mouseInGameView`. -/
theorem eventMouseMotion_outside (c : Params) (env : Env) (s : GameView) (e : Event)
    (hdrag : s.dragging = false) (hin : e.inside = false) :
    eventMouseMotion c env s e = { s with mouseInGameView := false } := by
  simp only [eventMouseMotion, hdrag, hin, Bool.false_eq_true, if_false, Bool.not_false, if_true]

theorem ViewportInv_eventMouseMotion (c : Params) (env : Env) (s : GameView) (e : Event)
    (h : ViewportInv c s) : ViewportInv c (eventMouseMotion c env s e) := by
  cases hdrag : s.dragging
  · cases hin : e.inside
    · rw [eventMouseMotion_outside c env s e hdrag hin]
      exact ViewportInv_of_eq c s _ rfl rfl rfl rfl rfl h
    · rw [eventMouseMotion_idle c env s e hdrag hin]
      exact ViewportInv_of_eq c s _ rfl rfl rfl rfl rfl h
  · by_cases hearly : elapsedTicks env.ticks s.dragStartTime < 30
    · rw [eventMouseMotion_early c env s e hdrag hearly]
      exact h
    · by_cases hv : dragSpeed c s e.mousepos env.ticks < 2000
      · rw [eventMouseMotion_slow c env s e hdrag (not_lt.mp hearly) hv]
        exact ViewportInv_of_eq c s _ rfl rfl rfl rfl rfl h
      · rw [eventMouseMotion_fast c env s e hdrag (not_lt.mp hearly) hv]
        exact ViewportInv_of_eq c s _ rfl rfl rfl rfl rfl h

theorem ViewportInv_eventMouseButtonDown (c : Params) (s : GameView) (e : Event)
    (h : ViewportInv c s) : ViewportInv c (eventMouseButtonDown s e) := by
  unfold eventMouseButtonDown
  split_ifs <;> exact ViewportInv_of_eq c s _ rfl rfl rfl rfl rfl h

theorem ViewportInv_eventKeyUp (c : Params) (s : GameView) (e : Event)
    (h : ViewportInv c s) : ViewportInv c (eventKeyUp c s e) := by
  cases hk : e.sym <;>
    simp only [eventKeyUp, hk, reduceCtorEq, if_false, if_true, or_false, false_or, or_true,
      true_or]
  case SDLK_KP_PLUS => exact ViewportInv_setZoom c s _ h
  case SDLK_KP_MINUS => exact ViewportInv_setZoom c s _ h
  case SDLK_KP_ENTER => exact ViewportInv_setZoom c s _ h
  case SDLK_OTHER => exact h
  all_goals exact ViewportInv_of_eq c s _ rfl rfl rfl rfl rfl h

theorem ViewportInv_eventMouseButtonUpLeft (c : Params) (env : Env) (fuel : Nat)
    (s s1 : GameView) (e : Event) (hres : eventMouseButtonUpLeft c env fuel s e = some s1)
    (h : ViewportInv c s) : ViewportInv c s1 := by
  by_cases hroad : e.mousebutton = MouseButton.LEFT ∧ s.roadDragging = true ∧ e.inside = true
  · simp only [eventMouseButtonUpLeft, hroad, and_self, if_true] at hres
    split at hres
    · exact absurd hres (by simp)
    · split at hres
      · exact absurd hres (by simp)
      · injection hres with hres
        subst hres
        exact ViewportInv_of_eq c s _ rfl rfl rfl rfl rfl h
  · simp only [eventMouseButtonUpLeft, hroad, if_false] at hres
    cases hin : e.inside
    · simp only [hin, Bool.not_false, if_true] at hres
      injection hres with hres
      subst hres
      split_ifs <;> exact ViewportInv_of_eq c s _ rfl rfl rfl rfl rfl h
    · simp only [hin, Bool.not_true, Bool.false_eq_true, if_false] at hres
      cases hb : e.mousebutton
      · simp only [hb, if_true] at hres
        split_ifs at hres <;>
          (injection hres with hres
           subst hres
           exact ViewportInv_of_eq c s _ rfl rfl rfl rfl rfl h)
      · simp only [hb, reduceCtorEq, if_false] at hres
        injection hres with hres
        subst hres
        exact ViewportInv_recenter c s _ h
      · simp only [hb, reduceCtorEq, if_false] at hres
        injection hres with hres
        subst hres
        exact ViewportInv_of_eq c s _ rfl rfl rfl rfl rfl h
      · simp only [hb, reduceCtorEq, if_false] at hres
        injection hres with hres
        subst hres
        exact ViewportInv_setZoom c s _ h
      · simp only [hb, reduceCtorEq, if_false] at hres
        injection hres with hres
        subst hres
        exact ViewportInv_setZoom c s _ h
      · simp only [hb, reduceCtorEq, if_false] at hres
        injection hres with hres
        subst hres
        exact h

theorem ViewportInv_eventMouseButtonUp (c : Params) (env : Env) (fuel : Nat)
    (s s1 : GameView) (e : Event) (hres : eventMouseButtonUp c env fuel s e = some s1)
    (h : ViewportInv c s) : ViewportInv c s1 := by
  unfold eventMouseButtonUp at hres
  split_ifs at hres with h1 h2
  · injection hres with hres
    subst hres
    exact ViewportInv_of_eq c s _ rfl rfl rfl rfl rfl h
  · exact ViewportInv_eventMouseButtonUpLeft c env fuel _ s1 e hres
      (ViewportInv_of_eq c s _ rfl rfl rfl rfl rfl h)
  · exact ViewportInv_eventMouseButtonUpLeft c env fuel s s1 e hres h

theorem ViewportInv_event (c : Params) (env : Env) (fuel : Nat) (s s1 : GameView) (e : Event)
    (hres : event c env fuel s e = some s1) (h : ViewportInv c s) : ViewportInv c s1 := by
  unfold event at hres
  cases hty : e.type <;> simp only [hty] at hres
  case MOUSEBUTTONUP => exact ViewportInv_eventMouseButtonUp c env fuel s s1 e hres h
  all_goals
    injection hres with hres
    subst hres
  · exact ViewportInv_eventMouseMotion c env s e h
  · exact ViewportInv_eventMouseButtonDown c s e h
  · exact ViewportInv_eventKeyUp c s e h
  · exact h

/-- C11. Viewport invariant: in every state reachable from the state set up by `parse`
through any sequence of `setZoom`, `zoomIn`, `zoomOut`, `resetZoom`, `show`, `recenter`,
`resize` and input events, `0.125 <= zoom <= 4`, the tile size is the base tile size times
zoom, and the virtual screen size is the tile size times `WORLD_SIDE_LEN`. -/
theorem reachable_viewportInv (c : Params) (s : GameView) (hreach : Reachable c s) :
    1 / 8 ≤ s.zoom ∧ s.zoom ≤ 4 ∧
      s.tileWidth = c.defaultTileWidth * s.zoom ∧
      s.tileHeight = c.defaultTileHeight * s.zoom ∧
      s.virtualScreenWidth = s.tileWidth * c.WORLD_SIDE_LEN ∧
      s.virtualScreenHeight = s.tileHeight * c.WORLD_SIDE_LEN := by
  show ViewportInv c s
  induction hreach with
  | parse videoX videoY blank s0 => exact ViewportInv_parse c videoX videoY blank s0
  | setZoom s newzoom _ ih => exact ViewportInv_setZoom c s newzoom ih
  | zoomIn s _ ih => exact ViewportInv_setZoom c s _ ih
  | zoomOut s _ ih => exact ViewportInv_setZoom c s _ ih
  | resetZoom s _ ih => exact ViewportInv_setZoom c s _ ih
  | showTile s map _ ih => exact ViewportInv_showTile c s map ih
  | recenter s pos _ ih => exact ViewportInv_recenter c s pos ih
  | resize s a b _ ih => exact ViewportInv_resize c s a b ih
  | event s s1 env fuel ev _ hev ih => exact ViewportInv_event c env fuel s s1 ev hev ih

/-- C11, worked instance: the state reached from the initial view by `zoomIn` and then a
resize to 1024 x 768 satisfies the invariant. -/
theorem reachable_viewportInv_witness :
    1 / 8 ≤ ((zoomIn exampleParams initialView).resize 1024 768).zoom ∧
      ((zoomIn exampleParams initialView).resize 1024 768).zoom ≤ 4 ∧
      ((zoomIn exampleParams initialView).resize 1024 768).tileWidth =
        exampleParams.defaultTileWidth * ((zoomIn exampleParams initialView).resize 1024 768).zoom ∧
      ((zoomIn exampleParams initialView).resize 1024 768).tileHeight =
        exampleParams.defaultTileHeight * ((zoomIn exampleParams initialView).resize 1024 768).zoom ∧
      ((zoomIn exampleParams initialView).resize 1024 768).virtualScreenWidth =
        ((zoomIn exampleParams initialView).resize 1024 768).tileWidth *
          exampleParams.WORLD_SIDE_LEN ∧
      ((zoomIn exampleParams initialView).resize 1024 768).virtualScreenHeight =
        ((zoomIn exampleParams initialView).resize 1024 768).tileHeight *
          exampleParams.WORLD_SIDE_LEN :=
  reachable_viewportInv exampleParams _
    (Reachable.resize _ 1024 768
      (Reachable.zoomIn _ (Reachable.parse 800 600 ⟨128, 64⟩ exampleView)))

/-! ## Pan acceleration and keyboard scroll: theorems -/

theorem panMultiplier_bounds (v : ℚ) : 1 ≤ panMultiplier v ∧ panMultiplier v ≤ 8 := by
  unfold panMultiplier
  split_ifs with h
  · constructor <;> norm_num
  · have h2 : 200 < v := not_le.mp h
    constructor
    · apply le_min
      · norm_num
      · linarith [div_pos (sub_pos.mpr h2) (by norm_num : (0 : ℚ) < 100)]
    · exact min_le_left _ _

theorem panMultiplier_mono (u v : ℚ) (huv : u ≤ v) : panMultiplier u ≤ panMultiplier v := by
  unfold panMultiplier
  by_cases hu : u ≤ 200
  · rw [if_pos hu]
    by_cases hv : v ≤ 200
    · rw [if_pos hv]
    · rw [if_neg hv]
      have h2 : 200 < v := not_le.mp hv
      apply le_min
      · norm_num
      · linarith [div_pos (sub_pos.mpr h2) (by norm_num : (0 : ℚ) < 100)]
  · have hv : ¬ v ≤ 200 := fun h => hu (le_trans huv h)
    rw [if_neg hu, if_neg hv]
    apply min_le_min_left
    have : (u - 200) / 100 ≤ (v - 200) / 100 :=
      div_le_div_of_nonneg_right (by linarith) (by norm_num)
    linarith

/-- C12. Pan acceleration: a motion sample while panning with elapsed time at least 30 ms and
speed `v = 1000 |d| / elapsed` below 2000 sets the viewport to `viewport + m(v) d`, where `d`
is the delta from the drag anchor, `m(v) = 1` for `v <= 200` and
`m(v) = min(8, 1 + (v - 200)/100)` for `v > 200`; `m` is non-decreasing and within `[1, 8]`. -/
theorem pan_acceleration (c : Params) (env : Env) (s : GameView) (e : Event) (fuel : Nat)
    (hdrag : s.dragging = true) (hty : e.type = EventType.MOUSEMOTION)
    (hlate : 30 ≤ elapsedTicks env.ticks s.dragStartTime)
    (hslow : dragSpeed c s e.mousepos env.ticks < 2000) :
    (∃ s1 : GameView, event c env fuel s e = some s1 ∧
        s1.viewport = s.viewport.add
          ((e.mousepos.sub s.dragStart).smul (panMultiplier (dragSpeed c s e.mousepos env.ticks)))) ∧
      (∀ v : ℚ, v ≤ 200 → panMultiplier v = 1) ∧
      (∀ v : ℚ, 200 < v → panMultiplier v = min 8 (1 + (v - 200) / 100)) ∧
      (∀ u v : ℚ, u ≤ v → panMultiplier u ≤ panMultiplier v) ∧
      (∀ v : ℚ, 1 ≤ panMultiplier v ∧ panMultiplier v ≤ 8) := by
  refine ⟨⟨eventMouseMotion c env s e, ?_, ?_⟩, ?_, ?_, panMultiplier_mono, panMultiplier_bounds⟩
  · simp only [event, hty]
  · rw [eventMouseMotion_slow c env s e hdrag hlate hslow]
  · intro v hv
    simp only [panMultiplier, hv, if_true]
  · intro v hv
    simp only [panMultiplier, not_le.mpr hv, if_false]

/-- C12, worked instance: drag anchor (100,100), last accepted sample at tick 1000; the
sample at tick 1035 at pixel (130,140) has speed 10000/7, multiplier 8, and moves the
viewport from (6000,0) to (6240,320). -/
theorem pan_acceleration_witness :
    dragSpeed exampleParams panView (motionTo ⟨130, 140⟩).mousepos (envAt 1035).ticks = 10000 / 7 ∧
      panMultiplier (10000 / 7) = 8 ∧
      (event exampleParams (envAt 1035) 0 panView (motionTo ⟨130, 140⟩)).map GameView.viewport =
        some ⟨6240, 320⟩ := by
  have he : elapsedTicks (envAt 1035).ticks panView.dragStartTime = 35 := by decide
  have hs : sqrtOnSquares 2500 = 50 := by
    have h := sqrtOnSquares_sq 50
    norm_num at h
    exact h
  have hv : dragSpeed exampleParams panView (motionTo ⟨130, 140⟩).mousepos (envAt 1035).ticks =
      10000 / 7 := by
    unfold dragSpeed
    rw [he]
    norm_num [motionTo, panView, exampleParams, hs]
  have hm : panMultiplier (10000 / 7) = 8 := by
    norm_num [panMultiplier]
  obtain ⟨s1, h1, h2⟩ := (pan_acceleration exampleParams (envAt 1035) panView
    (motionTo ⟨130, 140⟩) 0 rfl rfl (by decide) (by rw [hv]; norm_num)).1
  refine ⟨hv, hm, ?_⟩
  rw [h1, Option.map_some', h2, hv, hm]
  norm_num [Vector2.add, Vector2.sub, Vector2.smul, motionTo, panView, topView]

/-- C13 (counterexample). In the example view, keypad 6 moves the viewport by 64 pixels
without shift and by 640 pixels with shift: ten times as far, not five times. -/
theorem key_scroll_shift_not_five :
    (event exampleParams exampleEnv 0 exampleView (keyUp Key.SDLK_KP6 false)).map GameView.viewport
        = some ⟨6064, 2900⟩ ∧
      (event exampleParams exampleEnv 0 exampleView (keyUp Key.SDLK_KP6 true)).map GameView.viewport
        = some ⟨6640, 2900⟩ ∧
      (⟨6640, 2900⟩ : Vector2).sub exampleView.viewport ≠
        ((⟨6064, 2900⟩ : Vector2).sub exampleView.viewport).smul 5 := by
  refine ⟨?_, ?_, ?_⟩
  · simp only [event, keyUp, eventKeyUp, reduceCtorEq, if_false, if_true, or_false, false_or,
      Bool.false_eq_true, setDirty, Option.map_some', exampleView]
    norm_num
  · simp only [event, keyUp, eventKeyUp, reduceCtorEq, if_false, if_true, or_false, false_or,
      setDirty, Option.map_some', exampleView]
    norm_num
  · intro h
    have hx := congrArg Vector2.x h
    norm_num [Vector2.sub, Vector2.smul, exampleView] at hx

/-- C13 (amended). Keyboard scroll step: for every scroll key (keypad 1-4, 6-9 and the four
arrow keys) and every view state, the viewport displacement produced by the key-up event with
the shift modifier held is exactly 10 times the displacement produced by the same key without
the modifier (5 tiles against half a tile). -/
theorem key_scroll_shift_ten (c : Params) (env : Env) (s : GameView) (k : Key) (fuel : Nat)
    (hk : k ∈ scrollKeys) :
    ∃ s1 s2 : GameView,
      event c env fuel s (keyUp k false) = some s1 ∧
      event c env fuel s (keyUp k true) = some s2 ∧
      s2.viewport.sub s.viewport = (s1.viewport.sub s.viewport).smul 10 := by
  refine ⟨eventKeyUp c s (keyUp k false), eventKeyUp c s (keyUp k true), rfl, rfl, ?_⟩
  simp only [scrollKeys, List.mem_cons, List.mem_singleton, List.not_mem_nil, or_false] at hk
  rcases hk with rfl | rfl | rfl | rfl | rfl | rfl | rfl | rfl | rfl | rfl | rfl | rfl <;>
    (simp only [eventKeyUp, keyUp, reduceCtorEq, if_false, if_true, or_false, false_or, or_true,
      true_or, Bool.false_eq_true, setDirty, Vector2.sub, Vector2.smul]
     apply Vector2.ext <;> simp only [] <;> ring)

/-- C13 (amended), worked instance: keypad 6 in the example view. -/
theorem key_scroll_shift_ten_witness :
    Key.SDLK_KP6 ∈ scrollKeys ∧
      ∃ s1 s2 : GameView,
        event exampleParams exampleEnv 0 exampleView (keyUp Key.SDLK_KP6 false) = some s1 ∧
        event exampleParams exampleEnv 0 exampleView (keyUp Key.SDLK_KP6 true) = some s2 ∧
        s2.viewport.sub exampleView.viewport = (s1.viewport.sub exampleView.viewport).smul 10 :=
  ⟨by decide, key_scroll_shift_ten exampleParams exampleEnv exampleView Key.SDLK_KP6 0 (by decide)⟩

/-! ## Minimap notification, road entry, pointer capture: theorems -/

/-- C14 (evaluation at the failing input). After a resize of the example view to 800 x 600 the
minimap holds the corners of that view, with upper left tile (42,48). Keypad 6 with shift then
moves the viewport to (6640,2900) and only marks the view dirty: the corners last sent are
still those of the old viewport, while the upper left corner is now on tile (47,43). -/
theorem key_scroll_corners_stale :
    event exampleParams exampleEnv 0 (exampleView.resize 800 600) (keyUp Key.SDLK_KP6 true) =
        some { exampleView.resize 800 600 with
          viewport := ⟨6640, 2900⟩
          log := (exampleView.resize 800 600).log ++ [Effect.setDirty] } ∧
      lastCorners ((exampleView.resize 800 600).log ++ [Effect.setDirty]) =
        some (viewCorners (exampleView.resize 800 600)) ∧
      (viewCorners (exampleView.resize 800 600)).1 = ⟨42, 48⟩ ∧
      (viewCorners { exampleView.resize 800 600 with
          viewport := ⟨6640, 2900⟩
          log := (exampleView.resize 800 600).log ++ [Effect.setDirty] }).1 = ⟨47, 43⟩ := by
  refine ⟨?_, rfl, ?_, ?_⟩
  · simp only [event, keyUp, eventKeyUp, reduceCtorEq, if_false, if_true, or_false, false_or,
      setDirty]
    have hx : (exampleView.resize 800 600).viewport.x + 5 * (exampleView.resize 800 600).tileWidth
        = 6640 := by
      norm_num [resize, requestRedraw, exampleView]
    have hy : (exampleView.resize 800 600).viewport.y = 2900 := rfl
    rw [hx, hy]
  · apply MapPoint.ext
    · show ((exampleView.resize 800 600).getTile ⟨0, 0⟩).x = 42
      rw [getTile_x_eq]
      norm_num [resize, requestRedraw, exampleView]
    · show ((exampleView.resize 800 600).getTile ⟨0, 0⟩).y = 48
      rw [getTile_y_eq]
      norm_num [resize, requestRedraw, exampleView]
  · apply MapPoint.ext
    · simp only [viewCorners]
      rw [getTile_x_eq]
      norm_num [resize, requestRedraw, exampleView]
    · simp only [viewCorners]
      rw [getTile_y_eq]
      norm_num [resize, requestRedraw, exampleView]

/-- A left button-down inside the view clears `roadDragging` and sets `leftButtonDown`. -/
theorem eventMouseButtonDown_left (s : GameView) (e : Event) (hin : e.inside = true)
    (hb : e.mousebutton = MouseButton.LEFT) :
    eventMouseButtonDown s e = { s with roadDragging := false, leftButtonDown := true } := by
  simp only [eventMouseButtonDown, hin, hb, Bool.not_true, Bool.false_eq_true, if_false,
    reduceCtorEq, if_true]

/-- A middle button-down inside the view clears `dragging` and sets `middleButtonDown`. -/
theorem eventMouseButtonDown_middle (s : GameView) (e : Event) (hin : e.inside = true)
    (hb : e.mousebutton = MouseButton.MIDDLE) :
    eventMouseButtonDown s e = { s with dragging := false, middleButtonDown := true } := by
  simp only [eventMouseButtonDown, hin, hb, Bool.not_true, Bool.false_eq_true, if_false,
    if_true]

/-- C15 (counterexample). With the 1 x 1 cursor selected, a left button-down at pixel
(400,160), which lies on tile (2,2), leaves `roadDragging` false and `startRoad` at (0,0). -/
theorem left_down_not_road_painting :
    cursor1View.cursorSize = 1 ∧
      cursor1View.getTile (buttonDown MouseButton.LEFT ⟨400, 160⟩).mousepos = ⟨2, 2⟩ ∧
      (event exampleParams exampleEnv 0 cursor1View (buttonDown MouseButton.LEFT ⟨400, 160⟩)).map
          GameView.roadDragging = some false ∧
      (event exampleParams exampleEnv 0 cursor1View (buttonDown MouseButton.LEFT ⟨400, 160⟩)).map
          GameView.startRoad = some ⟨0, 0⟩ := by
  refine ⟨rfl, ?_, ?_, ?_⟩
  · apply MapPoint.ext
    · rw [getTile_x_eq]
      norm_num [cursor1View, topView, exampleView, buttonDown]
    · rw [getTile_y_eq]
      norm_num [cursor1View, topView, exampleView, buttonDown]
  · show (some (eventMouseButtonDown cursor1View (buttonDown MouseButton.LEFT ⟨400, 160⟩))).map
      GameView.roadDragging = some false
    rw [eventMouseButtonDown_left cursor1View (buttonDown MouseButton.LEFT ⟨400, 160⟩) rfl rfl]
    rfl
  · show (some (eventMouseButtonDown cursor1View (buttonDown MouseButton.LEFT ⟨400, 160⟩))).map
      GameView.startRoad = some ⟨0, 0⟩
    rw [eventMouseButtonDown_left cursor1View (buttonDown MouseButton.LEFT ⟨400, 160⟩) rfl rfl]
    rfl

/-- C15 (amended). Road-paint entry: a left button-down inside the view clears `roadDragging`,
sets `leftButtonDown` and leaves `startRoad` alone; with cursor size 1 and no pan in progress,
the next pointer-motion event inside the view enters RoadPainting: after it `roadDragging` is
true and `startRoad` is the tile under the pointer at that motion event. -/
theorem road_entry (c : Params) (env1 env2 : Env) (s : GameView) (e1 e2 : Event) (fuel : Nat)
    (ht1 : e1.type = EventType.MOUSEBUTTONDOWN) (hb1 : e1.mousebutton = MouseButton.LEFT)
    (hin1 : e1.inside = true)
    (ht2 : e2.type = EventType.MOUSEMOTION) (hin2 : e2.inside = true)
    (hcs : s.cursorSize = 1) (hdrag : s.dragging = false) :
    ∃ s1 s2 : GameView,
      event c env1 fuel s e1 = some s1 ∧
      s1.roadDragging = false ∧ s1.leftButtonDown = true ∧ s1.startRoad = s.startRoad ∧
      event c env2 fuel s1 e2 = some s2 ∧
      s2.roadDragging = true ∧ s2.startRoad = s1.getTile e2.mousepos ∧
      s1.getTile e2.mousepos = s.getTile e2.mousepos := by
  refine ⟨eventMouseButtonDown s e1, eventMouseMotion c env2 (eventMouseButtonDown s e1) e2,
    ?_, ?_, ?_, ?_, ?_, ?_, ?_, ?_⟩
  · simp only [event, ht1]
  · rw [eventMouseButtonDown_left s e1 hin1 hb1]
  · rw [eventMouseButtonDown_left s e1 hin1 hb1]
  · rw [eventMouseButtonDown_left s e1 hin1 hb1]
  · simp only [event, ht2]
  · rw [eventMouseButtonDown_left s e1 hin1 hb1,
      eventMouseMotion_idle c env2 { s with roadDragging := false, leftButtonDown := true } e2
        hdrag hin2]
    simp only [hcs, Bool.not_false, Bool.true_and, decide_True, if_true]
  · rw [eventMouseButtonDown_left s e1 hin1 hb1,
      eventMouseMotion_idle c env2 { s with roadDragging := false, leftButtonDown := true } e2
        hdrag hin2]
    simp only [hcs, Bool.not_false, Bool.true_and, decide_True, if_true]
  · rw [eventMouseButtonDown_left s e1 hin1 hb1]
    rfl

/-- C15 (amended), worked instance: left button-down at (400,160) with the 1 x 1 cursor,
then a motion to pixel (464,192), which lies on tile (3,2): RoadPainting starts there. -/
theorem road_entry_witness :
    cursor1View.getTile (motionTo ⟨464, 192⟩).mousepos = ⟨3, 2⟩ ∧
      ∃ s1 s2 : GameView,
        event exampleParams exampleEnv 0 cursor1View (buttonDown MouseButton.LEFT ⟨400, 160⟩)
          = some s1 ∧
        s1.roadDragging = false ∧ s1.leftButtonDown = true ∧
        s1.startRoad = cursor1View.startRoad ∧
        event exampleParams exampleEnv 0 s1 (motionTo ⟨464, 192⟩) = some s2 ∧
        s2.roadDragging = true ∧ s2.startRoad = s1.getTile (motionTo ⟨464, 192⟩).mousepos ∧
        s1.getTile (motionTo ⟨464, 192⟩).mousepos = cursor1View.getTile (motionTo ⟨464, 192⟩).mousepos := by
  constructor
  · apply MapPoint.ext
    · rw [getTile_x_eq]
      norm_num [cursor1View, topView, exampleView, motionTo]
    · rw [getTile_y_eq]
      norm_num [cursor1View, topView, exampleView, motionTo]
  · exact road_entry exampleParams exampleEnv exampleEnv cursor1View
      (buttonDown MouseButton.LEFT ⟨400, 160⟩) (motionTo ⟨464, 192⟩) 0 rfl rfl rfl rfl rfl rfl rfl

/-- Middle button-down inside the view, a motion inside the view, and a second middle
button-down inside the view, starting from a state that is not panning: the motion starts the
pan (pointer hidden, input grabbed), and the second button-down clears `dragging` without any
further call. -/
theorem middle_down_twice (c : Params) (env : Env) (fuel : Nat) (s : GameView) (e1 e2 e3 : Event)
    (ht1 : e1.type = EventType.MOUSEBUTTONDOWN) (hb1 : e1.mousebutton = MouseButton.MIDDLE)
    (hin1 : e1.inside = true)
    (ht2 : e2.type = EventType.MOUSEMOTION) (hin2 : e2.inside = true)
    (ht3 : e3.type = EventType.MOUSEBUTTONDOWN) (hb3 : e3.mousebutton = MouseButton.MIDDLE)
    (hin3 : e3.inside = true) :
    ∃ s2 s3 : GameView,
      (event c env fuel s e1).bind (fun s1 => event c env fuel s1 e2) = some s2 ∧
      s2.dragging = true ∧
      event c env fuel s2 e3 = some s3 ∧
      s3.dragging = false ∧
      s3.log = s.log ++ [Effect.showCursor false, Effect.grabInput true]
        ++ (if s.tileUnderMouse ≠ s.getTile e2.mousepos then [Effect.setDirty] else []) := by
  have h1 : event c env fuel s e1 = some { s with dragging := false, middleButtonDown := true } := by
    simp only [event, ht1, eventMouseButtonDown_middle s e1 hin1 hb1]
  have h2 : event c env fuel { s with dragging := false, middleButtonDown := true } e2 =
      some (eventMouseMotion c env { s with dragging := false, middleButtonDown := true } e2) := by
    simp only [event, ht2]
  have hidle := eventMouseMotion_idle c env { s with dragging := false, middleButtonDown := true }
    e2 rfl hin2
  refine ⟨eventMouseMotion c env { s with dragging := false, middleButtonDown := true } e2,
    eventMouseButtonDown
      (eventMouseMotion c env { s with dragging := false, middleButtonDown := true } e2) e3,
    ?_, ?_, ?_, ?_, ?_⟩
  · rw [h1, Option.some_bind, h2]
  · rw [hidle]
  · simp only [event, ht3]
  · rw [eventMouseButtonDown_middle _ e3 hin3 hb3]
  · rw [eventMouseButtonDown_middle _ e3 hin3 hb3, hidle]
    rfl

theorem pointerHidden_after_grab (log tl : List Effect) (htl : tl = [] ∨ tl = [Effect.setDirty]) :
    pointerHidden (log ++ [Effect.showCursor false, Effect.grabInput true] ++ tl) = true ∧
      inputGrabbed (log ++ [Effect.showCursor false, Effect.grabInput true] ++ tl) = true := by
  rcases htl with rfl | rfl <;>
    simp [pointerHidden, inputGrabbed, List.foldl_append]

/-- C16 (evaluation at the failing input). From the initial view: middle button-down at
(400,300), motion to (410,300), middle button-down again. After the motion the view is panning;
after the second button-down `dragging` is false, yet the pointer is still hidden and input
still grabbed: this Panning session ended without show/release. -/
theorem second_middle_down_leaves_pointer_hidden :
    ∃ s2 s3 : GameView,
      (event exampleParams exampleEnv 0 initialView (buttonDown MouseButton.MIDDLE ⟨400, 300⟩)).bind
          (fun s1 => event exampleParams exampleEnv 0 s1 (motionTo ⟨410, 300⟩)) = some s2 ∧
      s2.dragging = true ∧
      event exampleParams exampleEnv 0 s2 (buttonDown MouseButton.MIDDLE ⟨410, 300⟩) = some s3 ∧
      s3.dragging = false ∧ pointerHidden s3.log = true ∧ inputGrabbed s3.log = true := by
  obtain ⟨s2, s3, h12, hd2, h3, hd3, hlog⟩ := middle_down_twice exampleParams exampleEnv 0
    initialView (buttonDown MouseButton.MIDDLE ⟨400, 300⟩) (motionTo ⟨410, 300⟩)
    (buttonDown MouseButton.MIDDLE ⟨410, 300⟩) rfl rfl rfl rfl rfl rfl rfl rfl
  refine ⟨s2, s3, h12, hd2, h3, hd3, ?_⟩
  rw [hlog]
  apply pointerHidden_after_grab
  split_ifs
  · exact Or.inr rfl
  · exact Or.inl rfl

/-! ## Drawing a frame: theorems -/

/-- The state that `drawTile` returns: the input state, with the art of the drawn type turned
into a texture when the tile is drawn. -/
theorem drawTile_fst (c : Params) (w : World) (s : GameView) (painter : Painter)
    (tile : MapPoint) :
    (drawTile c w s painter tile).1 =
      (match drawnType c w s tile with
        | none => s
        | some t => promote c s t) := by
  by_cases hin : tile.x < 0 ∨ tile.y < 0 ∨ tile.x ≥ c.WORLD_SIDE_LEN ∨ tile.y ≥ c.WORLD_SIDE_LEN
  · simp only [drawTile, drawnType, hin, if_true]
    split_ifs <;> rfl
  · by_cases hu : w.MP_TYPE tile.x tile.y = c.CST_USED
    · by_cases hskip : tile.x ≠ w.MP_INFO_int_1 tile.x tile.y ∨
          tile.y - w.MP_SIZE (w.MP_INFO_int_1 tile.x tile.y) (w.MP_INFO_int_2 tile.x tile.y) + 1 ≠ w.MP_INFO_int_2 tile.x tile.y
      · simp only [drawTile, drawnType, hin, if_false, hu, decide_True, if_true, hskip]
      · by_cases hhide : w.MP_SIZE (w.MP_INFO_int_1 tile.x tile.y) (w.MP_INFO_int_2 tile.x tile.y) > 1 ∧ s.hideHigh = true
        · simp only [drawTile, drawnType, hin, if_false, hu, decide_True, if_true, hskip, hhide, and_self]
        · cases htex : s.cityTextures (w.MP_TYPE (w.MP_INFO_int_1 tile.x tile.y) (w.MP_INFO_int_2 tile.x tile.y)) with
          | some tx =>
            simp only [drawTile, drawnType, promote, hin, if_false, hu, decide_True, if_true, hskip,
              hhide, htex]
            split_ifs <;> rfl
          | none =>
            cases himg : s.cityImages (w.MP_TYPE (w.MP_INFO_int_1 tile.x tile.y) (w.MP_INFO_int_2 tile.x tile.y)) with
            | some img =>
              simp only [drawTile, drawnType, promote, hin, if_false, hu, decide_True, if_true, hskip,
                hhide, htex, himg]
              split_ifs <;> rfl
            | none =>
              simp only [drawTile, drawnType, promote, hin, if_false, hu, decide_True, if_true, hskip,
                hhide, htex, himg]
    · by_cases hskip : tile.x ≠ tile.x ∨
          tile.y - w.MP_SIZE (tile.x) (tile.y) + 1 ≠ tile.y
      · simp only [drawTile, drawnType, hin, if_false, hu, decide_False, Bool.false_eq_true, if_true, hskip]
      · by_cases hhide : w.MP_SIZE (tile.x) (tile.y) > 1 ∧ s.hideHigh = true
        · simp only [drawTile, drawnType, hin, if_false, hu, decide_False, Bool.false_eq_true, if_true, hskip, hhide, and_self]
        · cases htex : s.cityTextures (w.MP_TYPE (tile.x) (tile.y)) with
          | some tx =>
            simp only [drawTile, drawnType, promote, hin, if_false, hu, decide_False, Bool.false_eq_true, if_true, hskip,
              hhide, htex]
            split_ifs <;> rfl
          | none =>
            cases himg : s.cityImages (w.MP_TYPE (tile.x) (tile.y)) with
            | some img =>
              simp only [drawTile, drawnType, promote, hin, if_false, hu, decide_False, Bool.false_eq_true, if_true, hskip,
                hhide, htex, himg]
              split_ifs <;> rfl
            | none =>
              simp only [drawTile, drawnType, promote, hin, if_false, hu, decide_False, Bool.false_eq_true, if_true, hskip,
                hhide, htex, himg]

theorem AgreeButTables_refl (s : GameView) : AgreeButTables s s :=
  ⟨s.cityTextures, s.cityImages, rfl⟩

theorem AgreeButTables_trans (s s1 s2 : GameView) (h1 : AgreeButTables s s1)
    (h2 : AgreeButTables s1 s2) : AgreeButTables s s2 := by
  obtain ⟨t1, i1, rfl⟩ := h1
  obtain ⟨t2, i2, rfl⟩ := h2
  exact ⟨t2, i2, rfl⟩

theorem promote_agree (c : Params) (s : GameView) (t : Int) : AgreeButTables s (promote c s t) := by
  unfold promote
  split
  · exact AgreeButTables_refl s
  · split
    · exact ⟨_, _, rfl⟩
    · exact AgreeButTables_refl s

theorem drawTile_agree (c : Params) (w : World) (s : GameView) (painter : Painter)
    (tile : MapPoint) : AgreeButTables s (drawTile c w s painter tile).1 := by
  rw [drawTile_fst]
  split
  · exact AgreeButTables_refl s
  · exact promote_agree c s _

theorem foldl_drawTile_agree (c : Params) (w : World) (tiles : List MapPoint) :
    ∀ (s : GameView) (painter : Painter),
      AgreeButTables s
        (tiles.foldl (fun sp currentTile => drawTile c w sp.1 sp.2 currentTile) (s, painter)).1 := by
  induction tiles with
  | nil =>
    intro s painter
    exact AgreeButTables_refl s
  | cons t rest ih =>
    intro s painter
    rw [List.foldl_cons]
    exact AgreeButTables_trans s _ _ (drawTile_agree c w s painter t)
      (ih (drawTile c w s painter t).1 (drawTile c w s painter t).2)

/-- The flag computed at the head of `draw` is clear exactly for a centre tile in the grid,
and then the tile is left as it is. -/
theorem drawClamp_inside (c : Params) (t : MapPoint)
    (h : 0 ≤ t.x ∧ t.x < c.WORLD_SIDE_LEN ∧ 0 ≤ t.y ∧ t.y < c.WORLD_SIDE_LEN) :
    drawClamp c t = (t, false) := by
  obtain ⟨h1, h2, h3, h4⟩ := h
  have a1 : ¬ t.x < 0 := not_lt.mpr h1
  have a2 : ¬ t.x ≥ c.WORLD_SIDE_LEN := not_le.mpr h2
  have a3 : ¬ t.y < 0 := not_lt.mpr h3
  have a4 : ¬ t.y ≥ c.WORLD_SIDE_LEN := not_le.mpr h4
  simp only [drawClamp, a1, a2, a3, a4, if_false]

theorem drawClamp_outside (c : Params) (t : MapPoint)
    (h : ¬ (0 ≤ t.x ∧ t.x < c.WORLD_SIDE_LEN ∧ 0 ≤ t.y ∧ t.y < c.WORLD_SIDE_LEN)) :
    (drawClamp c t).2 = true := by
  simp only [drawClamp]
  split_ifs
  all_goals simp only [] at *
  all_goals
    first
    | rfl
    | (exfalso
       apply h
       omega)

theorem drawClamp_fst (c : Params) (t : MapPoint) (hN : 0 < c.WORLD_SIDE_LEN) :
    (drawClamp c t).1 = clampTile c t := by
  simp only [drawClamp, clampTile]
  split_ifs <;> simp only [] at * <;> apply MapPoint.ext <;>
    simp only [max_def, min_def] <;> split_ifs <;> omega

theorem markTilePort_isSome (c : Params) (w : World) (cs : Int) (tile : MapPoint) (x : Int) :
    ∀ (m fuel : Nat) (painter : Painter) (y : Int), tile.y + cs - y ≤ (m : Int) → m < fuel →
      ∃ p : Painter, markTilePort c w cs tile x fuel painter y = some p := by
  intro m
  induction m with
  | zero =>
    intro fuel painter y hm hf
    obtain ⟨f, rfl⟩ : ∃ f, fuel = f + 1 := ⟨fuel - 1, by omega⟩
    have hy : ¬ y < tile.y + cs := by
      simp only [Nat.cast_zero] at hm
      omega
    exact ⟨painter, by simp only [markTilePort, hy, if_false]⟩
  | succ m ih =>
    intro fuel painter y hm hf
    obtain ⟨f, rfl⟩ : ∃ f, fuel = f + 1 := ⟨fuel - 1, by omega⟩
    by_cases hy : y < tile.y + cs
    · simp only [markTilePort, hy, if_true]
      exact ih f _ (y + 1) (by push_cast at hm; omega) (by omega)
    · exact ⟨painter, by simp only [markTilePort, hy, if_false]⟩

theorem markTileRows_isSome (c : Params) (w : World) (cs : Int) (tile : MapPoint) (fuel : Nat)
    (painter : Painter) (hfuel : 2 * cs.toNat < fuel) :
    ∃ p : Painter, markTileRows c w cs tile fuel painter tile.y = some p := by
  by_cases hcs : 0 ≤ cs
  · obtain ⟨n, rfl⟩ := Int.eq_ofNat_of_zero_le hcs
    have hrun := markTileRows_run c w n tile n fuel painter tile.y (by ring) (le_refl n)
      (by simp only [Int.toNat_ofNat] at hfuel; omega)
    by_cases hex : ∃ x1 y1 : Int, tile.x ≤ x1 ∧ x1 < tile.x + (n : Int) ∧ tile.y ≤ y1 ∧
        y1 < tile.y + (n : Int) ∧ w.MP_TYPE x1 y1 ≠ c.CST_GREEN
    · exact ⟨_, hrun.2 hex⟩
    · refine ⟨_, hrun.1 ?_⟩
      intro x1 y1 h1 h2 h3 h4
      by_contra h5
      exact hex ⟨x1, y1, h1, h2, h3, h4, h5⟩
  · obtain ⟨f, rfl⟩ : ∃ f, fuel = f + 1 := ⟨fuel - 1, by omega⟩
    have hy : ¬ tile.y < tile.y + cs := by omega
    exact ⟨painter, by simp only [markTileRows, hy, if_false]⟩

/-- With fuel above twice the cursor size, `markTile` returns. -/
theorem markTile_isSome (c : Params) (w : World) (env : Env) (s : GameView) (painter : Painter)
    (tile : MapPoint) (fuel : Nat) (hfuel : 2 * s.cursorSize.toNat < fuel) :
    ∃ p : Painter, markTile c w env fuel s painter tile = some p := by
  by_cases h0 : s.cursorSize = 0
  · exact ⟨_, by simp only [markTile, h0, if_true]; rfl⟩
  · have hscan : ∃ p1 : Painter,
        (if tile.x + s.cursorSize > c.WORLD_SIDE_LEN ∨ tile.y + s.cursorSize > c.WORLD_SIDE_LEN ∨
            tile.x < 0 ∨ tile.y < 0 then
          some (setFillColor (setFillColor painter alphablue) alphared)
        else markTileRows c w s.cursorSize tile fuel (setFillColor painter alphablue) tile.y) =
          some p1 := by
      split_ifs
      · exact ⟨_, rfl⟩
      · exact markTileRows_isSome c w s.cursorSize tile fuel _ hfuel
    obtain ⟨p1, hp1⟩ := hscan
    have hport : ∃ p2 : Painter,
        (if env.selected_module_type = c.CST_EX_PORT then
          markTilePort c w s.cursorSize tile (tile.x + s.cursorSize) fuel p1 tile.y
        else some p1) = some p2 := by
      split_ifs
      · exact markTilePort_isSome c w s.cursorSize tile _ s.cursorSize.toNat fuel p1 tile.y
          (by
            have := Int.self_le_toNat s.cursorSize
            omega) (by omega)
      · exact ⟨_, rfl⟩
    obtain ⟨p2, hp2⟩ := hport
    exact ⟨_, by simp only [markTile, h0, if_false, hp1, hp2]; rfl⟩

theorem markWalkX_isSome (c : Params) (w : World) (env : Env) (s : GameView) (mfuel : Nat)
    (stepx : Int) (hstep : stepx = 1 ∨ stepx = -1) (hm : 2 * s.cursorSize.toNat < mfuel) :
    ∀ (n fuel : Nat) (cur : MapPoint) (painter : Painter),
      s.tileUnderMouse.x - cur.x = stepx * (n : Int) → n < fuel →
      ∃ p : Painter, markWalkX c w env s mfuel stepx fuel cur painter =
        some (⟨s.tileUnderMouse.x, cur.y⟩, p) := by
  intro n
  induction n with
  | zero =>
    intro fuel cur painter h hf
    obtain ⟨f, rfl⟩ : ∃ f, fuel = f + 1 := ⟨fuel - 1, by omega⟩
    have hx : cur.x = s.tileUnderMouse.x := by
      simp only [Nat.cast_zero, mul_zero] at h
      omega
    exact ⟨painter, by simp [markWalkX, hx.symm]⟩
  | succ n ih =>
    intro fuel cur painter h hf
    obtain ⟨f, rfl⟩ : ∃ f, fuel = f + 1 := ⟨fuel - 1, by omega⟩
    have hx : cur.x ≠ s.tileUnderMouse.x := by
      rcases hstep with rfl | rfl <;> push_cast at h <;> omega
    obtain ⟨p1, hp1⟩ := markTile_isSome c w env s painter cur mfuel hm
    obtain ⟨p2, hp2⟩ := ih f ⟨cur.x + stepx, cur.y⟩ p1 (by
      show s.tileUnderMouse.x - (cur.x + stepx) = stepx * (n : Int)
      push_cast at h
      linarith) (by omega)
    exact ⟨p2, by simp only [markWalkX, ne_eq, hx, not_false_eq_true, if_true, hp1, hp2]⟩

theorem markWalkY_isSome (c : Params) (w : World) (env : Env) (s : GameView) (mfuel : Nat)
    (stepy : Int) (hstep : stepy = 1 ∨ stepy = -1) (hm : 2 * s.cursorSize.toNat < mfuel) :
    ∀ (n fuel : Nat) (cur : MapPoint) (painter : Painter),
      s.tileUnderMouse.y - cur.y = stepy * (n : Int) → n < fuel →
      ∃ p : Painter, markWalkY c w env s mfuel stepy fuel cur painter =
        some (⟨cur.x, s.tileUnderMouse.y⟩, p) := by
  intro n
  induction n with
  | zero =>
    intro fuel cur painter h hf
    obtain ⟨f, rfl⟩ : ∃ f, fuel = f + 1 := ⟨fuel - 1, by omega⟩
    have hy : cur.y = s.tileUnderMouse.y := by
      simp only [Nat.cast_zero, mul_zero] at h
      omega
    exact ⟨painter, by simp [markWalkY, hy.symm]⟩
  | succ n ih =>
    intro fuel cur painter h hf
    obtain ⟨f, rfl⟩ : ∃ f, fuel = f + 1 := ⟨fuel - 1, by omega⟩
    have hy : cur.y ≠ s.tileUnderMouse.y := by
      rcases hstep with rfl | rfl <;> push_cast at h <;> omega
    obtain ⟨p1, hp1⟩ := markTile_isSome c w env s painter cur mfuel hm
    obtain ⟨p2, hp2⟩ := ih f ⟨cur.x, cur.y + stepy⟩ p1 (by
      show s.tileUnderMouse.y - (cur.y + stepy) = stepy * (n : Int)
      push_cast at h
      linarith) (by omega)
    exact ⟨p2, by simp only [markWalkY, ne_eq, hy, not_false_eq_true, if_true, hp1, hp2]⟩

/-- With enough fuel the marker pass of `draw` returns. -/
theorem drawMarker_isSome (c : Params) (w : World) (env : Env) (s : GameView) (painter : Painter)
    (fuel : Nat)
    (hfuel : 2 * s.cursorSize.toNat + (s.tileUnderMouse.x - s.startRoad.x).natAbs +
      (s.tileUnderMouse.y - s.startRoad.y).natAbs < fuel) :
    ∃ p : Painter, drawMarker c w env fuel s painter = some p := by
  have hm : 2 * s.cursorSize.toNat < fuel := by omega
  by_cases hcond : (s.mouseInGameView && !env.blockingDialogIsOpen) = true
  · have hwalk : ∃ p1 : Painter,
        (if s.roadDragging = true then
          match markWalkX c w env s fuel (if s.startRoad.x > s.tileUnderMouse.x then -1 else 1)
              fuel s.startRoad painter with
          | none => none
          | some (currenTile, painter) =>
            match markWalkY c w env s fuel (if s.startRoad.y > s.tileUnderMouse.y then -1 else 1)
                fuel currenTile painter with
            | none => none
            | some (_, painter) => some painter
        else some painter) = some p1 := by
      by_cases hroad : s.roadDragging = true
      · obtain ⟨p1, hp1⟩ := markWalkX_isSome c w env s fuel
          (if s.startRoad.x > s.tileUnderMouse.x then -1 else 1)
          (by split_ifs <;> simp) hm
          (s.tileUnderMouse.x - s.startRoad.x).natAbs fuel s.startRoad painter
          (by split_ifs <;> omega) (by omega)
        obtain ⟨p2, hp2⟩ := markWalkY_isSome c w env s fuel
          (if s.startRoad.y > s.tileUnderMouse.y then -1 else 1)
          (by split_ifs <;> simp) hm
          (s.tileUnderMouse.y - s.startRoad.y).natAbs fuel ⟨s.tileUnderMouse.x, s.startRoad.y⟩ p1
          (by
            show s.tileUnderMouse.y - s.startRoad.y = _
            split_ifs <;> omega) (by omega)
        exact ⟨p2, by simp only [hroad, if_true, hp1, hp2]⟩
      · exact ⟨painter, by simp only [hroad, if_false, Bool.false_eq_true]⟩
    obtain ⟨p1, hp1⟩ := hwalk
    obtain ⟨p2, hp2⟩ := markTile_isSome c w env s p1 s.tileUnderMouse fuel hm
    exact ⟨p2, by simp only [drawMarker, hcond, if_true, hp1, hp2]⟩
  · exact ⟨painter, by simp only [drawMarker, hcond, if_false, Bool.false_eq_true]⟩

theorem agree_ite (s : GameView) (P : Prop) [Decidable P] (a b : GameView × Painter)
    (ha : AgreeButTables s a.1) (hb : AgreeButTables s b.1) :
    AgreeButTables s (if P then a else b).1 := by
  split_ifs <;> assumption

theorem drawMarker_isSome_of_agree (c : Params) (w : World) (env : Env) (s s1 : GameView)
    (painter : Painter) (fuel : Nat) (hag : AgreeButTables s s1)
    (hfuel : 2 * s.cursorSize.toNat + (s.tileUnderMouse.x - s.startRoad.x).natAbs +
      (s.tileUnderMouse.y - s.startRoad.y).natAbs < fuel) :
    ∃ p : Painter, drawMarker c w env fuel s1 painter = some p := by
  obtain ⟨t, i, rfl⟩ := hag
  exact drawMarker_isSome c w env _ painter fuel hfuel

/-- When the centre tile is in range, whatever `draw` returns differs from the state before at
most in the two art tables. -/
theorem draw_inside_agree (c : Params) (w : World) (env : Env) (fuel : Nat) (s : GameView)
    (painter : Painter) (r : GameView × Painter)
    (h : 0 ≤ s.getCenter.x ∧ s.getCenter.x < c.WORLD_SIDE_LEN ∧
      0 ≤ s.getCenter.y ∧ s.getCenter.y < c.WORLD_SIDE_LEN)
    (hr : draw c w env fuel s painter = some r) : AgreeButTables s r.1 := by
  simp only [draw, drawClamp_inside c s.getCenter h, Bool.false_eq_true, if_false] at hr
  split at hr
  · exact absurd hr (by simp)
  · injection hr with hr
    subst hr
    exact agree_ite s _ _ _ (foldl_drawTile_agree c w _ s _) (AgreeButTables_refl s)

/-- When the centre tile is in range, `draw` returns as soon as the fuel covers the marker
pass. -/
theorem draw_inside_isSome (c : Params) (w : World) (env : Env) (fuel : Nat) (s : GameView)
    (painter : Painter)
    (h : 0 ≤ s.getCenter.x ∧ s.getCenter.x < c.WORLD_SIDE_LEN ∧
      0 ≤ s.getCenter.y ∧ s.getCenter.y < c.WORLD_SIDE_LEN)
    (hfuel : 2 * s.cursorSize.toNat + (s.tileUnderMouse.x - s.startRoad.x).natAbs +
      (s.tileUnderMouse.y - s.startRoad.y).natAbs < fuel) :
    ∃ r : GameView × Painter, draw c w env fuel s painter = some r := by
  simp only [draw, drawClamp_inside c s.getCenter h, Bool.false_eq_true, if_false]
  have key : ∀ (d : GameView × Painter) (p1 : Painter), AgreeButTables s d.1 →
      ∃ r : GameView × Painter,
        (match drawMarker c w env fuel d.1 p1 with
          | none => none
          | some painter => some (d.1, painter)) = some r := by
    intro d p1 hag
    obtain ⟨p, hp⟩ := drawMarker_isSome_of_agree c w env s d.1 p1 fuel hag hfuel
    exact ⟨_, by rw [hp]⟩
  apply key
  exact agree_ite s _ _ _ (foldl_drawTile_agree c w _ s _) (AgreeButTables_refl s)

/-- When the centre tile is out of range, `draw` recentres on the clamped tile and returns
without drawing. -/
theorem draw_outside (c : Params) (w : World) (env : Env) (fuel : Nat) (s : GameView)
    (painter : Painter) (hN : 0 < c.WORLD_SIDE_LEN)
    (h : ¬ (0 ≤ s.getCenter.x ∧ s.getCenter.x < c.WORLD_SIDE_LEN ∧
      0 ≤ s.getCenter.y ∧ s.getCenter.y < c.WORLD_SIDE_LEN)) :
    draw c w env fuel s painter = some (s.showTile (clampTile c s.getCenter), painter) := by
  simp only [draw, drawClamp_outside c s.getCenter h, if_true, drawClamp_fst c s.getCenter hN]

theorem clampTile_inside (c : Params) (t : MapPoint)
    (h : 0 ≤ t.x ∧ t.x < c.WORLD_SIDE_LEN ∧ 0 ≤ t.y ∧ t.y < c.WORLD_SIDE_LEN) :
    clampTile c t = t := by
  obtain ⟨h1, h2, h3, h4⟩ := h
  apply MapPoint.ext <;> simp only [clampTile, max_def, min_def] <;> split_ifs <;> omega

theorem clampTile_range (c : Params) (t : MapPoint) (hN : 0 < c.WORLD_SIDE_LEN) :
    0 ≤ (clampTile c t).x ∧ (clampTile c t).x < c.WORLD_SIDE_LEN ∧
      0 ≤ (clampTile c t).y ∧ (clampTile c t).y < c.WORLD_SIDE_LEN := by
  simp only [clampTile, max_def, min_def]
  refine ⟨?_, ?_, ?_, ?_⟩ <;> split_ifs <;> omega

theorem getCenter_agree (s s1 : GameView) (hag : AgreeButTables s s1) :
    s1.getCenter = s.getCenter ∧ s1.viewport = s.viewport := by
  obtain ⟨t, i, rfl⟩ := hag
  exact ⟨rfl, rfl⟩

/-- C17. Center correction: for a view state with positive tile size (and a world of positive
side length), `draw` returns once the fuel covers the marker pass, and whenever it returns, the
tile at the screen centre equals the componentwise clamp of the centre tile before the call to
`[0, WORLD_SIDE_LEN - 1]`; that tile is in range, and the viewport is unchanged when the centre
was already in range. -/
theorem draw_center (c : Params) (w : World) (env : Env) (s : GameView) (painter : Painter)
    (hw : 0 < s.tileWidth) (hh : 0 < s.tileHeight) (hN : 0 < c.WORLD_SIDE_LEN) :
    (∃ N : Nat, ∀ fuel : Nat, N ≤ fuel →
      ∃ r : GameView × Painter, draw c w env fuel s painter = some r) ∧
    ∀ (fuel : Nat) (r : GameView × Painter), draw c w env fuel s painter = some r →
      r.1.getCenter = clampTile c s.getCenter ∧
      (0 ≤ r.1.getCenter.x ∧ r.1.getCenter.x < c.WORLD_SIDE_LEN ∧
        0 ≤ r.1.getCenter.y ∧ r.1.getCenter.y < c.WORLD_SIDE_LEN) ∧
      ((0 ≤ s.getCenter.x ∧ s.getCenter.x < c.WORLD_SIDE_LEN ∧
        0 ≤ s.getCenter.y ∧ s.getCenter.y < c.WORLD_SIDE_LEN) → r.1.viewport = s.viewport) := by
  by_cases h : 0 ≤ s.getCenter.x ∧ s.getCenter.x < c.WORLD_SIDE_LEN ∧
      0 ≤ s.getCenter.y ∧ s.getCenter.y < c.WORLD_SIDE_LEN
  · refine ⟨⟨2 * s.cursorSize.toNat + (s.tileUnderMouse.x - s.startRoad.x).natAbs +
      (s.tileUnderMouse.y - s.startRoad.y).natAbs + 1, ?_⟩, ?_⟩
    · intro fuel hfuel
      exact draw_inside_isSome c w env fuel s painter h (by omega)
    · intro fuel r hr
      obtain ⟨hc, hv⟩ := getCenter_agree s r.1 (draw_inside_agree c w env fuel s painter r h hr)
      refine ⟨?_, ?_, fun _ => hv⟩
      · rw [hc, clampTile_inside c _ h]
      · rw [hc]
        exact h
  · refine ⟨⟨0, fun fuel _ => ⟨_, draw_outside c w env fuel s painter hN h⟩⟩, ?_⟩
    intro fuel r hr
    rw [draw_outside c w env fuel s painter hN h] at hr
    injection hr with hr
    subst hr
    have hc : (s.showTile (clampTile c s.getCenter)).getCenter = clampTile c s.getCenter :=
      getCenter_showTile s _ hw hh
    refine ⟨hc, ?_, fun hin => absurd hin h⟩
    rw [hc]
    exact clampTile_range c _ hN

/-- C17 at a view whose centre tile lies left of the map. -/
theorem draw_center_witness :
    (0 : ℚ) < offMapView.tileWidth ∧ (0 : ℚ) < offMapView.tileHeight ∧
    (0 : Int) < exampleParams.WORLD_SIDE_LEN ∧
    ((∃ N : Nat, ∀ fuel : Nat, N ≤ fuel →
      ∃ r : GameView × Painter,
        draw exampleParams footprintWorld exampleEnv fuel offMapView emptyPainter = some r) ∧
    ∀ (fuel : Nat) (r : GameView × Painter),
      draw exampleParams footprintWorld exampleEnv fuel offMapView emptyPainter = some r →
      r.1.getCenter = clampTile exampleParams offMapView.getCenter ∧
      (0 ≤ r.1.getCenter.x ∧ r.1.getCenter.x < exampleParams.WORLD_SIDE_LEN ∧
        0 ≤ r.1.getCenter.y ∧ r.1.getCenter.y < exampleParams.WORLD_SIDE_LEN) ∧
      ((0 ≤ offMapView.getCenter.x ∧ offMapView.getCenter.x < exampleParams.WORLD_SIDE_LEN ∧
        0 ≤ offMapView.getCenter.y ∧ offMapView.getCenter.y < exampleParams.WORLD_SIDE_LEN) →
        r.1.viewport = offMapView.viewport)) :=
  ⟨by norm_num [offMapView, exampleView], by norm_num [offMapView, exampleView],
    by decide,
    draw_center exampleParams footprintWorld exampleEnv offMapView emptyPainter
      (by norm_num [offMapView, exampleView]) (by norm_num [offMapView, exampleView])
      (by decide)⟩

/-! ## Ownership of tile art: theorems -/

theorem drawnType_agree (c : Params) (w : World) (s s1 : GameView) (tile : MapPoint)
    (hag : AgreeButTables s s1) : drawnType c w s1 tile = drawnType c w s tile := by
  obtain ⟨t, i, rfl⟩ := hag
  rfl

theorem promote_singleOwner (c : Params) (s : GameView) (t : Int) (hinv : SingleOwner s) :
    SingleOwner (promote c s t) := by
  cases htex : s.cityTextures t with
  | some texture =>
    simp only [promote, htex]
    exact hinv
  | none =>
    cases himg : s.cityImages t with
    | none =>
      simp only [promote, htex, himg]
      exact hinv
    | some image =>
      simp only [promote, htex, himg]
      intro t2
      by_cases h2 : t2 = t
      · right
        show Function.update s.cityImages t none t2 = none
        rw [h2, Function.update_same]
      · rcases hinv t2 with h | h
        · left
          show Function.update s.cityTextures t (some (c.textureCreate image)) t2 = none
          rw [Function.update_noteq h2]
          exact h
        · right
          show Function.update s.cityImages t none t2 = none
          rw [Function.update_noteq h2]
          exact h

theorem promote_promoted (c : Params) (s : GameView) (t : Int) (image : Image)
    (htex : s.cityTextures t = none) (himg : s.cityImages t = some image) :
    (promote c s t).cityTextures t = some (c.textureCreate image) ∧
      (promote c s t).cityImages t = none ∧
      ∀ t2 : Int, t2 ≠ t →
        (promote c s t).cityTextures t2 = s.cityTextures t2 ∧
          (promote c s t).cityImages t2 = s.cityImages t2 := by
  simp only [promote, htex, himg]
  refine ⟨?_, ?_, ?_⟩
  · show Function.update s.cityTextures t (some (c.textureCreate image)) t = _
    rw [Function.update_same]
  · show Function.update s.cityImages t none t = none
    rw [Function.update_same]
  · intro t2 h2
    constructor
    · show Function.update s.cityTextures t (some (c.textureCreate image)) t2 = _
      rw [Function.update_noteq h2]
    · show Function.update s.cityImages t none t2 = _
      rw [Function.update_noteq h2]

theorem promote_idem (c : Params) (s : GameView) (t : Int) :
    promote c (promote c s t) t = promote c s t := by
  cases htex : s.cityTextures t with
  | some texture =>
    simp only [promote, htex]
  | none =>
    cases himg : s.cityImages t with
    | none =>
      simp only [promote, htex, himg]
    | some image =>
      have h := (promote_promoted c s t image htex himg).1
      generalize promote c s t = s1 at h
      simp only [promote, h]

/-- C18. Single ownership of tile art: `drawTile` keeps the invariant that no tile type has
both a decoded image and an uploaded texture; when the visit reaches the texture lookup for a
type `t` that has no texture and a decoded image, afterwards `t` has the texture created from
that image and no image, and the entries of every other type are unchanged; a second visit of
the same tile leaves the state as the first visit left it. -/
theorem drawTile_single_owner (c : Params) (w : World) (s : GameView) (painter : Painter)
    (tile : MapPoint) (hinv : SingleOwner s) :
    SingleOwner (drawTile c w s painter tile).1 ∧
    (∀ (t : Int) (image : Image), drawnType c w s tile = some t →
      s.cityTextures t = none → s.cityImages t = some image →
      (drawTile c w s painter tile).1.cityTextures t = some (c.textureCreate image) ∧
      (drawTile c w s painter tile).1.cityImages t = none ∧
      ∀ t2 : Int, t2 ≠ t →
        (drawTile c w s painter tile).1.cityTextures t2 = s.cityTextures t2 ∧
        (drawTile c w s painter tile).1.cityImages t2 = s.cityImages t2) ∧
    ∀ painter2 : Painter,
      (drawTile c w (drawTile c w s painter tile).1 painter2 tile).1 =
        (drawTile c w s painter tile).1 := by
  have h1 := drawTile_fst c w s painter tile
  have h2 : ∀ painter2 : Painter,
      (drawTile c w (drawTile c w s painter tile).1 painter2 tile).1 =
        (match drawnType c w s tile with
          | none => (drawTile c w s painter tile).1
          | some t => promote c (drawTile c w s painter tile).1 t) := by
    intro painter2
    rw [drawTile_fst c w _ painter2 tile,
      drawnType_agree c w s _ tile (drawTile_agree c w s painter tile)]
  cases hd : drawnType c w s tile with
  | none =>
    rw [hd] at h1 h2
    simp only [] at h1 h2
    refine ⟨?_, ?_, h2⟩
    · rw [h1]
      exact hinv
    · intro t image ht
      exact absurd ht (by simp)
  | some t0 =>
    rw [hd] at h1 h2
    simp only [] at h1 h2
    refine ⟨?_, ?_, ?_⟩
    · rw [h1]
      exact promote_singleOwner c s t0 hinv
    · intro t image ht htex himg
      injection ht with ht
      subst ht
      rw [h1]
      exact promote_promoted c s t0 image htex himg
    · intro painter2
      rw [h2 painter2, h1]
      exact promote_idem c s t0

/-- C18 at tile (4,6) of the example world, the drawing corner of the 3 x 3 building of type 5,
whose art is still a decoded image. -/
theorem drawTile_single_owner_witness :
    SingleOwner artView ∧
    (SingleOwner (drawTile exampleParams footprintWorld artView emptyPainter ⟨4, 6⟩).1 ∧
    (∀ (t : Int) (image : Image), drawnType exampleParams footprintWorld artView ⟨4, 6⟩ = some t →
      artView.cityTextures t = none → artView.cityImages t = some image →
      (drawTile exampleParams footprintWorld artView emptyPainter ⟨4, 6⟩).1.cityTextures t =
        some (exampleParams.textureCreate image) ∧
      (drawTile exampleParams footprintWorld artView emptyPainter ⟨4, 6⟩).1.cityImages t = none ∧
      ∀ t2 : Int, t2 ≠ t →
        (drawTile exampleParams footprintWorld artView emptyPainter ⟨4, 6⟩).1.cityTextures t2 =
          artView.cityTextures t2 ∧
        (drawTile exampleParams footprintWorld artView emptyPainter ⟨4, 6⟩).1.cityImages t2 =
          artView.cityImages t2) ∧
    ∀ painter2 : Painter,
      (drawTile exampleParams footprintWorld
        (drawTile exampleParams footprintWorld artView emptyPainter ⟨4, 6⟩).1 painter2 ⟨4, 6⟩).1 =
        (drawTile exampleParams footprintWorld artView emptyPainter ⟨4, 6⟩).1) :=
  ⟨fun _ => Or.inl rfl,
    drawTile_single_owner exampleParams footprintWorld artView emptyPainter ⟨4, 6⟩
      (fun _ => Or.inl rfl)⟩

/-- In the worked instance the visit of tile (4,6) does reach the texture lookup for type 5 and
promotes its image. -/
theorem drawTile_promotes_example :
    drawnType exampleParams footprintWorld artView ⟨4, 6⟩ = some 5 ∧
      artView.cityTextures 5 = none ∧ artView.cityImages 5 = some ⟨100, 80⟩ := by
  refine ⟨?_, rfl, ?_⟩
  · simp [drawnType, footprintWorld, exampleParams, artView, topView, exampleView]
  · simp [artView]

/-! ## Asset loading: theorems -/

/-- C19. Anchor resolution fails on a manifest whose entry for `f.png` declares no `x` and
follows an entry that declares `x = 5` for another file: `preReadCityTexture` records anchor
X = 5, the value left over from the earlier entry, where the specification gives half the image
width, 50; anchor Y is the image height, 80. -/
theorem preReadCityTexture_stale_x :
    (preReadCityTexture false staleManifest exampleReadImage exampleScanInt exampleView 7
      "f.png").cityTextureX 7 = 5 ∧
    specAnchorX exampleScanInt staleManifest "f.png" ⟨100, 80⟩ = 50 ∧
    (preReadCityTexture false staleManifest exampleReadImage exampleScanInt exampleView 7
      "f.png").cityTextureY 7 = 80 ∧
    (preReadCityTexture false staleManifest exampleReadImage exampleScanInt exampleView 7
      "f.png").cityImages 7 = some ⟨100, 80⟩ := by
  refine ⟨?_, ?_, ?_, ?_⟩
  · simp [preReadCityTexture, staleManifest, exampleReadImage, exampleScanInt, scanNodes,
      scanAttributes]
  · simp [specAnchorX, staleManifest, exampleScanInt, List.find?, List.lookup]
    decide
  · simp [preReadCityTexture, staleManifest, exampleReadImage, exampleScanInt, scanNodes,
      scanAttributes]
  · simp [preReadCityTexture, staleManifest, exampleReadImage, exampleScanInt, scanNodes,
      scanAttributes]

/-! ## Modal dialog: theorems -/

theorem roadWalkX_blocked (endRoad : MapPoint) (stepx : Int) :
    ∀ (fuel : Nat) (cur : MapPoint) (log : List Effect) (r : MapPoint × List Effect),
      roadWalkX true endRoad stepx fuel cur log = some r → r.2 = log := by
  intro fuel
  induction fuel with
  | zero =>
    intro cur log r h
    simp [roadWalkX] at h
  | succ f ih =>
    intro cur log r h
    by_cases hx : cur.x = endRoad.x
    · simp only [roadWalkX, ne_eq, hx, not_true_eq_false, if_false] at h
      injection h with h
      subst h
      rfl
    · simp only [roadWalkX, ne_eq, hx, not_false_eq_true, if_true, Bool.not_true,
        Bool.false_eq_true, if_false] at h
      exact ih _ _ _ h

theorem roadWalkY_blocked (endRoad : MapPoint) (stepy : Int) :
    ∀ (fuel : Nat) (cur : MapPoint) (log : List Effect) (r : MapPoint × List Effect),
      roadWalkY true endRoad stepy fuel cur log = some r → r.2 = log := by
  intro fuel
  induction fuel with
  | zero =>
    intro cur log r h
    simp [roadWalkY] at h
  | succ f ih =>
    intro cur log r h
    by_cases hy : cur.y = endRoad.y
    · simp only [roadWalkY, ne_eq, hy, not_true_eq_false, if_false] at h
      injection h with h
      subst h
      rfl
    · simp only [roadWalkY, ne_eq, hy, not_false_eq_true, if_true, Bool.not_true,
        Bool.false_eq_true, if_false] at h
      exact ih _ _ _ h

theorem roadWalkX_blocked_run (endRoad : MapPoint) (stepx : Int)
    (hstep : stepx = 1 ∨ stepx = -1) :
    ∀ (n fuel : Nat) (cur : MapPoint) (log : List Effect),
      endRoad.x - cur.x = stepx * (n : Int) → n < fuel →
      roadWalkX true endRoad stepx fuel cur log = some (⟨endRoad.x, cur.y⟩, log) := by
  intro n
  induction n with
  | zero =>
    intro fuel cur log h hf
    obtain ⟨f, rfl⟩ : ∃ f, fuel = f + 1 := ⟨fuel - 1, by omega⟩
    have hx : cur.x = endRoad.x := by
      simp only [Nat.cast_zero, mul_zero] at h
      omega
    simp [roadWalkX, hx.symm]
  | succ n ih =>
    intro fuel cur log h hf
    obtain ⟨f, rfl⟩ : ∃ f, fuel = f + 1 := ⟨fuel - 1, by omega⟩
    have hx : cur.x ≠ endRoad.x := by
      rcases hstep with rfl | rfl <;> push_cast at h <;> omega
    have hnext : endRoad.x - (cur.x + stepx) = stepx * (n : Int) := by
      push_cast at h
      linarith
    have hrec := ih f ⟨cur.x + stepx, cur.y⟩ log hnext (by omega)
    simp only [roadWalkX, ne_eq, hx, not_false_eq_true, if_true, Bool.not_true,
      Bool.false_eq_true, if_false]
    exact hrec

theorem roadWalkY_blocked_run (endRoad : MapPoint) (stepy : Int)
    (hstep : stepy = 1 ∨ stepy = -1) :
    ∀ (n fuel : Nat) (cur : MapPoint) (log : List Effect),
      endRoad.y - cur.y = stepy * (n : Int) → n < fuel →
      roadWalkY true endRoad stepy fuel cur log = some (⟨cur.x, endRoad.y⟩, log) := by
  intro n
  induction n with
  | zero =>
    intro fuel cur log h hf
    obtain ⟨f, rfl⟩ : ∃ f, fuel = f + 1 := ⟨fuel - 1, by omega⟩
    have hy : cur.y = endRoad.y := by
      simp only [Nat.cast_zero, mul_zero] at h
      omega
    simp [roadWalkY, hy.symm]
  | succ n ih =>
    intro fuel cur log h hf
    obtain ⟨f, rfl⟩ : ∃ f, fuel = f + 1 := ⟨fuel - 1, by omega⟩
    have hy : cur.y ≠ endRoad.y := by
      rcases hstep with rfl | rfl <;> push_cast at h <;> omega
    have hnext : endRoad.y - (cur.y + stepy) = stepy * (n : Int) := by
      push_cast at h
      linarith
    have hrec := ih f ⟨cur.x, cur.y + stepy⟩ log hnext (by omega)
    simp only [roadWalkY, ne_eq, hy, not_false_eq_true, if_true, Bool.not_true,
      Bool.false_eq_true, if_false]
    exact hrec

/-- Left button-up inside the view while road-dragging, in terms of the two loops. -/
theorem event_left_up_road (c : Params) (env : Env) (fuel : Nat) (s : GameView) (ev : Event)
    (hty : ev.type = EventType.MOUSEBUTTONUP) (hb : ev.mousebutton = MouseButton.LEFT)
    (hin : ev.inside = true) (hrd : s.roadDragging = true) :
    event c env fuel s ev =
      (match roadWalkX env.blockingDialogIsOpen (s.getTile ev.mousepos)
          (if s.startRoad.x > (s.getTile ev.mousepos).x then -1 else 1) fuel s.startRoad
          s.log with
        | none => none
        | some (currenTile, log) =>
          match roadWalkY env.blockingDialogIsOpen (s.getTile ev.mousepos)
              (if s.startRoad.y > (s.getTile ev.mousepos).y then -1 else 1) fuel currenTile
              log with
          | none => none
          | some (currenTile, log) =>
            some { s with
              roadDragging := false
              leftButtonDown := false
              log := if !env.blockingDialogIsOpen then log ++ [Effect.editMap currenTile]
                else log }) := by
  have hnm : ¬ ev.mousebutton = MouseButton.MIDDLE := by
    rw [hb]
    decide
  simp only [event, hty, eventMouseButtonUp, hnm, if_false, eventMouseButtonUpLeft, hb, hrd, hin,
    and_self, if_true]
  rfl

/-- Left button-up that is not a road release: the flags are cleared, and one edit request is
issued when the pointer is inside the view and no modal dialog is open. -/
theorem event_left_up_click (c : Params) (env : Env) (fuel : Nat) (s : GameView) (ev : Event)
    (hty : ev.type = EventType.MOUSEBUTTONUP) (hb : ev.mousebutton = MouseButton.LEFT)
    (hno : ¬ (s.roadDragging = true ∧ ev.inside = true)) :
    event c env fuel s ev =
      some (if ev.inside = true ∧ env.blockingDialogIsOpen = false then
          { s with
            roadDragging := false
            leftButtonDown := false
            log := s.log ++ [Effect.editMap (s.getTile ev.mousepos)] }
        else { s with roadDragging := false, leftButtonDown := false }) := by
  have hnm : ¬ ev.mousebutton = MouseButton.MIDDLE := by
    rw [hb]
    decide
  cases hin : ev.inside <;> cases hdlg : env.blockingDialogIsOpen <;>
    cases hrd : s.roadDragging <;>
    first
    | exact absurd (And.intro (by assumption) (by assumption)) hno
    | (simp only [event, hty, eventMouseButtonUp, hnm, if_false, eventMouseButtonUpLeft, hb, hin,
        hdlg, hrd, and_false, and_true, and_self, if_true, Bool.not_false, Bool.not_true,
        Bool.false_eq_true, reduceCtorEq]
       try rfl)

/-- C20. Modal dialog blocks edits: for a left button-up event, when the blocking-dialog flag
is set the handler returns (for every fuel above the Manhattan distance of the road release),
and whenever it returns the log of collaborator calls is unchanged, so no edit request is
issued, for a single click and for a road-paint release alike, and `roadDragging` and
`leftButtonDown` are false afterwards; when the flag is clear, a left button-up inside the view
with `roadDragging` false appends exactly one edit request, for `getTile(mousepos)`. -/
theorem left_up_dialog (c : Params) (env : Env) (s : GameView) (ev : Event)
    (hty : ev.type = EventType.MOUSEBUTTONUP) (hb : ev.mousebutton = MouseButton.LEFT) :
    (env.blockingDialogIsOpen = true →
      (∀ fuel : Nat,
        ((s.getTile ev.mousepos).x - s.startRoad.x).natAbs +
          ((s.getTile ev.mousepos).y - s.startRoad.y).natAbs < fuel →
        ∃ s1 : GameView, event c env fuel s ev = some s1) ∧
      ∀ (fuel : Nat) (s1 : GameView), event c env fuel s ev = some s1 →
        s1.log = s.log ∧ s1.roadDragging = false ∧ s1.leftButtonDown = false) ∧
    (env.blockingDialogIsOpen = false → ev.inside = true → s.roadDragging = false →
      ∀ fuel : Nat, event c env fuel s ev =
        some { s with
          roadDragging := false
          leftButtonDown := false
          log := s.log ++ [Effect.editMap (s.getTile ev.mousepos)] }) := by
  constructor
  · intro hdlg
    by_cases hroad : s.roadDragging = true ∧ ev.inside = true
    · obtain ⟨hrd, hin⟩ := hroad
      have hsx : (if s.startRoad.x > (s.getTile ev.mousepos).x then (-1 : Int) else 1) = 1 ∨
          (if s.startRoad.x > (s.getTile ev.mousepos).x then (-1 : Int) else 1) = -1 := by
        split_ifs
        · exact Or.inr rfl
        · exact Or.inl rfl
      have hsy : (if s.startRoad.y > (s.getTile ev.mousepos).y then (-1 : Int) else 1) = 1 ∨
          (if s.startRoad.y > (s.getTile ev.mousepos).y then (-1 : Int) else 1) = -1 := by
        split_ifs
        · exact Or.inr rfl
        · exact Or.inl rfl
      constructor
      · intro fuel hfuel
        have hX := roadWalkX_blocked_run (s.getTile ev.mousepos) _ hsx
          ((s.getTile ev.mousepos).x - s.startRoad.x).natAbs fuel s.startRoad s.log
          (by split_ifs <;> omega) (by omega)
        have hY := roadWalkY_blocked_run (s.getTile ev.mousepos) _ hsy
          ((s.getTile ev.mousepos).y - s.startRoad.y).natAbs fuel
          ⟨(s.getTile ev.mousepos).x, s.startRoad.y⟩ s.log
          (by
            show (s.getTile ev.mousepos).y - s.startRoad.y = _
            split_ifs <;> omega) (by omega)
        rw [event_left_up_road c env fuel s ev hty hb hin hrd, hdlg, hX]
        simp only []
        rw [hY]
        exact ⟨_, rfl⟩
      · intro fuel s1 hres
        rw [event_left_up_road c env fuel s ev hty hb hin hrd, hdlg] at hres
        split at hres
        · exact absurd hres (by simp)
        · rename_i t1 l1 h1
          split at hres
          · exact absurd hres (by simp)
          · rename_i t2 l2 h2
            have e1 : l1 = s.log := roadWalkX_blocked _ _ _ _ _ _ h1
            have e2 : l2 = l1 := roadWalkY_blocked _ _ _ _ _ _ h2
            injection hres with hres
            subst hres
            refine ⟨?_, rfl, rfl⟩
            show (if (!true) = true then l2 ++ [Effect.editMap t2] else l2) = s.log
            rw [e2, e1]
            rfl
    · have hform := fun fuel => event_left_up_click c env fuel s ev hty hb hroad
      have hnot : ¬ (ev.inside = true ∧ env.blockingDialogIsOpen = false) := by
        rw [hdlg]
        intro h
        exact absurd h.2 (by decide)
      constructor
      · intro fuel _
        exact ⟨_, hform fuel⟩
      · intro fuel s1 hres
        rw [hform fuel, if_neg hnot] at hres
        injection hres with hres
        subst hres
        exact ⟨rfl, rfl, rfl⟩
  · intro hdlg hin hrd fuel
    have hroad : ¬ (s.roadDragging = true ∧ ev.inside = true) := by
      rw [hrd]
      intro h
      exact absurd h.1 (by decide)
    rw [event_left_up_click c env fuel s ev hty hb hroad, if_pos ⟨hin, hdlg⟩]

/-- C20 at the release of a road drag from tile (0,0) to tile (2,2) with a modal dialog
open. -/
theorem left_up_dialog_witness :
    roadRelease.type = EventType.MOUSEBUTTONUP ∧ roadRelease.mousebutton = MouseButton.LEFT ∧
    ((dialogEnv.blockingDialogIsOpen = true →
      (∀ fuel : Nat,
        (((roadView ⟨0, 0⟩).getTile roadRelease.mousepos).x - (roadView ⟨0, 0⟩).startRoad.x).natAbs +
          (((roadView ⟨0, 0⟩).getTile roadRelease.mousepos).y -
            (roadView ⟨0, 0⟩).startRoad.y).natAbs < fuel →
        ∃ s1 : GameView, event exampleParams dialogEnv fuel (roadView ⟨0, 0⟩) roadRelease = some s1) ∧
      ∀ (fuel : Nat) (s1 : GameView),
        event exampleParams dialogEnv fuel (roadView ⟨0, 0⟩) roadRelease = some s1 →
        s1.log = (roadView ⟨0, 0⟩).log ∧ s1.roadDragging = false ∧ s1.leftButtonDown = false) ∧
    (dialogEnv.blockingDialogIsOpen = false → roadRelease.inside = true →
      (roadView ⟨0, 0⟩).roadDragging = false →
      ∀ fuel : Nat, event exampleParams dialogEnv fuel (roadView ⟨0, 0⟩) roadRelease =
        some { roadView ⟨0, 0⟩ with
          roadDragging := false
          leftButtonDown := false
          log := (roadView ⟨0, 0⟩).log ++
            [Effect.editMap ((roadView ⟨0, 0⟩).getTile roadRelease.mousepos)] })) :=
  ⟨rfl, rfl, left_up_dialog exampleParams dialogEnv (roadView ⟨0, 0⟩) roadRelease rfl rfl⟩

/-! ## Picking: theorems -/

/-- C24. Picking is diamond containment: for a view state with positive tile size and a screen
point `p`, with `T = getTile(p)`, `q = getScreenPoint(T)` and centre `(q.x, q.y - tileHeight/2)`,
the point `p` lies in the diamond of `T`:
`|p.x - q.x| / (tileWidth/2) + |p.y - (q.y - tileHeight/2)| / (tileHeight/2) <= 1`; and `getTile`
maps the diamond centre of every tile back to that tile. -/
theorem getTile_diamond (s : GameView) (p : Vector2)
    (hw : 0 < s.tileWidth) (hh : 0 < s.tileHeight) :
    |p.x - (s.getScreenPoint (s.getTile p)).x| / (s.tileWidth / 2) +
        |p.y - ((s.getScreenPoint (s.getTile p)).y - s.tileHeight / 2)| / (s.tileHeight / 2) ≤ 1 ∧
      ∀ T : MapPoint,
        s.getTile ⟨(s.getScreenPoint T).x, (s.getScreenPoint T).y - s.tileHeight / 2⟩ = T := by
  have hw0 : s.tileWidth ≠ 0 := ne_of_gt hw
  have hh0 : s.tileHeight ≠ 0 := ne_of_gt hh
  have hw2 : 0 < s.tileWidth / 2 := half_pos hw
  have hh2 : 0 < s.tileHeight / 2 := half_pos hh
  constructor
  · rw [getScreenPoint_eq, getTile_x_eq, getTile_y_eq]
    simp only []
    obtain ⟨sP, hsP⟩ : ∃ sP : ℚ, sP = (p.x + s.viewport.x - s.virtualScreenWidth / 2) / s.tileWidth
        + (p.y + s.viewport.y) / s.tileHeight := ⟨_, rfl⟩
    obtain ⟨dP, hdP⟩ : ∃ dP : ℚ, dP = 2 * (p.y + s.viewport.y) / s.tileHeight - sP := ⟨_, rfl⟩
    rw [← hsP, ← hdP]
    have ex : p.x - (s.virtualScreenWidth / 2 + ((⌊sP⌋ : ℚ) - (⌊dP⌋ : ℚ)) * s.tileWidth / 2
        - s.viewport.x) = s.tileWidth / 2 * ((sP - ⌊sP⌋) - (dP - ⌊dP⌋)) := by
      rw [hdP, hsP]
      generalize (⌊sP⌋ : ℚ) = X
      generalize (⌊dP⌋ : ℚ) = Y
      field_simp
      ring
    have ey : p.y - (((⌊sP⌋ : ℚ) + (⌊dP⌋ : ℚ)) * s.tileHeight / 2 + s.tileHeight - s.viewport.y
        - s.tileHeight / 2) = s.tileHeight / 2 * ((sP - ⌊sP⌋) + (dP - ⌊dP⌋) - 1) := by
      rw [hdP, hsP]
      generalize (⌊sP⌋ : ℚ) = X
      generalize (⌊dP⌋ : ℚ) = Y
      field_simp
      ring
    rw [ex, ey, abs_mul, abs_mul, abs_of_pos hw2, abs_of_pos hh2,
      mul_div_cancel_left₀ _ (ne_of_gt hw2), mul_div_cancel_left₀ _ (ne_of_gt hh2)]
    have a0 := Int.floor_le sP
    have a1 := Int.lt_floor_add_one sP
    have b0 := Int.floor_le dP
    have b1 := Int.lt_floor_add_one dP
    rcases abs_cases (sP - ⌊sP⌋ - (dP - ⌊dP⌋)) with ⟨h1, _⟩ | ⟨h1, _⟩ <;>
      rcases abs_cases (sP - ⌊sP⌋ + (dP - ⌊dP⌋) - 1) with ⟨h2, _⟩ | ⟨h2, _⟩ <;>
      rw [h1, h2] <;> linarith
  · intro T
    apply MapPoint.ext
    · rw [getTile_x_eq, getScreenPoint_eq]
      simp only []
      have e : (s.virtualScreenWidth / 2 + ((T.x : ℚ) - (T.y : ℚ)) * s.tileWidth / 2
            - s.viewport.x + s.viewport.x - s.virtualScreenWidth / 2) / s.tileWidth
          + (((T.x : ℚ) + (T.y : ℚ)) * s.tileHeight / 2 + s.tileHeight - s.viewport.y
            - s.tileHeight / 2 + s.viewport.y) / s.tileHeight = (T.x : ℚ) + 1 / 2 := by
        field_simp
        ring
      rw [e, floor_add_half]
    · rw [getTile_y_eq, getScreenPoint_eq]
      simp only []
      have e : 2 * (((T.x : ℚ) + (T.y : ℚ)) * s.tileHeight / 2 + s.tileHeight - s.viewport.y
            - s.tileHeight / 2 + s.viewport.y) / s.tileHeight
          - ((s.virtualScreenWidth / 2 + ((T.x : ℚ) - (T.y : ℚ)) * s.tileWidth / 2
            - s.viewport.x + s.viewport.x - s.virtualScreenWidth / 2) / s.tileWidth
          + (((T.x : ℚ) + (T.y : ℚ)) * s.tileHeight / 2 + s.tileHeight - s.viewport.y
            - s.tileHeight / 2 + s.viewport.y) / s.tileHeight) = (T.y : ℚ) + 1 / 2 := by
        field_simp
        ring
      rw [e, floor_add_half]

/-- C24 at the point (400, 300) of the example view. -/
theorem getTile_diamond_witness :
    (0 : ℚ) < exampleView.tileWidth ∧ (0 : ℚ) < exampleView.tileHeight ∧
    (|(⟨400, 300⟩ : Vector2).x - (exampleView.getScreenPoint (exampleView.getTile ⟨400, 300⟩)).x|
          / (exampleView.tileWidth / 2) +
        |(⟨400, 300⟩ : Vector2).y - ((exampleView.getScreenPoint
            (exampleView.getTile ⟨400, 300⟩)).y - exampleView.tileHeight / 2)|
          / (exampleView.tileHeight / 2) ≤ 1 ∧
      ∀ T : MapPoint,
        exampleView.getTile ⟨(exampleView.getScreenPoint T).x,
          (exampleView.getScreenPoint T).y - exampleView.tileHeight / 2⟩ = T) :=
  ⟨by norm_num [exampleView], by norm_num [exampleView],
    getTile_diamond exampleView ⟨400, 300⟩ (by norm_num [exampleView])
      (by norm_num [exampleView])⟩

/-! ## Enumeration order: theorems -/

theorem mem_drawOrder (UL : MapPoint) (lastK lastI : Int) (t : MapPoint) :
    t ∈ drawOrder UL lastK lastI ↔
      ∃ k i : Nat, (k : Int) ≤ lastK ∧ (i : Int) ≤ lastI ∧
        t = ⟨UL.x + (i : Int) + (k : Int) / 2 + (k : Int) % 2,
          UL.y - (i : Int) + (k : Int) / 2⟩ := by
  simp only [drawOrder, List.mem_flatMap, List.mem_map, List.mem_range]
  constructor
  · rintro ⟨k, hk, i, hi, rfl⟩
    exact ⟨k, i, by omega, by omega, rfl⟩
  · rintro ⟨k, i, hk, hi, rfl⟩
    exact ⟨k, by omega, i, by omega, rfl⟩

/-- One enumeration pass visits the tiles in strictly increasing lexicographic order of
`(x + y, x - y)`. -/
theorem drawOrder_pairwise_lex (UL : MapPoint) (lastK lastI : Int) :
    (drawOrder UL lastK lastI).Pairwise (fun a b =>
      a.x + a.y < b.x + b.y ∨ (a.x + a.y = b.x + b.y ∧ a.x - a.y < b.x - b.y)) := by
  simp only [drawOrder]
  rw [List.pairwise_flatMap]
  constructor
  · intro k _
    rw [List.pairwise_map]
    refine (List.pairwise_lt_range _).imp ?_
    intro i j hij
    right
    dsimp only
    omega
  · refine (List.pairwise_lt_range _).imp ?_
    intro k1 k2 hk x hx y hy
    simp only [List.mem_map, List.mem_range] at hx hy
    obtain ⟨i, _, rfl⟩ := hx
    obtain ⟨j, _, rfl⟩ := hy
    left
    dsimp only
    omega

/-- When the centre tile is in range, `draw` paints the background, runs the two enumeration
passes over `visitedTiles` and ends with the marker pass. -/
theorem draw_inside_eq (c : Params) (w : World) (env : Env) (fuel : Nat) (s : GameView)
    (painter : Painter)
    (h : 0 ≤ s.getCenter.x ∧ s.getCenter.x < c.WORLD_SIDE_LEN ∧
      0 ≤ s.getCenter.y ∧ s.getCenter.y < c.WORLD_SIDE_LEN) :
    draw c w env fuel s painter =
      (let background : Painter :=
        { setFillColor painter c.green with
          out := painter.out ++
            [Prim.fillRectangle c.green (Rect2D.ofCorners 0 0 s.width s.height)] }
      let drawn : GameView × Painter :=
        if s.mapOverlay ≠ c.overlayOnly then
          (visitedTiles s).foldl (fun sp currentTile => drawTile c w sp.1 sp.2 currentTile)
            (s, background)
        else (s, background)
      let overlaid : Painter :=
        if s.mapOverlay ≠ c.overlayNone then
          (visitedTiles s).foldl
            (fun painter currentTile => drawOverlay c w drawn.1 painter currentTile) drawn.2
        else drawn.2
      match drawMarker c w env fuel drawn.1 overlaid with
      | none => none
      | some painter => some (drawn.1, painter)) := by
  simp only [draw, drawClamp_inside c s.getCenter h, Bool.false_eq_true, if_false]
  rfl

/-- C25. Back-to-front draw order: the tiles of an enumeration pass of `draw` are visited in
strictly increasing lexicographic order of `(x + y, x - y)`; hence no tile is visited twice in
a pass, and (the tile height not being negative) a tile visited later never has a smaller
screen Y than one visited earlier. -/
theorem draw_order_back_to_front (s : GameView) (hh : 0 ≤ s.tileHeight) :
    (visitedTiles s).Pairwise (fun a b =>
        a.x + a.y < b.x + b.y ∨ (a.x + a.y = b.x + b.y ∧ a.x - a.y < b.x - b.y)) ∧
      (visitedTiles s).Nodup ∧
      (visitedTiles s).Pairwise (fun a b =>
        (s.getScreenPoint a).y ≤ (s.getScreenPoint b).y) := by
  have hlex := drawOrder_pairwise_lex
    { x := (s.getTile ⟨0, 0⟩).x - 7, y := (s.getTile ⟨0, 0⟩).y }
    (2 * ((s.getTile ⟨0, s.height⟩).y + 7 - (s.getTile ⟨0, 0⟩).y))
    ((s.getTile ⟨s.width, 0⟩).x + 7 - ((s.getTile ⟨0, 0⟩).x - 7))
  refine ⟨hlex, ?_, ?_⟩
  · refine hlex.imp ?_
    intro a b hab heq
    subst heq
    omega
  · refine hlex.imp ?_
    intro a b hab
    have hle : a.x + a.y ≤ b.x + b.y := by omega
    have hq : ((a.x : ℚ) + (a.y : ℚ)) ≤ (b.x : ℚ) + (b.y : ℚ) := by exact_mod_cast hle
    have hm := mul_le_mul_of_nonneg_right hq hh
    rw [getScreenPoint_eq, getScreenPoint_eq]
    dsimp only
    linarith

/-- C25 at the example view. -/
theorem draw_order_back_to_front_witness :
    (0 : ℚ) ≤ exampleView.tileHeight ∧
    ((visitedTiles exampleView).Pairwise (fun a b =>
        a.x + a.y < b.x + b.y ∨ (a.x + a.y = b.x + b.y ∧ a.x - a.y < b.x - b.y)) ∧
      (visitedTiles exampleView).Nodup ∧
      (visitedTiles exampleView).Pairwise (fun a b =>
        (exampleView.getScreenPoint a).y ≤ (exampleView.getScreenPoint b).y)) :=
  ⟨by norm_num [exampleView],
    draw_order_back_to_front exampleView (by norm_num [exampleView])⟩

/-! ## Visible region: theorems -/

/-- C22. Visible-region coverage: for a view state with positive tile size and a screen point
`p` with `0 <= p.x <= width` and `0 <= p.y <= height`, the tile `getTile(p)` is among the tiles
that the enumeration loops of `draw` visit (counters `k` in `[0, 2*(lowerLeft.y - upperLeft.y)]`
and `i` in `[0, upperRight.x - upperLeft.x]` after the margin of 7 tiles is applied). -/
theorem visible_region_covered (s : GameView) (p : Vector2)
    (hw : 0 < s.tileWidth) (hh : 0 < s.tileHeight)
    (hx0 : 0 ≤ p.x) (hx1 : p.x ≤ s.width) (hy0 : 0 ≤ p.y) (hy1 : p.y ≤ s.height) :
    s.getTile p ∈ visitedTiles s := by
  obtain ⟨a, ha⟩ : ∃ a : ℚ, a = (s.viewport.x - s.virtualScreenWidth / 2) / s.tileWidth :=
    ⟨_, rfl⟩
  obtain ⟨b, hb⟩ : ∃ b : ℚ, b = s.viewport.y / s.tileHeight := ⟨_, rfl⟩
  obtain ⟨α, hα⟩ : ∃ α : ℚ, α = p.x / s.tileWidth := ⟨_, rfl⟩
  obtain ⟨β, hβ⟩ : ∃ β : ℚ, β = p.y / s.tileHeight := ⟨_, rfl⟩
  obtain ⟨A, hA⟩ : ∃ A : ℚ, A = s.width / s.tileWidth := ⟨_, rfl⟩
  obtain ⟨B, hB⟩ : ∃ B : ℚ, B = s.height / s.tileHeight := ⟨_, rfl⟩
  have hα0 : 0 ≤ α := by
    rw [hα]
    exact div_nonneg hx0 hw.le
  have hαA : α ≤ A := by
    rw [hα, hA]
    exact (div_le_div_iff_of_pos_right hw).mpr hx1
  have hβ0 : 0 ≤ β := by
    rw [hβ]
    exact div_nonneg hy0 hh.le
  have hβB : β ≤ B := by
    rw [hβ, hB]
    exact (div_le_div_iff_of_pos_right hh).mpr hy1
  have eX : (s.getTile p).x = ⌊a + α + b + β⌋ := by
    rw [getTile_x_eq, ha, hα, hb, hβ]
    exact congrArg Int.floor (by ring)
  have eY : (s.getTile p).y = ⌊b + β - a - α⌋ := by
    rw [getTile_y_eq, ha, hα, hb, hβ]
    exact congrArg Int.floor (by ring)
  have eULx : (s.getTile ⟨0, 0⟩).x = ⌊a + b⌋ := by
    rw [getTile_x_eq, ha, hb]
    exact congrArg Int.floor (by ring)
  have eULy : (s.getTile ⟨0, 0⟩).y = ⌊b - a⌋ := by
    rw [getTile_y_eq, ha, hb]
    exact congrArg Int.floor (by ring)
  have eURx : (s.getTile ⟨s.width, 0⟩).x = ⌊a + A + b⌋ := by
    rw [getTile_x_eq, ha, hb, hA]
    exact congrArg Int.floor (by ring)
  have eLLy : (s.getTile ⟨0, s.height⟩).y = ⌊b + B - a⌋ := by
    rw [getTile_y_eq, ha, hb, hB]
    exact congrArg Int.floor (by ring)
  have x0 := Int.floor_le (a + α + b + β)
  have x1 := Int.lt_floor_add_one (a + α + b + β)
  have y0 := Int.floor_le (b + β - a - α)
  have y1 := Int.lt_floor_add_one (b + β - a - α)
  have ulx0 := Int.floor_le (a + b)
  have ulx1 := Int.lt_floor_add_one (a + b)
  have uly0 := Int.floor_le (b - a)
  have uly1 := Int.lt_floor_add_one (b - a)
  have urx1 := Int.lt_floor_add_one (a + A + b)
  have lly1 := Int.lt_floor_add_one (b + B - a)
  have h1 : (s.getTile ⟨0, 0⟩).x + (s.getTile ⟨0, 0⟩).y - 2 <
      (s.getTile p).x + (s.getTile p).y := by
    rw [eX, eY, eULx, eULy]
    have h : (⌊a + b⌋ : ℚ) + (⌊b - a⌋ : ℚ) - 2 <
        (⌊a + α + b + β⌋ : ℚ) + (⌊b + β - a - α⌋ : ℚ) := by linarith
    exact_mod_cast h
  have h2 : (s.getTile p).x + (s.getTile p).y <
      (s.getTile ⟨0, 0⟩).x + (s.getTile ⟨0, 0⟩).y
        + 2 * ((s.getTile ⟨0, s.height⟩).y - (s.getTile ⟨0, 0⟩).y) + 4 := by
    rw [eX, eY, eULx, eULy, eLLy]
    have h : (⌊a + α + b + β⌋ : ℚ) + (⌊b + β - a - α⌋ : ℚ) <
        (⌊a + b⌋ : ℚ) + (⌊b - a⌋ : ℚ) + 2 * ((⌊b + B - a⌋ : ℚ) - (⌊b - a⌋ : ℚ)) + 4 := by
      linarith
    exact_mod_cast h
  have h3 : (s.getTile ⟨0, 0⟩).x - (s.getTile ⟨0, 0⟩).y - 2 <
      (s.getTile p).x - (s.getTile p).y := by
    rw [eX, eY, eULx, eULy]
    have h : (⌊a + b⌋ : ℚ) - (⌊b - a⌋ : ℚ) - 2 <
        (⌊a + α + b + β⌋ : ℚ) - (⌊b + β - a - α⌋ : ℚ) := by linarith
    exact_mod_cast h
  have h4 : (s.getTile p).x - (s.getTile p).y <
      (s.getTile ⟨0, 0⟩).x - (s.getTile ⟨0, 0⟩).y
        + 2 * ((s.getTile ⟨s.width, 0⟩).x - (s.getTile ⟨0, 0⟩).x) + 4 := by
    rw [eX, eY, eULx, eULy, eURx]
    have h : (⌊a + α + b + β⌋ : ℚ) - (⌊b + β - a - α⌋ : ℚ) <
        (⌊a + b⌋ : ℚ) - (⌊b - a⌋ : ℚ) + 2 * ((⌊a + A + b⌋ : ℚ) - (⌊a + b⌋ : ℚ)) + 4 := by
      linarith
    exact_mod_cast h
  unfold visitedTiles
  rw [mem_drawOrder]
  dsimp only
  refine ⟨((s.getTile p).x + (s.getTile p).y - ((s.getTile ⟨0, 0⟩).x - 7)
      - (s.getTile ⟨0, 0⟩).y).toNat,
    (((s.getTile p).x - (s.getTile p).y - ((s.getTile ⟨0, 0⟩).x - 7)
      + (s.getTile ⟨0, 0⟩).y) / 2).toNat, ?_, ?_, ?_⟩
  · omega
  · omega
  · apply MapPoint.ext
    · dsimp only
      omega
    · dsimp only
      omega

/-- C22 at the lower right corner of the example view. -/
theorem visible_region_covered_witness :
    (0 : ℚ) < exampleView.tileWidth ∧ (0 : ℚ) < exampleView.tileHeight ∧
    (0 : ℚ) ≤ (⟨800, 600⟩ : Vector2).x ∧ (⟨800, 600⟩ : Vector2).x ≤ exampleView.width ∧
    (0 : ℚ) ≤ (⟨800, 600⟩ : Vector2).y ∧ (⟨800, 600⟩ : Vector2).y ≤ exampleView.height ∧
    exampleView.getTile ⟨800, 600⟩ ∈ visitedTiles exampleView :=
  ⟨by norm_num [exampleView], by norm_num [exampleView], by norm_num, by norm_num [exampleView],
    by norm_num, by norm_num [exampleView],
    visible_region_covered exampleView ⟨800, 600⟩ (by norm_num [exampleView])
      (by norm_num [exampleView]) (by norm_num) (by norm_num [exampleView]) (by norm_num)
      (by norm_num [exampleView])⟩

/-! ## Marker path: theorems -/

theorem markWalkX_fold (c : Params) (w : World) (env : Env) (s : GameView) (mfuel : Nat)
    (stepx : Int) (hstep : stepx = 1 ∨ stepx = -1) :
    ∀ (n fuel : Nat) (cur : MapPoint) (painter : Painter),
      s.tileUnderMouse.x - cur.x = stepx * (n : Int) → n < fuel →
      markWalkX c w env s mfuel stepx fuel cur painter =
        (((List.range n).map
            (fun (i : Nat) => (⟨cur.x + stepx * (i : Int), cur.y⟩ : MapPoint))).foldlM
          (fun p t => markTile c w env mfuel s p t) painter).map
          (fun p => ((⟨s.tileUnderMouse.x, cur.y⟩ : MapPoint), p)) := by
  intro n
  induction n with
  | zero =>
    intro fuel cur painter h hf
    obtain ⟨f, rfl⟩ : ∃ f, fuel = f + 1 := ⟨fuel - 1, by omega⟩
    have hx : cur.x = s.tileUnderMouse.x := by
      simp only [Nat.cast_zero, mul_zero] at h
      omega
    simp [markWalkX, hx.symm]
  | succ n ih =>
    intro fuel cur painter h hf
    obtain ⟨f, rfl⟩ : ∃ f, fuel = f + 1 := ⟨fuel - 1, by omega⟩
    obtain ⟨cx, cy⟩ := cur
    dsimp only at h ⊢
    have hx : cx ≠ s.tileUnderMouse.x := by
      rcases hstep with rfl | rfl <;> push_cast at h <;> omega
    have hnext : s.tileUnderMouse.x - (cx + stepx) = stepx * (n : Int) := by
      push_cast at h
      linarith
    have hrec := fun p1 => ih f ⟨cx + stepx, cy⟩ p1 hnext (by omega)
    dsimp only at hrec
    have e : List.map ((fun (i : Nat) => (⟨cx + stepx * (i : Int), cy⟩ : MapPoint)) ∘ Nat.succ)
          (List.range n) =
        List.map (fun (i : Nat) => (⟨cx + stepx + stepx * (i : Int), cy⟩ : MapPoint))
          (List.range n) := by
      apply List.map_congr_left
      intro i _
      simp only [Function.comp, Nat.cast_succ]
      congr 1
      ring
    rw [List.range_succ_eq_map, List.map_cons, List.map_map, e, List.foldlM_cons]
    simp only [markWalkX, ne_eq, hx, not_false_eq_true, if_true, Nat.cast_zero, mul_zero,
      add_zero]
    cases hm : markTile c w env mfuel s painter ⟨cx, cy⟩ with
    | none => rfl
    | some p1 =>
      exact hrec p1

theorem markWalkY_fold (c : Params) (w : World) (env : Env) (s : GameView) (mfuel : Nat)
    (stepy : Int) (hstep : stepy = 1 ∨ stepy = -1) :
    ∀ (n fuel : Nat) (cur : MapPoint) (painter : Painter),
      s.tileUnderMouse.y - cur.y = stepy * (n : Int) → n < fuel →
      markWalkY c w env s mfuel stepy fuel cur painter =
        (((List.range n).map
            (fun (j : Nat) => (⟨cur.x, cur.y + stepy * (j : Int)⟩ : MapPoint))).foldlM
          (fun p t => markTile c w env mfuel s p t) painter).map
          (fun p => ((⟨cur.x, s.tileUnderMouse.y⟩ : MapPoint), p)) := by
  intro n
  induction n with
  | zero =>
    intro fuel cur painter h hf
    obtain ⟨f, rfl⟩ : ∃ f, fuel = f + 1 := ⟨fuel - 1, by omega⟩
    have hy : cur.y = s.tileUnderMouse.y := by
      simp only [Nat.cast_zero, mul_zero] at h
      omega
    simp [markWalkY, hy.symm]
  | succ n ih =>
    intro fuel cur painter h hf
    obtain ⟨f, rfl⟩ : ∃ f, fuel = f + 1 := ⟨fuel - 1, by omega⟩
    obtain ⟨cx, cy⟩ := cur
    dsimp only at h ⊢
    have hy : cy ≠ s.tileUnderMouse.y := by
      rcases hstep with rfl | rfl <;> push_cast at h <;> omega
    have hnext : s.tileUnderMouse.y - (cy + stepy) = stepy * (n : Int) := by
      push_cast at h
      linarith
    have hrec := fun p1 => ih f ⟨cx, cy + stepy⟩ p1 hnext (by omega)
    dsimp only at hrec
    have e : List.map ((fun (j : Nat) => (⟨cx, cy + stepy * (j : Int)⟩ : MapPoint)) ∘ Nat.succ)
          (List.range n) =
        List.map (fun (j : Nat) => (⟨cx, cy + stepy + stepy * (j : Int)⟩ : MapPoint))
          (List.range n) := by
      apply List.map_congr_left
      intro j _
      simp only [Function.comp, Nat.cast_succ]
      congr 1
      ring
    rw [List.range_succ_eq_map, List.map_cons, List.map_map, e, List.foldlM_cons]
    simp only [markWalkY, ne_eq, hy, not_false_eq_true, if_true, Nat.cast_zero, mul_zero,
      add_zero]
    cases hm : markTile c w env mfuel s painter ⟨cx, cy⟩ with
    | none => rfl
    | some p1 =>
      exact hrec p1

/-- During a road drag with the pointer in the view and no modal dialog, the marker pass of
`draw` calls `markTile` on the tiles of the L-shaped path from `startRoad` to
`tileUnderMouse`, in path order. -/
theorem drawMarker_fold (c : Params) (w : World) (env : Env) (s : GameView) (painter : Painter)
    (fuel : Nat) (hmouse : s.mouseInGameView = true) (hdlg : env.blockingDialogIsOpen = false)
    (hrd : s.roadDragging = true)
    (hfuel : (s.tileUnderMouse.x - s.startRoad.x).natAbs +
      (s.tileUnderMouse.y - s.startRoad.y).natAbs < fuel) :
    drawMarker c w env fuel s painter =
      (specRoadPath s.startRoad s.tileUnderMouse).foldlM
        (fun p t => markTile c w env fuel s p t) painter := by
  have hsx : (if s.startRoad.x > s.tileUnderMouse.x then (-1 : Int) else 1) = 1 ∨
      (if s.startRoad.x > s.tileUnderMouse.x then (-1 : Int) else 1) = -1 := by
    split_ifs
    · exact Or.inr rfl
    · exact Or.inl rfl
  have hsy : (if s.startRoad.y > s.tileUnderMouse.y then (-1 : Int) else 1) = 1 ∨
      (if s.startRoad.y > s.tileUnderMouse.y then (-1 : Int) else 1) = -1 := by
    split_ifs
    · exact Or.inr rfl
    · exact Or.inl rfl
  have hX := fun p => markWalkX_fold c w env s fuel _ hsx
    (s.tileUnderMouse.x - s.startRoad.x).natAbs fuel s.startRoad p
    (by split_ifs <;> omega) (by omega)
  have hY := fun p => markWalkY_fold c w env s fuel _ hsy
    (s.tileUnderMouse.y - s.startRoad.y).natAbs fuel ⟨s.tileUnderMouse.x, s.startRoad.y⟩ p
    (by
      show s.tileUnderMouse.y - s.startRoad.y = _
      split_ifs <;> omega) (by omega)
  dsimp only at hY
  rw [specRoadPath_eq_steps]
  simp only [List.foldlM_append]
  simp only [drawMarker, hmouse, hdlg, hrd, Bool.not_false, Bool.and_self, if_true]
  rw [hX painter]
  cases h1 : List.foldlM (fun p t => markTile c w env fuel s p t) painter
      (List.map (fun (i : Nat) => (⟨s.startRoad.x +
        (if s.startRoad.x > s.tileUnderMouse.x then -1 else 1) * (i : Int), s.startRoad.y⟩ :
          MapPoint))
        (List.range (s.tileUnderMouse.x - s.startRoad.x).natAbs)) with
  | none => rfl
  | some p1 =>
    simp only [Option.map_some', Option.bind_eq_bind, Option.some_bind]
    rw [hY p1]
    cases h2 : List.foldlM (fun p t => markTile c w env fuel s p t) p1
        (List.map (fun (j : Nat) => (⟨s.tileUnderMouse.x, s.startRoad.y +
          (if s.startRoad.y > s.tileUnderMouse.y then -1 else 1) * (j : Int)⟩ : MapPoint))
          (List.range (s.tileUnderMouse.y - s.startRoad.y).natAbs)) with
    | none => rfl
    | some p2 =>
      simp only [Option.map_some', Option.some_bind, List.foldlM_cons, List.foldlM_nil,
        Option.bind_eq_bind]
      cases markTile c w env fuel s p2 s.tileUnderMouse <;> rfl

theorem markTile_agree (c : Params) (w : World) (env : Env) (fuel : Nat) (s s1 : GameView)
    (painter : Painter) (tile : MapPoint) (hag : AgreeButTables s s1) :
    markTile c w env fuel s1 painter tile = markTile c w env fuel s painter tile := by
  obtain ⟨t, i, rfl⟩ := hag
  rfl

/-- When the centre tile is in range, `draw` ends with the marker pass, run on a state that
differs from the state before at most in the two art tables. -/
theorem draw_inside_marker (c : Params) (w : World) (env : Env) (fuel : Nat) (s : GameView)
    (painter : Painter)
    (h : 0 ≤ s.getCenter.x ∧ s.getCenter.x < c.WORLD_SIDE_LEN ∧
      0 ≤ s.getCenter.y ∧ s.getCenter.y < c.WORLD_SIDE_LEN) :
    ∃ (s1 : GameView) (p0 : Painter), AgreeButTables s s1 ∧
      draw c w env fuel s painter =
        (drawMarker c w env fuel s1 p0).map (fun p => (s1, p)) := by
  rw [draw_inside_eq c w env fuel s painter h]
  dsimp only
  have key : ∀ (d : GameView × Painter) (q : Painter), AgreeButTables s d.1 →
      ∃ (s1 : GameView) (p0 : Painter), AgreeButTables s s1 ∧
        (match drawMarker c w env fuel d.1 q with
          | none => none
          | some painter => some (d.1, painter)) =
          (drawMarker c w env fuel s1 p0).map (fun p => (s1, p)) := by
    intro d q hag
    refine ⟨d.1, q, hag, ?_⟩
    cases drawMarker c w env fuel d.1 q <;> rfl
  apply key
  exact agree_ite s _ _ _ (foldl_drawTile_agree c w _ s _) (AgreeButTables_refl s)

theorem drawMarker_fold_of_agree (c : Params) (w : World) (env : Env) (s s1 : GameView)
    (painter : Painter) (fuel : Nat) (hag : AgreeButTables s s1)
    (hmouse : s.mouseInGameView = true) (hdlg : env.blockingDialogIsOpen = false)
    (hrd : s.roadDragging = true)
    (hfuel : (s.tileUnderMouse.x - s.startRoad.x).natAbs +
      (s.tileUnderMouse.y - s.startRoad.y).natAbs < fuel) :
    drawMarker c w env fuel s1 painter =
      (specRoadPath s.startRoad s.tileUnderMouse).foldlM
        (fun p t => markTile c w env fuel s p t) painter := by
  have hm : (fun p t => markTile c w env fuel s1 p t) =
      (fun p t => markTile c w env fuel s p t) := by
    funext p t
    exact markTile_agree c w env fuel s s1 p t hag
  obtain ⟨t, i, rfl⟩ := hag
  have h := drawMarker_fold c w env { s with cityTextures := t, cityImages := i } painter fuel
    hmouse hdlg hrd hfuel
  rw [h, hm]

/-- Left button-up inside the view that ends a road drag, with no modal dialog: the edit
requests appended to the log are those of the L-shaped path from `startRoad` to the tile under
the pointer. -/
theorem event_road_release_log (c : Params) (env : Env) (s : GameView) (ev : Event) (fuel : Nat)
    (hty : ev.type = EventType.MOUSEBUTTONUP) (hb : ev.mousebutton = MouseButton.LEFT)
    (hin : ev.inside = true) (hrd : s.roadDragging = true)
    (hdlg : env.blockingDialogIsOpen = false)
    (hfuel : ((s.getTile ev.mousepos).x - s.startRoad.x).natAbs
      + ((s.getTile ev.mousepos).y - s.startRoad.y).natAbs < fuel) :
    event c env fuel s ev =
      some { s with
        roadDragging := false
        leftButtonDown := false
        log := s.log ++ (specRoadPath s.startRoad (s.getTile ev.mousepos)).map Effect.editMap } := by
  have hnm : ¬ ev.mousebutton = MouseButton.MIDDLE := by
    rw [hb]
    decide
  have hsx : (if s.startRoad.x > (s.getTile ev.mousepos).x then (-1 : Int) else 1) = 1 ∨
      (if s.startRoad.x > (s.getTile ev.mousepos).x then (-1 : Int) else 1) = -1 := by
    split_ifs
    · exact Or.inr rfl
    · exact Or.inl rfl
  have hsy : (if s.startRoad.y > (s.getTile ev.mousepos).y then (-1 : Int) else 1) = 1 ∨
      (if s.startRoad.y > (s.getTile ev.mousepos).y then (-1 : Int) else 1) = -1 := by
    split_ifs
    · exact Or.inr rfl
    · exact Or.inl rfl
  have hX := roadWalkX_run (s.getTile ev.mousepos) _ hsx
    ((s.getTile ev.mousepos).x - s.startRoad.x).natAbs fuel s.startRoad s.log
    (by split_ifs <;> omega) (by omega)
  have hY := roadWalkY_run (s.getTile ev.mousepos) _ hsy
    ((s.getTile ev.mousepos).y - s.startRoad.y).natAbs fuel
    ⟨(s.getTile ev.mousepos).x, s.startRoad.y⟩
    (s.log ++ (List.range ((s.getTile ev.mousepos).x - s.startRoad.x).natAbs).map
      (fun (i : Nat) => Effect.editMap
        ⟨s.startRoad.x + (if s.startRoad.x > (s.getTile ev.mousepos).x then -1 else 1) * (i : Int),
          s.startRoad.y⟩))
    (by
      show (s.getTile ev.mousepos).y - s.startRoad.y = _
      split_ifs <;> omega) (by omega)
  simp only [event, hty, eventMouseButtonUp, hnm, if_false, eventMouseButtonUpLeft, hb, hrd, hin,
    and_self, if_true, hdlg]
  rw [hX]
  simp only []
  rw [hY]
  simp only [Bool.not_false, if_true, specRoadPath_eq_steps, List.map_append, List.map_map,
    List.append_assoc, List.map_cons, List.map_nil]
  rfl

/-- C21. Marker path equals edit path: during a road drag from `startRoad` with the pointer in
the view over tile `E` and no modal dialog open, the marker pass of `draw` returns (fuel above
twice the cursor size plus the Manhattan distance) and is the successive application of
`markTile` to the tiles of the L-shaped path from `startRoad` to `E`, in path order; when the
centre tile is in range this is how `draw` ends; and a left button-up inside the view over `E`
appends edit requests for the tiles of the same path, in the same order. -/
theorem marker_path_eq_edit_path (c : Params) (w : World) (env : Env) (s : GameView)
    (ev : Event) (painter : Painter) (fuel : Nat) (E : MapPoint)
    (hmouse : s.mouseInGameView = true) (hdlg : env.blockingDialogIsOpen = false)
    (hrd : s.roadDragging = true) (hE : s.tileUnderMouse = E)
    (hty : ev.type = EventType.MOUSEBUTTONUP) (hb : ev.mousebutton = MouseButton.LEFT)
    (hin : ev.inside = true) (hE2 : s.getTile ev.mousepos = E)
    (hfuel : 2 * s.cursorSize.toNat + (E.x - s.startRoad.x).natAbs +
      (E.y - s.startRoad.y).natAbs < fuel) :
    (∃ p : Painter, drawMarker c w env fuel s painter = some p) ∧
    drawMarker c w env fuel s painter =
      (specRoadPath s.startRoad E).foldlM (fun p t => markTile c w env fuel s p t) painter ∧
    ((0 ≤ s.getCenter.x ∧ s.getCenter.x < c.WORLD_SIDE_LEN ∧
        0 ≤ s.getCenter.y ∧ s.getCenter.y < c.WORLD_SIDE_LEN) →
      ∃ (s1 : GameView) (p0 : Painter), AgreeButTables s s1 ∧
        draw c w env fuel s painter =
          ((specRoadPath s.startRoad E).foldlM (fun p t => markTile c w env fuel s p t) p0).map
            (fun p => (s1, p))) ∧
    event c env fuel s ev =
      some { s with
        roadDragging := false
        leftButtonDown := false
        log := s.log ++ (specRoadPath s.startRoad E).map Effect.editMap } := by
  subst hE
  refine ⟨?_, ?_, ?_, ?_⟩
  · exact drawMarker_isSome c w env s painter fuel hfuel
  · exact drawMarker_fold c w env s painter fuel hmouse hdlg hrd (by omega)
  · intro hcenter
    obtain ⟨s1, p0, hag, hdraw⟩ := draw_inside_marker c w env fuel s painter hcenter
    refine ⟨s1, p0, hag, ?_⟩
    rw [hdraw, drawMarker_fold_of_agree c w env s s1 p0 fuel hag hmouse hdlg hrd (by omega)]
  · rw [event_road_release_log c env s ev fuel hty hb hin hrd hdlg (by rw [hE2]; omega), hE2]

theorem getTile_markerView : markerView.getTile roadRelease.mousepos = ⟨2, 2⟩ :=
  getTile_roadRelease ⟨0, 0⟩

/-- C21 at the drag from tile (0,0) with the pointer over tile (2,2). -/
theorem marker_path_eq_edit_path_witness :
    markerView.mouseInGameView = true ∧ exampleEnv.blockingDialogIsOpen = false ∧
    markerView.roadDragging = true ∧ markerView.tileUnderMouse = ⟨2, 2⟩ ∧
    roadRelease.type = EventType.MOUSEBUTTONUP ∧ roadRelease.mousebutton = MouseButton.LEFT ∧
    roadRelease.inside = true ∧ markerView.getTile roadRelease.mousepos = ⟨2, 2⟩ ∧
    2 * markerView.cursorSize.toNat + ((2 : Int) - markerView.startRoad.x).natAbs +
      ((2 : Int) - markerView.startRoad.y).natAbs < 7 ∧
    ((∃ p : Painter,
        drawMarker exampleParams footprintWorld exampleEnv 7 markerView emptyPainter = some p) ∧
    drawMarker exampleParams footprintWorld exampleEnv 7 markerView emptyPainter =
      (specRoadPath markerView.startRoad ⟨2, 2⟩).foldlM
        (fun p t => markTile exampleParams footprintWorld exampleEnv 7 markerView p t)
        emptyPainter ∧
    ((0 ≤ markerView.getCenter.x ∧ markerView.getCenter.x < exampleParams.WORLD_SIDE_LEN ∧
        0 ≤ markerView.getCenter.y ∧ markerView.getCenter.y < exampleParams.WORLD_SIDE_LEN) →
      ∃ (s1 : GameView) (p0 : Painter), AgreeButTables markerView s1 ∧
        draw exampleParams footprintWorld exampleEnv 7 markerView emptyPainter =
          ((specRoadPath markerView.startRoad ⟨2, 2⟩).foldlM
            (fun p t => markTile exampleParams footprintWorld exampleEnv 7 markerView p t)
            p0).map (fun p => (s1, p))) ∧
    event exampleParams exampleEnv 7 markerView roadRelease =
      some { markerView with
        roadDragging := false
        leftButtonDown := false
        log := markerView.log ++
          (specRoadPath markerView.startRoad ⟨2, 2⟩).map Effect.editMap }) :=
  ⟨rfl, rfl, rfl, rfl, rfl, rfl, rfl, getTile_markerView, by decide,
    marker_path_eq_edit_path exampleParams footprintWorld exampleEnv markerView roadRelease
      emptyPainter 7 ⟨2, 2⟩ rfl rfl rfl rfl rfl rfl rfl getTile_markerView (by decide)⟩

/-! ## Reads outside the grid: theorems -/

/-- C23 (evaluation at the failing input). Tile (100, 0) lies outside the 100 x 100 grid, yet
`drawOverlay` does not take the black branch for it: the fill colour it sets, and the colour of
the diamond it fills, is what the minimap lookup returns at (100, 0), in every world; in
`edgeWorld` that is the colour of a lookup outside the grid, not black. -/
theorem drawOverlay_reads_outside :
    ¬ ((0 : Int) ≤ 100 ∧ (100 : Int) < exampleParams.WORLD_SIDE_LEN) ∧
    (∀ w : World,
      (drawOverlay exampleParams w overlayView emptyPainter ⟨100, 0⟩).fillColor =
          w.getColor 100 0 ∧
        ∃ pts : List Vector2,
          (drawOverlay exampleParams w overlayView emptyPainter ⟨100, 0⟩).out =
            [Prim.fillPolygon (w.getColor 100 0) pts]) ∧
    (drawOverlay exampleParams edgeWorld overlayView emptyPainter ⟨100, 0⟩).fillColor =
      ⟨255, 0, 255, 255⟩ ∧
    (drawOverlay exampleParams edgeWorld overlayView emptyPainter ⟨100, 0⟩).fillColor ≠
      exampleParams.black := by
  have hgen : ∀ w : World,
      drawOverlay exampleParams w overlayView emptyPainter ⟨100, 0⟩ =
        fillDiamond (setFillColor emptyPainter (w.getColor 100 0))
          ((Rect2D.ofCorners 0 0 overlayView.tileWidth overlayView.tileHeight).move
            ⟨(overlayView.getScreenPoint ⟨100, 0⟩).x - overlayView.tileWidth / 2,
              (overlayView.getScreenPoint ⟨100, 0⟩).y - overlayView.tileHeight⟩) := by
    intro w
    have hcond : ¬ ((100 : Int) > exampleParams.WORLD_SIDE_LEN ∨
        (0 : Int) > exampleParams.WORLD_SIDE_LEN ∨ (100 : Int) < 0 ∨ (0 : Int) < 0) := by
      decide
    have hov : ¬ overlayView.mapOverlay = exampleParams.overlayOn := by decide
    simp only [drawOverlay, hcond, hov, if_false]
  refine ⟨by decide, ?_, ?_, ?_⟩
  · intro w
    rw [hgen w]
    exact ⟨rfl, _, rfl⟩
  · rw [hgen edgeWorld]
    rfl
  · rw [hgen edgeWorld]
    decide

/-- C26 (evaluation at the failing input). With the harbour selected and a 1 x 1 cursor on tile
(99, 0), `markTile` reads `MP_GROUP` at (100, 0), outside the 100 x 100 grid: two worlds that
agree on every cell of the grid and differ only in what a read outside the grid returns give
cursors of different colour, blue in one and red in the other. -/
theorem markTile_reads_outside :
    (∀ x y : Int, 0 ≤ x → x < exampleParams.WORLD_SIDE_LEN → 0 ≤ y →
      y < exampleParams.WORLD_SIDE_LEN →
      (riverWorld 3).MP_TYPE x y = (riverWorld 0).MP_TYPE x y ∧
      (riverWorld 3).MP_GROUP x y = (riverWorld 0).MP_GROUP x y ∧
      (riverWorld 3).MP_INFO_flags x y = (riverWorld 0).MP_INFO_flags x y) ∧
    (markTile exampleParams (riverWorld 3) portEnv 4 cursor1View emptyPainter ⟨99, 0⟩).map
      Painter.fillColor = some alphablue ∧
    (markTile exampleParams (riverWorld 0) portEnv 4 cursor1View emptyPainter ⟨99, 0⟩).map
      Painter.fillColor = some alphared := by
  refine ⟨?_, ?_, ?_⟩
  · intro x y hx0 hx1 hy0 hy1
    have hx1 : x < 100 := hx1
    have hy1 : y < 100 := hy1
    refine ⟨rfl, ?_, rfl⟩
    simp only [riverWorld, hx0, hx1, hy0, hy1, and_self, if_true]
  · decide
  · decide

end GameView

end LincityNG
